import Mathlib

/-! Gossip layer of the validator P2P node, choice of the proposer, block builder.

A shallow embedding of `src/Proof_Of_Stake_Works/how_validators_communicate.js`
(classes `Peer`, `NetworkSocket` and `ValidatorP2P`) and the properties of its
gossip protocol (in `P2P`); of the script
`src/Proof_Of_Stake_Works/how_validator_randomly_chosen.js` (in `Randao`); and
of the selection of transactions and attestations by class `BlockBuilder` of
`src/Proof_Of_Stake_Works/what_block_actually.js` (in `Blocks`). The
definitions of the three come first, then the theorems.

Conventions of the embedding.

* JavaScript values are the JSON-shaped trees of `JsVal`. Numbers are integers.
  Arrays and objects carry the identity of the object (`ref`): that identity,
  and nothing else, is what `===` and `Map` keys compare for them.
* A method that mutates `this` takes the state and returns the new state.
* A `throw` is an `Except.error`.
* `Date.now()`, the bytes of `crypto.randomBytes` and the identity of a newly
  created object are arguments of the function that asks for them.
* `JSON.stringify`, SHA-256 and the behaviour of the application's subscriber
  callbacks are the fields of `Env`; every theorem holds for every `Env`.
* Every synchronous method runs to completion before anything else starts (the
  program is single-threaded). An `async` method is cut at its `await`: the
  part before it and the part after it are two functions, and other calls may
  run in between. `healthCheck` and `discoverPeers` are given as whole runs,
  with nothing else acting on the node during their `await`s; what each
  `await` comes to (a PONG or a timeout, a response, a connection or a
  failure) is an argument.
* `console.log` output is not modelled; a counter that the source only logs is
  returned next to the result.
-/

namespace P2P

/-! ## JavaScript values -/

/-- A JavaScript value of the shapes that JSON can carry, plus `undefined`
(the value of a missing property). -/
inductive JsVal where
  | undefined : JsVal
  | null : JsVal
  | bool (b : Bool) : JsVal
  | num (n : Int) : JsVal
  | str (s : String) : JsVal
  | arr (ref : Nat) (items : List JsVal) : JsVal
  | obj (ref : Nat) (fields : List (String × JsVal)) : JsVal
  deriving Repr

namespace JsVal

mutual
/-- Decision procedure for equality of values. -/
def decEqVal : (a b : JsVal) → Decidable (a = b)
  | undefined, undefined => isTrue rfl
  | null, null => isTrue rfl
  | bool x, bool y =>
    if h : x = y then isTrue (by rw [h]) else isFalse (by intro e; cases e; exact h rfl)
  | num x, num y =>
    if h : x = y then isTrue (by rw [h]) else isFalse (by intro e; cases e; exact h rfl)
  | str x, str y =>
    if h : x = y then isTrue (by rw [h]) else isFalse (by intro e; cases e; exact h rfl)
  | arr r xs, arr q ys =>
    if h : r = q then
      match decEqItems xs ys with
      | isTrue e => isTrue (by rw [h, e])
      | isFalse n => isFalse (by intro e; cases e; exact n rfl)
    else isFalse (by intro e; cases e; exact h rfl)
  | obj r xs, obj q ys =>
    if h : r = q then
      match decEqFields xs ys with
      | isTrue e => isTrue (by rw [h, e])
      | isFalse n => isFalse (by intro e; cases e; exact n rfl)
    else isFalse (by intro e; cases e; exact h rfl)
  | undefined, null | undefined, bool _ | undefined, num _ | undefined, str _
  | undefined, arr _ _ | undefined, obj _ _ => isFalse (by intro e; cases e)
  | null, undefined | null, bool _ | null, num _ | null, str _
  | null, arr _ _ | null, obj _ _ => isFalse (by intro e; cases e)
  | bool _, undefined | bool _, null | bool _, num _ | bool _, str _
  | bool _, arr _ _ | bool _, obj _ _ => isFalse (by intro e; cases e)
  | num _, undefined | num _, null | num _, bool _ | num _, str _
  | num _, arr _ _ | num _, obj _ _ => isFalse (by intro e; cases e)
  | str _, undefined | str _, null | str _, bool _ | str _, num _
  | str _, arr _ _ | str _, obj _ _ => isFalse (by intro e; cases e)
  | arr _ _, undefined | arr _ _, null | arr _ _, bool _ | arr _ _, num _
  | arr _ _, str _ | arr _ _, obj _ _ => isFalse (by intro e; cases e)
  | obj _ _, undefined | obj _ _, null | obj _ _, bool _ | obj _ _, num _
  | obj _ _, str _ | obj _ _, arr _ _ => isFalse (by intro e; cases e)
/-- Decision procedure for equality of lists of values. -/
def decEqItems : (xs ys : List JsVal) → Decidable (xs = ys)
  | [], [] => isTrue rfl
  | [], _ :: _ => isFalse (by intro e; cases e)
  | _ :: _, [] => isFalse (by intro e; cases e)
  | x :: xs, y :: ys =>
    match decEqVal x y, decEqItems xs ys with
    | isTrue e, isTrue f => isTrue (by rw [e, f])
    | isFalse n, _ => isFalse (by intro e; cases e; exact n rfl)
    | _, isFalse n => isFalse (by intro e; cases e; exact n rfl)
/-- Decision procedure for equality of property lists. -/
def decEqFields : (xs ys : List (String × JsVal)) → Decidable (xs = ys)
  | [], [] => isTrue rfl
  | [], _ :: _ => isFalse (by intro e; cases e)
  | _ :: _, [] => isFalse (by intro e; cases e)
  | (k, x) :: xs, (l, y) :: ys =>
    if h : k = l then
      match decEqVal x y, decEqFields xs ys with
      | isTrue e, isTrue f => isTrue (by rw [h, e, f])
      | isFalse n, _ => isFalse (by intro e; cases e; exact n rfl)
      | _, isFalse n => isFalse (by intro e; cases e; exact n rfl)
    else isFalse (by intro e; cases e; exact h rfl)
end

instance : DecidableEq JsVal := decEqVal

/-- JavaScript truthiness (`ToBoolean`): `undefined`, `null`, `false`, `0` and
`""` are falsy, everything else is truthy. -/
def truthy : JsVal → Bool
  | undefined => false
  | null => false
  | bool b => b
  | num n => n != 0
  | str s => s != ""
  | arr _ _ => true
  | obj _ _ => true

/-- The values on which a property read throws a `TypeError`. -/
def isNullish : JsVal → Bool
  | undefined => true
  | null => true
  | _ => false

/-- The value of `===` (and of the `SameValueZero` comparison of `Map` keys,
which differs from it only on `NaN`): primitives by value, arrays and objects
by identity. -/
def strictEq : JsVal → JsVal → Bool
  | undefined, undefined => true
  | null, null => true
  | bool a, bool b => a == b
  | num a, num b => a == b
  | str a, str b => a == b
  | arr r _, arr q _ => r == q
  | obj r _, obj q _ => r == q
  | _, _ => false

end JsVal

/-- The `length` of a JavaScript string: its number of UTF-16 code units. -/
def utf16Length (s : String) : Nat :=
  (s.toList.map fun c => if c.toNat < 65536 then 1 else 2).sum

namespace JsVal

/-- The value of `v.key` for a value `v` that is not `undefined` or `null`,
for the property names the program reads (`type`, `topic`, `data`,
`messageId`, `signature`, `slot`, `proposer`, `transactions`, `length`, ...):
an own property of an object, the `length` of a string or array, and
`undefined` otherwise. -/
def prop : JsVal → String → JsVal
  | obj _ fields, key => (fields.lookup key).getD undefined
  | str s, key => if key = "length" then num (utf16Length s) else undefined
  | arr _ items, key => if key = "length" then num items.length else undefined
  | _, _ => undefined

end JsVal

/-- A thrown value: a `TypeError` raised by the language itself, or an `Error`
created with a message. -/
inductive JsError where
  | typeError : JsError
  | error (message : String) : JsError
  deriving DecidableEq, Repr

instance instDecidableEqExceptJs {ε α : Type} [DecidableEq ε] [DecidableEq α] :
    DecidableEq (Except ε α)
  | .ok a, .ok b =>
    if h : a = b then isTrue (by rw [h]) else isFalse (by intro e; cases e; exact h rfl)
  | .error a, .error b =>
    if h : a = b then isTrue (by rw [h]) else isFalse (by intro e; cases e; exact h rfl)
  | .ok _, .error _ => isFalse (by intro e; cases e)
  | .error _, .ok _ => isFalse (by intro e; cases e)

/-- The property read `v.key`: a `TypeError` on `undefined` and `null`. -/
def JsVal.get (v : JsVal) (key : String) : Except JsError JsVal :=
  if v.isNullish then .error .typeError else .ok (v.prop key)

/-! ## Conversion to a number -/

/-- A number as `ToNumber` gives it: `NaN`, an infinity, or the double
`mant * 2 ^ exp`. -/
inductive JsNumber where
  | nan : JsNumber
  | infinity (negative : Bool) : JsNumber
  | finite (mant : Int) (exp : Int) : JsNumber
  deriving DecidableEq, Repr

/-- The characters that `ToNumber` strips from both ends of a string
(`WhiteSpace` and `LineTerminator`). -/
def isJsWhiteSpace (c : Char) : Bool :=
  let n := c.toNat
  n = 9 || n = 10 || n = 11 || n = 12 || n = 13 || n = 32 || n = 160 || n = 5760 ||
  (8192 ≤ n && n ≤ 8202) || n = 8232 || n = 8233 || n = 8239 || n = 8287 || n = 12288 ||
  n = 65279

/-- The value of a character as a digit of the given radix. -/
def digitOf (radix : Nat) (c : Char) : Option Nat :=
  let n := c.toNat
  let value :=
    if 48 ≤ n ∧ n ≤ 57 then some (n - 48)
    else if 97 ≤ n ∧ n ≤ 122 then some (n - 87)
    else if 65 ≤ n ∧ n ≤ 90 then some (n - 55)
    else none
  match value with
  | some d => if d < radix then some d else none
  | none => none

/-- The value of a run of digits of the radix, `none` when the run is empty or
another character occurs in it. -/
def digitsValue (radix : Nat) (cs : List Char) : Option Nat :=
  if cs.isEmpty then none
  else cs.foldl
    (fun value c => value.bind fun n => (digitOf radix c).map fun d => n * radix + d) (some 0)

/-- The number of binary digits of `n`, by halving at most `fuel` times. -/
def bitLength : Nat → Nat → Nat
  | 0, _ => 0
  | fuel + 1, n => if n = 0 then 0 else bitLength fuel (n / 2) + 1

/-- The integer nearest to `num / den`, the even one of two that are equally
near. -/
def divRoundEven (num den : Nat) : Nat :=
  let q := num / den
  let r := num % den
  if den < 2 * r ∨ (2 * r = den ∧ q % 2 = 1) then q + 1 else q

/-- The double nearest to the quotient `num / den` of two positive numbers,
with the sign given, the even one of two that are equally near: 53 significant
bits, or fewer below `2 ^ -1022`, and an infinity from `2 ^ 1024` on. -/
def roundRatio (negative : Bool) (num den : Nat) : JsNumber :=
  if num = 0 then .finite 0 0
  else
    -- `num / den` lies between `2 ^ (d - 1)` and `2 ^ (d + 1)`
    let d : Int := (bitLength num num : Int) - (bitLength den den : Int)
    let reached : Bool :=
      if 0 ≤ d then decide (den * 2 ^ d.toNat ≤ num) else decide (den ≤ num * 2 ^ (-d).toNat)
    -- the binary exponent of `num / den`, and that of its last significant bit
    let k : Int := if reached then d else d - 1
    let u : Int := max (k - 52) (-1074)
    let q : Nat :=
      if 0 ≤ u then divRoundEven num (den * 2 ^ u.toNat)
      else divRoundEven (num * 2 ^ (-u).toNat) den
    if 0 ≤ u ∧ 2 ^ 1024 ≤ q * 2 ^ u.toNat then .infinity negative
    else .finite (if negative then -(q : Int) else (q : Int)) u

/-- The `ExponentPart` that ends a decimal literal: the power of ten, which is
0 when nothing is left, `none` when what is left is no exponent part. -/
def exponentPart : List Char → Option Int
  | [] => some 0
  | c :: rest =>
    if c = 'e' ∨ c = 'E' then
      match rest with
      | '-' :: digits => (digitsValue 10 digits).map fun n => -(n : Int)
      | '+' :: digits => (digitsValue 10 digits).map fun n => (n : Int)
      | digits => (digitsValue 10 digits).map fun n => (n : Int)
    else none

/-- A `StrUnsignedDecimalLiteral` other than `Infinity`: decimal digits with an
optional fraction and an optional exponent part, at least one digit before the
exponent part. The result `(m, e)` stands for `m * 10 ^ e`. -/
def unsignedDecimal (cs : List Char) : Option (Nat × Int) :=
  let whole := cs.span Char.isDigit
  match whole.2 with
  | '.' :: rest =>
    let fraction := rest.span Char.isDigit
    if whole.1.isEmpty && fraction.1.isEmpty then none
    else (exponentPart fraction.2).map fun e =>
      ((digitsValue 10 (whole.1 ++ fraction.1)).getD 0, e - fraction.1.length)
  | rest =>
    if whole.1.isEmpty then none
    else (exponentPart rest).map fun e => ((digitsValue 10 whole.1).getD 0, e)

/-- The number of a `StrUnsignedDecimalLiteral` with the sign given, `NaN` when
the text is none. -/
def decimalLiteral (negative : Bool) (cs : List Char) : JsNumber :=
  if cs = "Infinity".toList then .infinity negative
  else
    match unsignedDecimal cs with
    | none => .nan
    | some (m, e) =>
      if 0 ≤ e then roundRatio negative (m * 10 ^ e.toNat) 1
      else roundRatio negative m (10 ^ (-e).toNat)

/-- The number of a `NonDecimalIntegerLiteral` from its digits, `NaN` when they
are not digits of the radix. -/
def radixLiteral (radix : Nat) (cs : List Char) : JsNumber :=
  match digitsValue radix cs with
  | none => .nan
  | some n => roundRatio false n 1

/-- `ToNumber` of a string (`StringToNumber`): white space is stripped from
both ends; the empty string is `0`; `0x`, `0o` and `0b` in either case start
an unsigned integer of radix 16, 8 and 2; everything else is a decimal literal
with an optional sign, or `NaN`. The value is the double nearest to the number
that the literal spells. -/
def strToNumber (s : String) : JsNumber :=
  match ((s.toList.dropWhile isJsWhiteSpace).reverse.dropWhile isJsWhiteSpace).reverse with
  | [] => .finite 0 0
  | '0' :: 'x' :: rest => radixLiteral 16 rest
  | '0' :: 'X' :: rest => radixLiteral 16 rest
  | '0' :: 'o' :: rest => radixLiteral 8 rest
  | '0' :: 'O' :: rest => radixLiteral 8 rest
  | '0' :: 'b' :: rest => radixLiteral 2 rest
  | '0' :: 'B' :: rest => radixLiteral 2 rest
  | '-' :: rest => decimalLiteral true rest
  | '+' :: rest => decimalLiteral false rest
  | rest => decimalLiteral false rest

/-- `ToNumber` of a value. An array converts through its string form
(`join(",")`), an object through `"[object Object]"`, the string that
`Object.prototype.toString` gives for an object with no `toString` of its own. -/
def toNumber : JsVal → JsNumber
  | .undefined => .nan
  | .null => .finite 0 0
  | .bool b => .finite (if b then 1 else 0) 0
  | .num n => .finite n 0
  | .str s => strToNumber s
  | .obj _ _ => .nan
  | .arr _ [] => .finite 0 0
  | .arr _ [.undefined] => .finite 0 0
  | .arr _ [.null] => .finite 0 0
  | .arr _ [.bool _] => .nan
  | .arr _ [.obj _ _] => .nan
  | .arr _ [.num n] => .finite n 0
  | .arr _ [.str s] => strToNumber s
  | .arr _ [.arr r items] => toNumber (.arr r items)
  | .arr _ (_ :: _ :: _) => .nan

/-- Whether the number is below the integer `n`: false for `NaN`. -/
def JsNumber.lt (x : JsNumber) (n : Int) : Bool :=
  match x with
  | .nan => false
  | .infinity negative => negative
  | .finite mant exp =>
    if 0 ≤ exp then decide (mant * 2 ^ exp.toNat < n) else decide (mant < n * 2 ^ (-exp).toNat)

/-- Whether the number is above the integer `n`: false for `NaN`. -/
def JsNumber.gt (x : JsNumber) (n : Int) : Bool :=
  match x with
  | .nan => false
  | .infinity negative => !negative
  | .finite mant exp =>
    if 0 ≤ exp then decide (mant * 2 ^ exp.toNat > n) else decide (mant > n * 2 ^ (-exp).toNat)

/-- The comparison `v < n` against a number: false when `v` converts to `NaN`. -/
def ltNum (v : JsVal) (n : Int) : Bool :=
  (toNumber v).lt n

/-- The comparison `v > n` against a number: false when `v` converts to `NaN`. -/
def gtNum (v : JsVal) (n : Int) : Bool :=
  (toNumber v).gt n

/-! ## Validation and signatures -/

/-- `ValidatorP2P.validateBlock(block)`. -/
def validateBlock (block : JsVal) : Except JsError Bool :=
  match block.get "slot", block.get "proposer", block.get "transactions" with
  | .ok slot, .ok proposer, .ok transactions =>
    -- Check block structure
    if !slot.truthy || !proposer.truthy || !transactions.truthy then .ok false
    -- Check slot is reasonable
    else if ltNum slot 0 || gtNum slot 1000000000 then .ok false
    else .ok true
  | _, _, _ => .error .typeError

/-- `ValidatorP2P.verifySignature(data, signature)`: the value of
`signature && signature.length === 64`. -/
def verifySignature (_data signature : JsVal) : JsVal :=
  if signature.truthy then .bool ((signature.prop "length").strictEq (.num 64))
  else signature

/-- `ValidatorP2P.validateGossipMessage(message)`. -/
def validateGossipMessage (message : JsVal) : Except JsError Bool :=
  match message.get "topic", message.get "data", message.get "signature" with
  | .ok topic, .ok data, .ok signature =>
    -- Check 1: Has required fields
    if !topic.truthy || !data.truthy || !signature.truthy then .ok false
    -- Check 2: Verify signature
    else if !(verifySignature data signature).truthy then .ok false
    -- Check 3: Content-specific validation
    else if topic.strictEq (.str "/eth2/beacon_block") then validateBlock data
    else .ok true
  | _, _, _ => .error .typeError

/-! ## Sockets and peers -/

/-- A TCP socket of the `net` library, as the record of the calls made on it:
the data passed to `write`, in order, and whether `end` was called.
`remoteAddress` and `remotePort` are the texts that a template literal gives
for the properties of these names. -/
structure TcpSocket where
  written : List String := []
  ended : Bool := false
  remoteAddress : String := "undefined"
  remotePort : String := "undefined"
  deriving DecidableEq, Repr

/-- `socket.write(data)` on a TCP socket. -/
def TcpSocket.write (self : TcpSocket) (data : String) : TcpSocket :=
  { self with written := self.written ++ [data] }

/-- The fields of class `NetworkSocket`; `socket` is `none` for `null`. -/
structure NetworkSocket where
  host : String
  port : Nat
  socket : Option TcpSocket := none
  connected : Bool := false
  messageBuffer : String := ""
  deriving DecidableEq, Repr

/-- `NetworkSocket.write(data)`: throws when the socket is not connected. -/
def NetworkSocket.write (self : NetworkSocket) (data : String) :
    Except JsError NetworkSocket :=
  if !self.connected then .error (.error "Socket not connected")
  else
    match self.socket with
    | none => .error .typeError
    | some tcp => .ok { self with socket := some (tcp.write data) }

/-- The socket handed to the `Peer` constructor: a `NetworkSocket` for an
outbound connection (`connectToPeer`), the TCP socket of the server for an
inbound one (`handleIncomingConnection`). -/
inductive Socket where
  | network (s : NetworkSocket) : Socket
  | tcp (s : TcpSocket) : Socket
  deriving DecidableEq, Repr

/-- The call `this.socket.write(data)` made by `Peer.send`. -/
def Socket.write : Socket → String → Except JsError Socket
  | .network s, data => (s.write data).map Socket.network
  | .tcp s, data => .ok (.tcp (s.write data))

/-- The fields of class `Peer`; `ref` is the identity of the object, which is
what `peer === excludePeer` compares. `responseHandler` is `_responseHandler`:
`none` for `undefined`, and otherwise the `requestId` that the handler closure
stored there by `requestPeersFrom` compares with. -/
structure Peer where
  ref : Nat
  address : String
  socket : Socket
  isAlive : Bool := true
  lastSeen : Int := 0
  responseHandler : Option String := none
  deriving DecidableEq, Repr

/-- What the program takes from its surroundings: `JSON.stringify` followed by
the string concatenation applied to its result, the SHA-256 digest in
hexadecimal, the outcome of calling the subscriber callback with a given
identity on a payload (`none`: it returns, `some e`: it throws `e`), and
`JSON.parse`.
Callbacks do not call back into the node and do not modify the payload they
are given. -/
structure Env where
  stringify : JsVal → String
  sha256Hex : String → String
  callback : Nat → JsVal → Option JsError
  /-- `JSON.parse`, `none` when it throws. -/
  parse : String → Option JsVal := fun _ => none

/-- `Peer.send(message)`: the result and the peer afterwards. The `try` block
serialises, writes and then logs `message.topic`; any throw marks the peer
not-alive and gives `false`. -/
def Peer.send (env : Env) (self : Peer) (message : JsVal) : Bool × Peer :=
  match self.socket.write (env.stringify message ++ "\n") with
  | .error _ => (false, { self with isAlive := false })
  | .ok sock =>
    match message.get "topic" with
    | .error _ => (false, { self with socket := sock, isAlive := false })
    | .ok _ => (true, { self with socket := sock })

/-! ## The node -/

/-- The entries of a `Map` from message ids to timestamps, in insertion order. -/
abbrev SeenMap := List (JsVal × Int)

/-- `Map.has(key)`. -/
def mapHas (m : SeenMap) (key : JsVal) : Bool :=
  m.any fun e => e.1.strictEq key

/-- `Map.get(key)`, `none` for `undefined`. -/
def mapGet (m : SeenMap) (key : JsVal) : Option Int :=
  (m.find? fun e => e.1.strictEq key).map Prod.snd

/-- `Map.set(key, value)`: an existing key keeps its place and takes the new
value, a new key is appended. -/
def mapSet (m : SeenMap) (key : JsVal) (value : Int) : SeenMap :=
  if mapHas m key then m.map fun e => if e.1.strictEq key then (e.1, value) else e
  else m ++ [(key, value)]

/-- The fields of class `ValidatorP2P` that the gossip protocol uses. `topics`
maps a topic name to the identities of its subscriber callbacks, in insertion
order (the iteration order of a `Set`). -/
structure ValidatorP2P where
  myAddress : String
  myPort : Nat
  peers : List Peer := []
  maxPeers : Nat := 50
  seenMessages : SeenMap := []
  topics : List (String × List Nat) := []
  deriving DecidableEq, Repr

/-- Something the node does to its surroundings: a call of a subscriber
callback on a payload, or a call of `send(message)` on the peer object `peer`. -/
inductive Effect where
  | invoke (handler : Nat) (data : JsVal) : Effect
  | send (peer : Nat) (message : JsVal) : Effect
  deriving DecidableEq, Repr

/-- The effects of a run in order, each with the node state at the moment it
happens. -/
abbrev Trace := List (Effect × ValidatorP2P)

/-- The outcome of a method call: what it returned or threw, the node state
afterwards and the effects it had. -/
structure Run (α : Type) where
  result : Except JsError α
  state : ValidatorP2P
  trace : Trace
  deriving DecidableEq

/-- `this.topics.has(topic)` and `this.topics.get(topic)`: the keys are
strings, so only a string topic can be found. -/
def topicHandlers (topics : List (String × List Nat)) : JsVal → Option (List Nat)
  | .str name => topics.lookup name
  | _ => none

/-- `ValidatorP2P.sign(data)`. -/
def sign (env : Env) (self : ValidatorP2P) (data : JsVal) : String :=
  env.sha256Hex (env.stringify data ++ self.myAddress)

/-- The loop `for (let peer of this.peers)` of `forwardGossipMessage` and of
`broadcast`: a peer for which `skip` holds is passed over, every other peer is
sent `message`. `done` holds the peers already visited. Returns the peers
afterwards, the number of sends that returned `true` and the effects. -/
def sendEach (env : Env) (message : JsVal) (skip : Peer → Bool) (self : ValidatorP2P) :
    List Peer → List Peer → List Peer × Nat × Trace
  | _, [] => ([], 0, [])
  | done, p :: rest =>
    if skip p then
      let r := sendEach env message skip self (done ++ [p]) rest
      (p :: r.1, r.2.1, r.2.2)
    else
      let sent := p.send env message
      let r := sendEach env message skip self (done ++ [sent.2]) rest
      (sent.2 :: r.1, (if sent.1 then r.2.1 + 1 else r.2.1),
        (Effect.send p.ref message, { self with peers := done ++ p :: rest }) :: r.2.2)

/-- `ValidatorP2P.forwardGossipMessage(message, excludePeer)`; the result is
`forwardCount`. -/
def forwardGossipMessage (env : Env) (self : ValidatorP2P) (message : JsVal)
    (excludePeer : Nat) : Run Nat :=
  let r := sendEach env message (fun peer => peer.ref == excludePeer || !peer.isAlive)
    self [] self.peers
  { result := .ok r.2.1, state := { self with peers := r.1 }, trace := r.2.2 }

/-- `handlers.forEach((handler) => handler(data))`: the first callback that
throws ends the iteration. -/
def deliver (env : Env) (self : ValidatorP2P) (data : JsVal) :
    List Nat → Except JsError Unit × Trace
  | [] => (.ok (), [])
  | handler :: rest =>
    match env.callback handler data with
    | some e => (.error e, [(Effect.invoke handler data, self)])
    | none =>
      let r := deliver env self data rest
      (r.1, (Effect.invoke handler data, self) :: r.2)

/-- `ValidatorP2P.handleGossipMessage(fromPeer, message)` at time `now`. -/
def handleGossipMessage (env : Env) (self : ValidatorP2P) (fromPeer : Nat)
    (message : JsVal) (now : Int) : Run Unit :=
  match message.get "topic", message.get "data", message.get "messageId" with
  | .ok topic, .ok data, .ok messageId =>
    -- Step 1: Check if we've seen this message
    if mapHas self.seenMessages messageId then
      { result := .ok (), state := self, trace := [] }
    else
      -- Step 2: Validate message
      match validateGossipMessage message with
      | .error e => { result := .error e, state := self, trace := [] }
      | .ok false => { result := .ok (), state := self, trace := [] }
      | .ok true =>
        -- Step 3: Mark as seen
        let marked := { self with seenMessages := mapSet self.seenMessages messageId now }
        -- Step 4: Process the message (call subscribers)
        let delivered :=
          match topicHandlers marked.topics topic with
          | some handlers => deliver env marked data handlers
          | none => (.ok (), [])
        match delivered.1 with
        | .error e => { result := .error e, state := marked, trace := delivered.2 }
        | .ok _ =>
          -- Step 5: Forward to other peers
          let forwarded := forwardGossipMessage env marked message fromPeer
          { result := .ok (), state := forwarded.state,
            trace := delivered.2 ++ forwarded.trace }
  | _, _, _ => { result := .error .typeError, state := self, trace := [] }

/-- The object literal of `broadcast`: the message it creates. -/
def envelope (ref : Nat) (topic data : JsVal) (messageId signature : String)
    (timestamp : Int) : JsVal :=
  .obj ref
    [("type", .str "GOSSIP"), ("topic", topic), ("data", data),
     ("messageId", .str messageId), ("signature", .str signature),
     ("timestamp", .num timestamp)]

/-- What `broadcast` returns, with the `sentCount` it logs. -/
structure Broadcast where
  message : JsVal
  sentCount : Nat
  deriving DecidableEq, Repr

/-- `ValidatorP2P.broadcast(topic, data)`. `messageId` is the value of
`generateMessageId()`, `timestamp` and `now` the two readings of `Date.now()`,
`ref` the identity of the message object created. -/
def broadcast (env : Env) (self : ValidatorP2P) (topic data : JsVal) (messageId : String)
    (timestamp now : Int) (ref : Nat) : Run Broadcast :=
  -- Create message
  let message := envelope ref topic data messageId (sign env self data) timestamp
  -- Mark as seen (so we don't process our own message)
  let marked := { self with seenMessages := mapSet self.seenMessages (.str messageId) now }
  -- Send to all peers
  let r := sendEach env message (fun peer => !peer.isAlive) marked [] marked.peers
  { result := .ok { message := message, sentCount := r.2.1 },
    state := { marked with peers := r.1 }, trace := r.2.2 }

/-- `ValidatorP2P.cleanupSeenMessages()` at time `now`: the loop deletes the
entry it is visiting when `now - timestamp > maxAge`. -/
def cleanupSeenMessages (self : ValidatorP2P) (now : Int) : ValidatorP2P :=
  { self with seenMessages := self.seenMessages.filter fun e => !decide (now - e.2 > 300000) }

/-- The `send` calls of a trace in order: the peer object and the message. -/
def sends (trace : Trace) : List (Nat × JsVal) :=
  trace.filterMap fun x =>
    match x.1 with
    | .send peer message => some (peer, message)
    | .invoke _ _ => none

/-- The subscriber calls of a trace in order: the callback and the payload. -/
def invocations (trace : Trace) : List (Nat × JsVal) :=
  trace.filterMap fun x =>
    match x.1 with
    | .invoke handler data => some (handler, data)
    | .send _ _ => none

/-! ## Runs of the node -/

/-- An operation on the node, with the arguments that its surroundings choose. -/
inductive Op where
  | handle (fromPeer : Nat) (message : JsVal) : Op
  | broadcast (topic data : JsVal) (messageId : String) (timestamp : Int) (ref : Nat) : Op
  | cleanup : Op
  deriving DecidableEq, Repr

/-- One operation run to completion when the clock reads `now`: the state
afterwards and the effects. -/
def step (env : Env) (self : ValidatorP2P) (now : Int) : Op → ValidatorP2P × Trace
  | .handle fromPeer message =>
    let r := handleGossipMessage env self fromPeer message now
    (r.state, r.trace)
  | .broadcast topic data messageId timestamp ref =>
    let r := broadcast env self topic data messageId timestamp now ref
    (r.state, r.trace)
  | .cleanup => (cleanupSeenMessages self now, [])

/-- One line of the history of a run: the clock reading, the operation, its
effects and the state after it. -/
structure LogEntry where
  time : Int
  op : Op
  trace : Trace
  after : ValidatorP2P
  deriving DecidableEq, Repr

/-- The line of the history for one operation. -/
def logEntry (env : Env) (self : ValidatorP2P) (now : Int) (op : Op) : LogEntry :=
  { time := now, op := op, trace := (step env self now op).2,
    after := (step env self now op).1 }

/-- The history of running the operations one after the other. -/
def runLog (env : Env) : ValidatorP2P → List (Int × Op) → List LogEntry
  | _, [] => []
  | self, (now, op) :: rest =>
    logEntry env self now op :: runLog env (step env self now op).1 rest

/-- The line is a `handleGossipMessage` of a message with this id that invoked
a subscriber or sent to a peer. -/
def actsOn (id : JsVal) (entry : LogEntry) : Bool :=
  match entry.op with
  | .handle _ message => (message.prop "messageId").strictEq id && !entry.trace.isEmpty
  | _ => false

/-- The clock reading of the first line after which `seenMessages` has the id. -/
def firstSeenTime (log : List LogEntry) (id : JsVal) : Option Int :=
  (log.find? fun entry => mapHas entry.after.seenMessages id).map LogEntry.time

/-! ## Sample data -/

/-- A string of 64 characters. -/
def sampleSignature : String :=
  "0123456789abcdef0123456789abcdef0123456789abcdef0123456789abcdef"

/-- Surroundings in which the callback with identity 7 throws and every other
callback returns. -/
def sampleEnv : Env where
  stringify := fun _ => "{}"
  sha256Hex := fun _ => sampleSignature
  callback := fun handler _ => if handler = 7 then some (.error "subscriber failed") else none

/-- A valid GOSSIP message on topic `t`. -/
def sampleMessage : JsVal :=
  .obj 100 [("type", .str "GOSSIP"), ("topic", .str "t"), ("data", .str "x"),
    ("messageId", .str "id-1"), ("signature", .str sampleSignature)]

/-- A GOSSIP message whose signature is too short. -/
def sampleBadMessage : JsVal :=
  .obj 101 [("type", .str "GOSSIP"), ("topic", .str "t"), ("data", .str "x"),
    ("messageId", .str "id-2"), ("signature", .str "abc")]

/-- An alive peer over a connected `NetworkSocket`. -/
def samplePeer (ref : Nat) (address : String) : Peer :=
  { ref := ref, address := address,
    socket := .network { host := address, port := 30303, socket := some {}, connected := true } }

/-- An alive peer whose `NetworkSocket` is no longer connected. -/
def sampleLostPeer (ref : Nat) (address : String) : Peer :=
  { ref := ref, address := address,
    socket := .network { host := address, port := 30303, socket := some {}, connected := false } }

/-- A node with three alive peers (the socket of the third is not connected),
one peer marked not-alive and two subscribers of topic `t`. -/
def sampleNode : ValidatorP2P :=
  { myAddress := "192.168.1.100", myPort := 30303,
    peers := [samplePeer 1 "10.0.0.1:30303", samplePeer 2 "10.0.0.2:30303",
      sampleLostPeer 3 "10.0.0.3:30303",
      { samplePeer 4 "10.0.0.4:30303" with isAlive := false }],
    topics := [("t", [5, 6])] }

/-- A GOSSIP message whose payload is the number 0. -/
def sampleZeroPayloadMessage : JsVal :=
  .obj 102 [("type", .str "GOSSIP"), ("topic", .str "t"), ("data", .num 0),
    ("messageId", .str "id-3"), ("signature", .str sampleSignature)]

/-- The sample node with three subscribers of topic `t`, the second of which
(identity 7) throws. -/
def sampleNodeFailing : ValidatorP2P :=
  { sampleNode with topics := [("t", [5, 7, 6])] }

/-- A history on the sample node: the sample message arrives from peer 1 at
time 1000 and from peer 2 at time 2000, the cache is cleaned at time 301001
and the message arrives once more at time 301002. -/
def sampleSteps : List (Int × Op) :=
  [(1000, .handle 1 sampleMessage), (2000, .handle 2 sampleMessage),
   (301001, .cleanup), (301002, .handle 1 sampleMessage)]

/-! ## Peer admission -/

/-- `socket.end()` on a TCP socket. -/
def TcpSocket.endStream (self : TcpSocket) : TcpSocket :=
  { self with ended := true }

/-- What a call of `handleIncomingConnection` leaves: what it returned or
threw, the node, and the incoming socket. -/
structure Admission where
  result : Except JsError Unit
  state : ValidatorP2P
  socket : TcpSocket
  deriving DecidableEq, Repr

/-- `ValidatorP2P.handleIncomingConnection(socket)` on the TCP socket that the
server of `startServer` hands over; `ref` is the identity of the `Peer`
created and `now` the reading of `Date.now()` in its constructor. After the
push, `setupPeerHandlers` calls `socket.onMessage`, a method of `NetworkSocket`
that a TCP socket does not have, so the call ends in a `TypeError`. -/
def handleIncomingConnection (self : ValidatorP2P) (socket : TcpSocket) (ref : Nat)
    (now : Int) : Admission :=
  let remoteAddress := socket.remoteAddress ++ ":" ++ socket.remotePort
  -- Create peer object
  let peer : Peer :=
    { ref := ref, address := remoteAddress, socket := .tcp socket, isAlive := true,
      lastSeen := now }
  -- Add to our peers list
  if self.peers.length < self.maxPeers then
    { result := .error .typeError, state := { self with peers := self.peers ++ [peer] },
      socket := socket }
  else
    -- Too many peers, reject
    { result := .ok (), state := self, socket := socket.endStream }

/-- The template literal of `connectToPeer` for the address. -/
def peerAddress (host : String) (port : Nat) : String :=
  host ++ ":" ++ toString port

/-- `ValidatorP2P.connectToPeer(host, port)` up to its `await`: `none` when it
returns (with `undefined`) before creating a socket, and otherwise the
`NetworkSocket` it created and called `connect()` on. The node is not changed. -/
def connectToPeerStart (self : ValidatorP2P) (host : String) (port : Nat) :
    Option NetworkSocket :=
  -- Check if already connected
  if self.peers.any fun p => p.address == peerAddress host port then none
  -- Check if we have room for more peers
  else if self.peers.length ≥ self.maxPeers then none
  else some { host := host, port := port, socket := some {}, connected := false }

/-- `ValidatorP2P.connectToPeer(host, port)` from its `await` on, run in the
state the node has when the connection attempt is over: `connected` tells
whether the socket reported `connect` or `error`. The result is the peer
returned, or the `Error` thrown. -/
def connectToPeerFinish (self : ValidatorP2P) (host : String) (port : Nat)
    (socket : NetworkSocket) (connected : Bool) (ref : Nat) (now : Int) :
    Except JsError Peer × ValidatorP2P :=
  if connected then
    -- Create peer object
    let peer : Peer :=
      { ref := ref, address := peerAddress host port,
        socket := .network { socket with connected := true }, isAlive := true,
        lastSeen := now }
    (.ok peer, { self with peers := self.peers ++ [peer] })
  else (.error (.error ("Failed to connect to " ++ peerAddress host port)), self)

/-- `ValidatorP2P.connectToPeer(host, port)` when nothing else runs while it
waits for the connection; `none` is the result `undefined`. -/
def connectToPeer (self : ValidatorP2P) (host : String) (port : Nat) (connected : Bool)
    (ref : Nat) (now : Int) : Except JsError (Option Peer) × ValidatorP2P :=
  match connectToPeerStart self host port with
  | none => (.ok none, self)
  | some socket =>
    match connectToPeerFinish self host port socket connected ref now with
    | (.ok peer, state) => (.ok (some peer), state)
    | (.error e, state) => (.error e, state)

/-- The node of `new ValidatorP2P(myAddress, myPort)`. -/
def newNode (myAddress : String) (myPort : Nat) : ValidatorP2P :=
  { myAddress := myAddress, myPort := myPort, peers := [], maxPeers := 50,
    seenMessages := [], topics := [] }

/-- Successful calls of `connectToPeer`, each run to completion, to port 30303
of the hosts with the given names; the peer objects get the identities
`ref`, `ref + 1`, ... -/
def connectEach (now : Int) : ValidatorP2P → Nat → List String → ValidatorP2P
  | self, _, [] => self
  | self, ref, host :: rest =>
    connectEach now (connectToPeer self host 30303 true ref now).2 (ref + 1) rest

/-- The host names `h1`, ..., `hn`, written with `n` letters. -/
def sampleHosts (n : Nat) : List String :=
  (List.range n).map fun i => String.mk (List.replicate (i + 1) 'h')

/-- The node after 49 successful calls of `connectToPeer` on a new node. -/
def sampleAlmostFull : ValidatorP2P :=
  connectEach 0 (newNode "192.168.1.100" 30303) 0 (sampleHosts 49)

/-- The `NetworkSocket` that `connectToPeer(host, 30303)` creates and waits for. -/
def samplePendingSocket (host : String) : NetworkSocket :=
  { host := host, port := 30303, socket := some {}, connected := false }

/-- A new node that has connected to `10.0.0.9:30303`. -/
def sampleConnected : ValidatorP2P :=
  (connectToPeer (newNode "192.168.1.100" 30303) "10.0.0.9" 30303 true 1 0).2

/-- An incoming TCP socket whose remote end is `10.0.0.9:30303`. -/
def sampleIncoming : TcpSocket :=
  { remoteAddress := "10.0.0.9", remotePort := "30303" }

/-! ## Subscriptions -/

/-- `Set.add(value)`: a value already in the set is not added again, a new one
comes last in iteration order. -/
def setAdd (set : List Nat) (value : Nat) : List Nat :=
  if value ∈ set then set else set ++ [value]

/-- `this.topics.get(topic).add(handler)` on the entries of the `Map`. -/
def addToTopic (topic : String) (handler : Nat) :
    List (String × List Nat) → List (String × List Nat)
  | [] => []
  | (name, handlers) :: rest =>
    if topic == name then (name, setAdd handlers handler) :: rest
    else (name, handlers) :: addToTopic topic handler rest

/-- `ValidatorP2P.subscribe(topic, handler)` for a topic name and the identity
of a callback. -/
def subscribe (self : ValidatorP2P) (topic : String) (handler : Nat) : ValidatorP2P :=
  let topics :=
    if (self.topics.lookup topic).isSome then self.topics
    else self.topics ++ [(topic, [])]
  { self with topics := addToTopic topic handler topics }

/-- The sample node in which the id of the sample message was recorded at
time 0. -/
def sampleNodeStale : ValidatorP2P :=
  { sampleNode with seenMessages := [(.str "id-1", 0)] }

/-- A new node on which the callbacks 7 (which throws in `sampleEnv`) and 8
subscribe to topic `t`, in this order. -/
def sampleSubscribed : ValidatorP2P :=
  subscribe (subscribe (newNode "192.168.1.100" 30303) "t" 7) "t" 8

/-! ## Requests for peer lists -/

/-- The state of a promise. -/
inductive Settled where
  | pending : Settled
  | resolved (value : JsVal) : Settled
  | rejected (error : JsError) : Settled
  deriving DecidableEq, Repr

/-- The promises returned by the calls of `requestPeersFrom` on one peer, each
under the `requestId` of its call, in the order of the calls. -/
abbrev Requests := List (String × Settled)

/-- The call of `resolve` or `reject` of the promise of a request: a promise
that is already settled stays as it is. -/
def settle (requests : Requests) (requestId : String) (outcome : Settled) : Requests :=
  requests.map fun r =>
    if r.1 == requestId && r.2 == Settled.pending then (r.1, outcome) else r

/-- `ValidatorP2P.requestPeersFrom(peer)` up to the return of its promise:
`requestId` is the value of `generateMessageId()` and `ref` the identity of
the request object. The request is sent, and the handler for the response is
stored in `peer._responseHandler`, replacing what was there. -/
def requestPeersFrom (env : Env) (peer : Peer) (requests : Requests) (requestId : String)
    (ref : Nat) : Peer × Requests :=
  -- Send request
  let request := JsVal.obj ref [("type", .str "GET_PEERS"), ("requestId", .str requestId)]
  let sent := peer.send env request
  -- Temporary response handler
  ({ sent.2 with responseHandler := some requestId }, requests ++ [(requestId, .pending)])

/-- The timeout of a request after 5000 ms: `reject`. -/
def requestTimeout (requests : Requests) (requestId : String) : Requests :=
  settle requests requestId (.rejected (.error "Peer list request timeout"))

/-- The case `"PEERS_RESPONSE"` of `ValidatorP2P.handlePeerMessage(peer, message)`,
for a message object: the handler in `peer._responseHandler`, when there is
one, is called with the message, and resolves the promise of its own request
when the message is a `PEERS_RESPONSE` with its `requestId`. -/
def handlePeersResponse (peer : Peer) (requests : Requests) (message : JsVal) : Requests :=
  match peer.responseHandler with
  | none => requests
  | some requestId =>
    if (message.prop "type").strictEq (.str "PEERS_RESPONSE") &&
        (message.prop "requestId").strictEq (.str requestId) then
      settle requests requestId (.resolved (message.prop "peers"))
    else requests

/-- `ValidatorP2P.handleGetPeersRequest(peer, message)`; `ref` and `listRef`
are the identities of the response object and of its `peers` array. The
result is the peer object after the `send`; an entry of the peer list that is
this object shows the same change. -/
def handleGetPeersRequest (env : Env) (self : ValidatorP2P) (peer : Peer) (message : JsVal)
    (ref listRef : Nat) : Run Peer :=
  -- Send them a list of peers we know (excluding them)
  let peerList :=
    ((self.peers.filter fun p => p.ref != peer.ref && p.isAlive).take 20).map Peer.address
  match message.get "requestId" with
  | .error e => { result := .error e, state := self, trace := [] }
  | .ok requestId =>
    let response := JsVal.obj ref
      [("type", .str "PEERS_RESPONSE"), ("requestId", requestId),
       ("peers", .arr listRef (peerList.map JsVal.str))]
    let sent := peer.send env response
    { result := .ok sent.2,
      state := { self with peers := self.peers.map fun p => if p.ref == peer.ref then sent.2 else p },
      trace := [(Effect.send peer.ref response, self)] }

/-- A `PEERS_RESPONSE` with the given `requestId` and one address. -/
def sampleResponse (requestId : String) : JsVal :=
  .obj 12 [("type", .str "PEERS_RESPONSE"), ("requestId", .str requestId),
    ("peers", .arr 13 [.str "10.0.0.7:30303"])]

/-- The node in which two calls of `connectToPeer("10.0.0.9", 30303)` both
passed the check for an existing peer and then both connected. -/
def sampleDuplicated : ValidatorP2P :=
  (connectToPeerFinish
    (connectToPeerFinish (newNode "192.168.1.100" 30303) "10.0.0.9" 30303
      (samplePendingSocket "10.0.0.9") true 1 0).2
    "10.0.0.9" 30303 (samplePendingSocket "10.0.0.9") true 2 0).2

/-- A `GET_PEERS` request. -/
def sampleGetPeers : JsVal :=
  .obj 20 [("type", .str "GET_PEERS"), ("requestId", .str "R1")]

/-! ## Framing of incoming data -/

/-- Puts a character in front of the first line. -/
def consFirst (c : Char) : List (List Char) → List (List Char)
  | [] => [[c]]
  | line :: lines => (c :: line) :: lines

/-- `String.prototype.split("\n")` on the characters of a string: the pieces
between the newlines, never an empty array. -/
def splitLines : List Char → List (List Char)
  | [] => [[]]
  | c :: rest => if c = '\n' then [] :: splitLines rest else consFirst c (splitLines rest)

/-- `NetworkSocket.handleIncomingData(data)` for the text of a chunk
(`data.toString()`): the socket afterwards and the messages passed to
`notifyHandlers`, in order. A piece that `trim()` leaves empty is skipped; a
piece on which `JSON.parse` throws is logged and skipped, as is the rest of a
`notifyHandlers` call in which a handler throws. -/
def handleIncomingData (env : Env) (self : NetworkSocket) (data : String) :
    NetworkSocket × List JsVal :=
  -- Convert bytes to string
  let buffer := self.messageBuffer ++ data
  -- Messages are separated by newlines
  let messages := splitLines buffer.toList
  -- Last item might be incomplete message
  ({ self with messageBuffer := String.mk (messages.getLast?.getD []) },
    -- Process complete messages
    messages.dropLast.filterMap fun messageString =>
      if messageString.all isJsWhiteSpace then none else env.parse (String.mk messageString))

/-- The chunks handled one after the other: the socket at the end and all the
messages passed to `notifyHandlers`, in order. -/
def feedChunks (env : Env) : NetworkSocket → List String → NetworkSocket × List JsVal
  | self, [] => (self, [])
  | self, chunk :: rest =>
    ((feedChunks env (handleIncomingData env self chunk).1 rest).1,
      (handleIncomingData env self chunk).2 ++
        (feedChunks env (handleIncomingData env self chunk).1 rest).2)

/-- The text of a stream cut into chunks. -/
def joinChunks : List String → String
  | [] => ""
  | chunk :: rest => chunk ++ joinChunks rest

/-- Surroundings whose `JSON.parse` reads `{"type":"PING"}` and throws on
every other text. -/
def sampleParseEnv : Env :=
  { sampleEnv with
    parse := fun text =>
      if text = "\x7b\x22type\x22:\x22PING\x22\x7d" then some (.obj 40 [("type", .str "PING")])
      else none }

/-- A `NetworkSocket` that is connected and has received nothing yet. -/
def sampleSocket : NetworkSocket :=
  { host := "10.0.0.1", port := 30303, socket := some {}, connected := true }

/-! ## The life of a `NetworkSocket` -/

/-- `new NetworkSocket(host, port)`. -/
def NetworkSocket.create (host : String) (port : Nat) : NetworkSocket :=
  { host := host, port := port, socket := none, connected := false, messageBuffer := "" }

/-- `NetworkSocket.connect()` up to the return of its promise: the TCP socket
is created by `net.createConnection` and the four listeners are put on it. -/
def NetworkSocket.connect (self : NetworkSocket) : NetworkSocket :=
  { self with socket := some {} }

/-- The listener of the `connect` event of the TCP socket. -/
def NetworkSocket.onConnect (self : NetworkSocket) : NetworkSocket :=
  { self with connected := true }

/-- The listener of the `error` event of the TCP socket. -/
def NetworkSocket.onError (self : NetworkSocket) : NetworkSocket :=
  { self with connected := false }

/-- The listener of the `close` event of the TCP socket. -/
def NetworkSocket.onClose (self : NetworkSocket) : NetworkSocket :=
  { self with connected := false }

/-- `NetworkSocket.close()`. -/
def NetworkSocket.close (self : NetworkSocket) : NetworkSocket :=
  match self.socket with
  | some tcp => { self with socket := some tcp.endStream, connected := false }
  | none => self

/-- What holds of every `NetworkSocket` the class can produce: `connected` is
set by the `connect` event of the TCP socket only, so a connected socket has a
TCP socket. -/
def NetworkSocket.hasSocketWhenConnected (self : NetworkSocket) : Prop :=
  self.connected = true → self.socket.isSome = true

/-- A block for slot 0 with a proposer and a transaction list. -/
def sampleGenesisBlock : JsVal :=
  .obj 50 [("slot", .num 0), ("proposer", .str "validator_1"),
    ("transactions", .arr 51 [.str "tx1"])]

/-- The block of the demo, for slot 100. -/
def sampleBlock : JsVal :=
  .obj 52 [("slot", .num 100), ("proposer", .str "validator_1"),
    ("transactions", .arr 53 [.str "tx1", .str "tx2", .str "tx3"])]

/-- The block of the demo with another value as its slot. -/
def sampleBlockAt (slot : JsVal) : JsVal :=
  .obj 52 [("slot", slot), ("proposer", .str "validator_1"),
    ("transactions", .arr 53 [.str "tx1", .str "tx2", .str "tx3"])]

/-! ## One-shot listeners of a peer -/

/-- An entry of a listener array of `Peer._events`: the identity of the
callback and the `once` mark. -/
structure Listener where
  callback : Nat
  once : Bool
  deriving DecidableEq, Repr

/-- The `_events` field of a peer, `none` before the first call of `once`: the
listener array of each event name it has, the names in the order in which they
were added. Event names are not names of members of `Object.prototype`. -/
abbrev Events := Option (List (String × List Listener))

/-- `this._events[event]`. -/
def listenersOf (events : Events) (event : String) : Option (List Listener) :=
  events.bind fun table => table.lookup event

/-- The table with the listener array of `event` replaced, the event being
added at the end when the table does not have it. -/
def setListeners (table : List (String × List Listener)) (event : String)
    (listeners : List Listener) : List (String × List Listener) :=
  if (table.lookup event).isSome then
    table.map fun entry => if entry.1 == event then (entry.1, listeners) else entry
  else table ++ [(event, listeners)]

/-- `Peer.once(event, callback)` on the `_events` field of the peer. -/
def Peer.once (events : Events) (event : String) (callback : Nat) : Events :=
  let table := events.getD []
  let listeners := (table.lookup event).getD []
  some (setListeners table event (listeners ++ [{ callback := callback, once := true }]))

/-- The `forEach` of `Peer.emit` from position `index` on, with `remaining`
positions to visit of the length the array had when `forEach` was called. A
position that the array no longer has is passed over. The listener at the
position is called, and when it is a `once` listener the array is spliced at
that position, so the listeners behind it move one position down. Returns the
array afterwards and the calls made, the last of which threw when the result is
an error. -/
def forEachListener (env : Env) (data : JsVal) :
    Nat → Nat → List Listener → Except JsError Unit × List Listener × List (Nat × JsVal)
  | 0, _, listeners => (.ok (), listeners, [])
  | remaining + 1, index, listeners =>
    match listeners.get? index with
    | none => forEachListener env data remaining (index + 1) listeners
    | some listener =>
      match env.callback listener.callback data with
      | some e => (.error e, listeners, [(listener.callback, data)])
      | none =>
        let spliced := if listener.once then listeners.eraseIdx index else listeners
        let rest := forEachListener env data remaining (index + 1) spliced
        (rest.1, rest.2.1, (listener.callback, data) :: rest.2.2)

/-- The outcome of `Peer.emit`: what it returned or threw, the `_events` field
afterwards, and the callbacks called with their argument, in order. -/
structure Emit where
  result : Except JsError Unit
  events : Events
  calls : List (Nat × JsVal)
  deriving DecidableEq

/-- `Peer.emit(event, data)` on the `_events` field of the peer. -/
def Peer.emit (env : Env) (events : Events) (event : String) (data : JsVal) : Emit :=
  match events with
  | none => { result := .ok (), events := events, calls := [] }
  | some table =>
    match table.lookup event with
    | none => { result := .ok (), events := events, calls := [] }
    | some listeners =>
      let r := forEachListener env data listeners.length 0 listeners
      { result := r.1, events := some (setListeners table event r.2.1), calls := r.2.2 }

/-- `once(event, callback)` for each of the callbacks in turn. -/
def onceEach (events : Events) (event : String) : List Nat → Events
  | [] => events
  | callback :: rest => onceEach (Peer.once events event callback) event rest

/-- Every other element of a list, starting with the first. -/
def everyOther {α : Type} : List α → List α
  | [] => []
  | [a] => [a]
  | a :: _ :: rest => a :: everyOther rest

/-! ## Health checks -/

/-- What the surroundings supply to one call of `Peer.ping()`: the identity of
the PING object, the reading of `Date.now()` in it, and how the promise
settles. `pong := some now` is a PONG of the peer handled at time `now` before
the 3000 ms are over (the `pong` listener of this call is then the only one
the peer has, and `emit` calls it); `pong := none` is the timeout. -/
structure Ping where
  ref : Nat
  timestamp : Int
  pong : Option Int
  deriving DecidableEq, Repr

/-- The message object of `Peer.ping()`. -/
def pingMessage (ping : Ping) : JsVal :=
  .obj ping.ref [("type", .str "PING"), ("timestamp", .num ping.timestamp)]

/-- `Peer.ping()` until its promise settles, with nothing else acting on the
peer meanwhile: what `await peer.ping()` gives, and the peer afterwards. -/
def Peer.ping (env : Env) (self : Peer) (ping : Ping) : Except JsError Bool × Peer :=
  let sent := (self.send env (pingMessage ping)).2
  match ping.pong with
  | some now => (.ok true, { sent with isAlive := true, lastSeen := now })
  | none => (.error (.error "Ping timeout"), { sent with isAlive := false })

/-- The loop `for (let i = this.peers.length - 1; i >= 0; i--)` of
`healthCheck`, about to visit position `i` when called with `i + 1`, each
`await` being over before anything else acts on the node. The peers of the
list are distinct objects; `pings` gives what the surroundings supply to the
ping of the peer with a given identity. Returns the peer list afterwards and
the peers spliced out, in the order of their removal. A position without a
peer makes `peer.ping()` and then `peer.address` in the `catch` throw. -/
def healthCheckLoop (env : Env) (pings : Nat → Ping) :
    Nat → List Peer → Except JsError Unit × List Peer × List Peer
  | 0, peers => (.ok (), peers, [])
  | i + 1, peers =>
    match peers.get? i with
    | none => (.error .typeError, peers, [])
    | some peer =>
      let pinged := peer.ping env (pings peer.ref)
      match pinged.1 with
      | .ok _ => healthCheckLoop env pings i (peers.set i pinged.2)
      | .error _ =>
        let rest := healthCheckLoop env pings i (peers.eraseIdx i)
        (rest.1, rest.2.1, pinged.2 :: rest.2.2)

/-- The call `this.requestPeersFrom(peer)` of `discoverPeers` on the peer at a
position of the peer list, up to the return of the promise: the request is
sent and the response handler is stored in the peer. -/
def askPeer (env : Env) (self : ValidatorP2P) (index : Nat) (requestId : String)
    (ref : Nat) : ValidatorP2P :=
  match self.peers.get? index with
  | none => self
  | some peer =>
    { self with peers := self.peers.set index (requestPeersFrom env peer [] requestId ref).1 }

/-- The outcome of `healthCheck`: what it returned or threw, the node
afterwards, the peers it spliced out of the peer list (in the order of their
removal, each as `ping` left it), and whether it started `discoverPeers()`. -/
structure HealthCheck where
  result : Except JsError Unit
  state : ValidatorP2P
  removed : List Peer
  discovering : Bool
  deriving DecidableEq

/-- `ValidatorP2P.healthCheck()` run to completion with nothing else acting on
the node meanwhile. When peers are missing it ends by calling
`discoverPeers()` without waiting for it; that call runs up to its first
`await`, which is the request to the first peer of the list (`requestId` and
`ref` are the id and the identity of this request) or, with no peer, `sleep`. -/
def healthCheck (env : Env) (self : ValidatorP2P) (pings : Nat → Ping) (requestId : String)
    (ref : Nat) : HealthCheck :=
  let r := healthCheckLoop env pings self.peers.length self.peers
  let checked := { self with peers := r.2.1 }
  match r.1 with
  | .error e => { result := .error e, state := checked, removed := r.2.2, discovering := false }
  | .ok _ =>
    -- If we lost peers, discover more
    if checked.peers.length < checked.maxPeers then
      { result := .ok (), state := askPeer env checked 0 requestId ref, removed := r.2.2,
        discovering := true }
    else { result := .ok (), state := checked, removed := r.2.2, discovering := false }

/-- The `connected` field read on the socket of a peer; the TCP socket of an
inbound peer has no such field. -/
def Socket.connected : Socket → Option Bool
  | .network s => some s.connected
  | .tcp _ => none

/-- Whether `end()` was called on the TCP socket under the socket of a peer,
which is what `NetworkSocket.close()` does. -/
def Socket.ended : Socket → Bool
  | .network s => (s.socket.map fun tcp => tcp.ended).getD false
  | .tcp s => s.ended

/-- The pings of the sample: the PONG of peer 1 arrives, peer 2 times out. -/
def samplePings (ref : Nat) : Ping :=
  { ref := 200 + ref, timestamp := 1000, pong := if ref = 1 then some 1500 else none }

/-- A node with two alive peers over connected sockets. -/
def sampleTwoPeers : ValidatorP2P :=
  { myAddress := "192.168.1.100", myPort := 30303,
    peers := [samplePeer 1 "10.0.0.1:30303", samplePeer 2 "10.0.0.2:30303"] }

/-! ## Discovery -/

/-- `address.split(":")` on the characters of a string. -/
def splitColon : List Char → List (List Char)
  | [] => [[]]
  | c :: rest => if c = ':' then [] :: splitColon rest else consFirst c (splitColon rest)

/-- The value of the longest initial part of the text made of digits of the
radix, `none` when the text does not start with a digit. -/
def leadingDigits (radix : Nat) : List Char → Option Nat → Option Nat
  | [], value => value
  | c :: rest, value =>
    match digitOf radix c with
    | none => value
    | some d => leadingDigits radix rest (some (value.getD 0 * radix + d))

/-- `parseInt(text)`, `none` for `NaN`: white space is skipped, then a sign,
then `0x` or `0X` selects radix 16, then the digits are read as far as they
go. Exact for the numbers that JavaScript represents exactly. -/
def parseInt (text : List Char) : Option Int :=
  let trimmed := text.dropWhile isJsWhiteSpace
  let signed : Bool × List Char :=
    match trimmed with
    | '-' :: rest => (true, rest)
    | '+' :: rest => (false, rest)
    | _ => (false, trimmed)
  let digits : Nat × List Char :=
    match signed.2 with
    | '0' :: 'x' :: rest => (16, rest)
    | '0' :: 'X' :: rest => (16, rest)
    | _ => (10, signed.2)
  (leadingDigits digits.1 digits.2 none).map fun n => if signed.1 then -(n : Int) else (n : Int)

/-- What `for (let address of value)` goes through: the elements of an array,
the characters of a string; `none` when the value is not iterable. -/
def iterate : JsVal → Option (List JsVal)
  | .arr _ items => some items
  | .str text => some (text.toList.map fun c => .str (String.mk [c]))
  | _ => none

/-- What the surroundings supply to one connection attempt of `discoverPeers`:
whether the socket reports `connect` rather than `error`, the identity of the
peer object and the reading of `Date.now()` in its constructor. -/
structure Attempt where
  connected : Bool
  ref : Nat
  now : Int

/-- What the surroundings supply to one request of `discoverPeers`: the id and
the identity of the request, and `message.peers` of the response that resolves
the promise, `none` when the timeout rejects it. -/
structure Answer where
  requestId : String
  ref : Nat
  peers : Option JsVal

/-- The surroundings of a run of `discoverPeers`, by the number of `await`s
that the run has passed. -/
structure World where
  answer : Nat → Answer
  attempt : Nat → Attempt

/-- A run of `discoverPeers` so far: the node, the number of `await`s passed,
and the states of the node after each step of the run, in order. -/
structure Discovery where
  state : ValidatorP2P
  clock : Nat
  states : List ValidatorP2P

/-- The loop `for (let address of newPeerAddresses)` of `discoverPeers`, each
`await` being over before anything else acts on the node. An address that is
not a string makes `address.split` throw, which ends the loop (the `catch`
around the request swallows it). A port that `parseInt` reads as `NaN`, as a
negative number or as a number above 65535 is refused by `net`, so that
`connectToPeer` returns or throws without a change of the node. -/
def connectToAddresses (world : World) : ValidatorP2P → Nat → List JsVal → Discovery
  | self, clock, [] => { state := self, clock := clock, states := [] }
  | self, clock, address :: rest =>
    if self.peers.length ≥ self.maxPeers then { state := self, clock := clock, states := [] }
    else
      match address with
      | .str text =>
        let pieces := splitColon text.toList
        let host := String.mk (pieces.headD [])
        let port := parseInt ((pieces.get? 1).getD "undefined".toList)
        let attempt := world.attempt clock
        let after :=
          match port with
          | some p =>
            if 0 ≤ p then
              (connectToPeer self host p.toNat (attempt.connected && decide (p < 65536))
                attempt.ref attempt.now).2
            else self
          | none => self
        let next := connectToAddresses world after (clock + 1) rest
        { state := next.state, clock := next.clock, states := after :: next.states }
      | _ => { state := self, clock := clock, states := [] }

/-- One pass of the loop `for (let address of newPeerAddresses)` of
`discoverPeers` up to the `await` inside `connectToPeer`: the host, the port
and the socket whose connection the call waits for. `none` when the loop
breaks at capacity, when `address.split` throws, when the port is one that
`net` refuses, or when `connectToPeer` returns before it creates a socket. The
node is not changed; the call goes on with `connectToPeerFinish`, in the state
that the node has by then. -/
def connectToAddressStart (self : ValidatorP2P) (address : JsVal) :
    Option (String × Nat × NetworkSocket) :=
  if self.peers.length ≥ self.maxPeers then none
  else
    match address with
    | .str text =>
      let pieces := splitColon text.toList
      let host := String.mk (pieces.headD [])
      match parseInt ((pieces.get? 1).getD "undefined".toList) with
      | some p =>
        if 0 ≤ p ∧ p < 65536 then
          (connectToPeerStart self host p.toNat).map fun socket => (host, p.toNat, socket)
        else none
      | none => none
    | _ => none

/-- What `discoverPeers` does once the promise of a request has settled:
nothing after a timeout, and nothing when the value it resolved with is not
iterable (the `catch` around the request swallows either); otherwise the
connection attempts. -/
def connectToAnswer (world : World) (self : ValidatorP2P) (clock : Nat)
    (peers : Option JsVal) : Discovery :=
  match peers.bind iterate with
  | some addresses => connectToAddresses world self clock addresses
  | none => { state := self, clock := clock, states := [] }

/-- The loop `for (let peer of [...this.peers])` of `discoverPeers` over the
positions of the copy that are still to be visited. -/
def discoverRound (env : Env) (world : World) : ValidatorP2P → Nat → List Nat → Discovery
  | self, clock, [] => { state := self, clock := clock, states := [] }
  | self, clock, index :: rest =>
    let answer := world.answer clock
    let asked := askPeer env self index answer.requestId answer.ref
    let tried := connectToAnswer world asked (clock + 1) answer.peers
    if tried.state.peers.length ≥ tried.state.maxPeers then
      { state := tried.state, clock := tried.clock, states := asked :: tried.states }
    else
      let next := discoverRound env world tried.state tried.clock rest
      { state := next.state, clock := next.clock,
        states := asked :: tried.states ++ next.states }

/-- `ValidatorP2P.discoverPeers()` for at most `rounds` passes of its `while`
loop, with nothing else acting on the node during its `await`s. -/
def discoverPeers (env : Env) (world : World) : Nat → ValidatorP2P → Nat → Discovery
  | 0, self, clock => { state := self, clock := clock, states := [] }
  | rounds + 1, self, clock =>
    if self.peers.length < self.maxPeers then
      let round := discoverRound env world self clock (List.range self.peers.length)
      -- If we still don't have enough peers, wait and try again
      let next := discoverPeers env world rounds round.state (round.clock + 1)
      { state := next.state, clock := next.clock, states := round.states ++ next.states }
    else { state := self, clock := clock, states := [] }

/-- The peer objects of the peer list, in order: identity and address. -/
def peerIds (self : ValidatorP2P) : List (Nat × String) :=
  self.peers.map fun p => (p.ref, p.address)

/-- A step that takes no peer out of the list and puts at most one at its end,
and that only when the list was below `maxPeers`. -/
def Appends (before after : ValidatorP2P) : Prop :=
  after.maxPeers = before.maxPeers ∧
  ∃ added, peerIds after = peerIds before ++ added ∧ added.length ≤ 1 ∧
    (added ≠ [] → before.peers.length < before.maxPeers)

/-- A run from `start` whose steps all append and whose node is the last of
its states. -/
def AppendsOnly (start : ValidatorP2P) (run : Discovery) : Prop :=
  List.Chain Appends start run.states ∧ run.states.getLast?.getD start = run.state

/-- Surroundings in which the first request is answered with three addresses,
of which the second is the address of the peer asked and the third has no
port, every other request times out, and every connection succeeds. -/
def sampleWorld : World where
  answer := fun clock =>
    { requestId := "R", ref := 400 + clock,
      peers := if clock = 0 then
          some (.arr 60 [.str "10.0.0.7:30303", .str "10.0.0.9:30303", .str "10.0.0.8"])
        else none }
  attempt := fun clock => { connected := true, ref := 500 + clock, now := 2000 }

/-! ## Propagation on a line of three nodes -/

/-- What happens at the three nodes of a line A–B–C when A broadcasts. -/
structure LineRun where
  atA : Run Broadcast
  atB : Run Unit
  atC : Run Unit
  deriving DecidableEq

/-- The envelope that A creates for a broadcast of `data` on topic `t`. -/
def lineMessage (env : Env) (a : ValidatorP2P) (data : JsVal) (messageId : String)
    (timestamp : Int) (ref : Nat) : JsVal :=
  envelope ref (.str "t") data messageId (sign env a data) timestamp

/-- A broadcast of `data` on topic `t` by A, followed by the handling of the
envelope by B, which has it from its peer object `fromA`, and by C, which has
it from its peer object `fromB`. A message arrives as the value that was
sent. -/
def lineRun (env : Env) (a b c : ValidatorP2P) (fromA fromB : Nat) (data : JsVal)
    (messageId : String) (timestamp nowA nowB nowC : Int) (ref : Nat) : LineRun :=
  { atA := broadcast env a (.str "t") data messageId timestamp nowA ref,
    atB := handleGossipMessage env b fromA (lineMessage env a data messageId timestamp ref) nowB,
    atC := handleGossipMessage env c fromB (lineMessage env a data messageId timestamp ref) nowC }

/-- The subscriber calls of a run, in order. -/
def invocationsOf {α : Type} (run : Run α) : List (Nat × JsVal) :=
  invocations run.trace

/-- Node A of the sample line: its only peer is B, and callback 5 is
subscribed to topic `t`. -/
def sampleLineA : ValidatorP2P :=
  { myAddress := "10.0.0.1", myPort := 30303, peers := [samplePeer 11 "10.0.0.2:30303"],
    topics := [("t", [5])] }

/-- Node B of the sample line: its peers are A and C, and callback 6 is
subscribed to topic `t`. -/
def sampleLineB : ValidatorP2P :=
  { myAddress := "10.0.0.2", myPort := 30303,
    peers := [samplePeer 21 "10.0.0.1:30303", samplePeer 22 "10.0.0.3:30303"],
    topics := [("t", [6])] }

/-- Node C of the sample line: its only peer is B, and callback 8 is
subscribed to topic `t`. -/
def sampleLineC : ValidatorP2P :=
  { myAddress := "10.0.0.3", myPort := 30303, peers := [samplePeer 31 "10.0.0.2:30303"],
    topics := [("t", [8])] }

/-- The broadcast of the payload `"x"` by A on the sample line. -/
def sampleLineRun : LineRun :=
  lineRun sampleEnv sampleLineA sampleLineB sampleLineC 21 31 (.str "x") "id-9" 1000 1000 1010
    1020 110

/-! ## Messages without a messageId -/

/-- A valid GOSSIP message on topic `t` that has no `messageId`. -/
def sampleNoIdMessage : JsVal :=
  .obj 120 [("type", .str "GOSSIP"), ("topic", .str "t"), ("data", .str "x"),
    ("signature", .str sampleSignature)]

/-- Another valid GOSSIP message without a `messageId`, on another topic and
with another payload. -/
def sampleOtherNoIdMessage : JsVal :=
  .obj 121 [("type", .str "GOSSIP"), ("topic", .str "u"), ("data", .str "y"),
    ("signature", .str sampleSignature)]

/-- A valid GOSSIP message on topic `t` whose `messageId` is the array `["a"]`,
as `JSON.parse` gives it for a frame: `ref` is the identity of the message
object and `ref + 1` that of the array, both new for every frame parsed. -/
def sampleArrayIdMessage (ref : Nat) : JsVal :=
  .obj ref [("type", .str "GOSSIP"), ("topic", .str "t"), ("data", .str "x"),
    ("messageId", .arr (ref + 1) [.str "a"]), ("signature", .str sampleSignature)]

/-- A node with two alive peers and a subscriber of topic `t` only. -/
def sampleQuietNode : ValidatorP2P :=
  { myAddress := "192.168.1.100", myPort := 30303,
    peers := [samplePeer 1 "10.0.0.1:30303", samplePeer 2 "10.0.0.2:30303"],
    topics := [("t", [5]), ("empty", [])] }

/-- A valid GOSSIP message on a topic to which nothing is subscribed. -/
def sampleUnheardMessage : JsVal :=
  .obj 122 [("type", .str "GOSSIP"), ("topic", .str "u"), ("data", .str "y"),
    ("messageId", .str "id-7"), ("signature", .str sampleSignature)]

end P2P

namespace Randao

/-! ## The choice of the proposer

The script `src/Proof_Of_Stake_Works/how_validator_randomly_chosen.js`. Its
global variables are the fields of `Chain`; SHA-256 in hexadecimal is an
argument, and every theorem holds for every such function. -/

/-- An entry of the array `validators`. -/
structure Validator where
  id : Int
  secret : String
  stake : Int
  deriving DecidableEq, Repr

/-- The global variables `validators`, `randaoMix`, `targetRandoaMix` and
`currentEpoch` of the script. -/
structure Chain where
  validators : List Validator
  randaoMix : String
  targetRandoaMix : List String
  currentEpoch : Int
  deriving DecidableEq, Repr

/-- `hash(randao, slotNumber)`: the SHA-256 digest, in hexadecimal, of the two
strings put together. -/
def hash (sha256Hex : String → String) (randao slotNumber : String) : String :=
  sha256Hex (randao ++ slotNumber)

/-- `text.startsWith("0x")`. -/
def startsWith0x (text : String) : Bool :=
  match text.toList with
  | '0' :: 'x' :: _ => true
  | _ => false

/-- The value of a sequence of hexadecimal digits read after the digits that
gave `value`; `none` when a character is not a hexadecimal digit. -/
def hexDigits : List Char → Nat → Option Nat
  | [], value => some value
  | c :: rest, value =>
    match P2P.digitOf 16 c with
    | none => none
    | some d => hexDigits rest (value * 16 + d)

/-- `BigInt(text)` for a string that starts with `0x`, `none` for a
`SyntaxError`: white space at the end is skipped, and what is left after `0x`
has to be one or more hexadecimal digits. -/
def bigIntOfHex (text : String) : Option Nat :=
  match text.toList with
  | '0' :: 'x' :: rest =>
    let digits := (rest.reverse.dropWhile P2P.isJsWhiteSpace).reverse
    if digits.isEmpty then none else hexDigits digits 0
  | _ => none

/-- The hexadecimal digit with value `d`, in lower case. -/
def hexChar (d : Nat) : Char :=
  if d < 10 then Char.ofNat (48 + d) else Char.ofNat (87 + d)

/-- The digits of `n` in radix 16 put in front of `digits`; `fuel` bounds the
number of digits. -/
def toHexCore : Nat → Nat → List Char → List Char
  | 0, _, digits => digits
  | fuel + 1, n, digits =>
    if n < 16 then hexChar n :: digits
    else toHexCore fuel (n / 16) (hexChar (n % 16) :: digits)

/-- `n.toString(16)` for a `BigInt` that is not negative. -/
def toHex (n : Nat) : String :=
  String.mk (toHexCore (n + 1) n [])

/-- The string that `XOR` passes to `BigInt`: the argument with `0x` put in
front of it unless it starts with `0x`. -/
def with0x (text : String) : String :=
  if !startsWith0x text then "0x" ++ text else text

/-- `XOR(randao, secret)`. -/
def XOR (randao secret : String) : Except P2P.JsError String :=
  match bigIntOfHex (with0x randao) with
  | none => .error (.error "SyntaxError")
  | some randao =>
    match bigIntOfHex (with0x secret) with
    | none => .error (.error "SyntaxError")
    | some secret => .ok ("0x" ++ toHex (randao ^^^ secret))

/-- `signEpoch(epochNumber, validator)`. -/
def signEpoch (sha256Hex : String → String) (epochNumber : Int) (validator : Validator) :
    String :=
  hash sha256Hex validator.secret (toString epochNumber)

/-- `proposeBlock(epochNumber, slotNumber, validatorId)`: what it returns or
throws, and the global variables afterwards. Without a validator of that id
the template literal of the log throws on `proposer.id`. -/
def proposeBlock (sha256Hex : String → String) (self : Chain)
    (epochNumber _slotNumber validatorId : Int) : Except P2P.JsError String × Chain :=
  match self.validators.find? fun v => v.id == validatorId with
  | none => (.error .typeError, self)
  | some proposer =>
    let validator_secret := signEpoch sha256Hex epochNumber proposer
    match XOR self.randaoMix validator_secret with
    | .error e => (.error e, self)
    | .ok updated_randao => (.ok updated_randao, { self with randaoMix := updated_randao })

/-- The element `array[index]`, `none` for `undefined`. -/
def element {α : Type} (array : List α) (index : Int) : Option α :=
  if index < 0 then none else array.get? index.toNat

/-- The local variable `randao` of `chooseValidator`, which the function
computes and logs. -/
def chosenRandao (self : Chain) (epochNumber : Int) : Option String :=
  if epochNumber = 1 ∨ epochNumber = 2 then element self.targetRandoaMix epochNumber
  else element self.targetRandoaMix (epochNumber - 2)

/-- `chooseValidator(epochNumber, slotNumber)`: the element of `validators`
returned (`none` for `undefined`), or the error thrown: a `SyntaxError` of
`BigInt` when the seed is not a hexadecimal numeral, a `RangeError` of `%`
when `validators` is empty. The seed is the hash of the global `randaoMix`;
the local `randao` is not used after it is set. -/
def chooseValidator (sha256Hex : String → String) (self : Chain)
    (epochNumber slotNumber : Int) : Except P2P.JsError (Option Validator) :=
  let _randao := chosenRandao self epochNumber
  let seed := hash sha256Hex self.randaoMix (toString slotNumber)
  match bigIntOfHex ("0x" ++ seed) with
  | none => .error (.error "SyntaxError")
  | some value =>
    if self.validators.length = 0 then .error (.error "RangeError: Division by zero")
    else
      let result := value % self.validators.length
      .ok (self.validators.get? result)

/-- What C31 reads off `chooseValidator`: the validator indexed by the hash of
the RANDAO mix recorded two epochs before, `targetRandoaMix[epochNumber - 2]`. -/
def chooseValidatorFromTarget (sha256Hex : String → String) (self : Chain)
    (epochNumber slotNumber : Int) : Option Validator :=
  match element self.targetRandoaMix (epochNumber - 2) with
  | none => none
  | some randao =>
    match bigIntOfHex ("0x" ++ hash sha256Hex randao (toString slotNumber)) with
    | none => none
    | some value => self.validators.get? (value % self.validators.length)

/-- The nine validators that the script adds. -/
def sampleValidators : List Validator :=
  (List.range 9).map fun i =>
    { id := (i : Int) + 1, secret := "private_key_" ++ toString (i + 1), stake := 32 }

/-- The global variables when the script calls `chooseValidator(3, 1)`:
`targetRandoaMix[1]` and `targetRandoaMix[2]` were recorded at the end of
epochs 1 and 2, and `randaoMix` is still the value recorded for epoch 2. -/
def sampleChain : Chain :=
  { validators := sampleValidators,
    randaoMix := "0x89cfe40d6649b3e3c01168871d0eec16dbc01736aed17ee1973f6131a46e0281",
    targetRandoaMix :=
      ["0x0000", "0x2c749e26ec99639c78f0336e7185be4db169817a073386d484d4801c374aa7c9",
        "0x89cfe40d6649b3e3c01168871d0eec16dbc01736aed17ee1973f6131a46e0281"],
    currentEpoch := 3 }

/-- A function that agrees with SHA-256 in hexadecimal on the texts that the
samples hash, and is constant elsewhere. -/
def sampleSha256Hex (text : String) : String :=
  if text = "0x1" ++ "1" then
    "a3d699202f4fc032b5f56c61c1040db0c39408120eade5bf668da4983db6401f"
  else
  if text = "0x89cfe40d6649b3e3c01168871d0eec16dbc01736aed17ee1973f6131a46e0281" ++ "1" then
    "c12b4a3e986c89cdb5b88c8900d7274971e9c4c2dbc1a5a38f1cc02cf60a9827"
  else if text =
      "0x2c749e26ec99639c78f0336e7185be4db169817a073386d484d4801c374aa7c9" ++ "1" then
    "efbf20e27a9dbf72b421d39dc7ff23d5544c86a030cd00b3c8925a5969f9f143"
  else if text = "private_key_8" ++ "3" then
    "ee0b6259ae8213a1441ac468e90db57a6c30c5e8fb6f182d21d5ad9cb72135db"
  else "0000000000000000000000000000000000000000000000000000000000000000"

end Randao

namespace Blocks

/-! ## The block builder

Class `BlockBuilder` of `src/Proof_Of_Stake_Works/what_block_actually.js`:
the selection of transactions and of attestations for a block. The numbers of
a transaction or an attestation are integers; an arithmetic operation gives
the double nearest to the exact result, as in JavaScript. -/

/-- The number of times `m` has to be halved to come below `2 ^ 53`, at most
`fuel` times. -/
def halvings : Nat → Nat → Nat
  | 0, _ => 0
  | fuel + 1, m => if m < 2 ^ 53 then 0 else halvings fuel (m / 2) + 1

/-- The double nearest to the integer `x`, the even one of two that are
equally near: `x` itself when it is below `2 ^ 53` in size, and otherwise `x`
rounded to 53 significant bits. This is the value of a JavaScript `+`, `-` or
`*` on numbers whose exact result is `x`, for results below `2 ^ 1024` in
size. -/
def roundDouble (x : Int) : Int :=
  let m := x.natAbs
  let e := halvings 1024 m
  let q := m / 2 ^ e
  let r := m % 2 ^ e
  let rounded := if 2 ^ e < 2 * r ∨ (2 * r = 2 ^ e ∧ q % 2 = 1) then q + 1 else q
  if x < 0 then -((rounded * 2 ^ e : Nat) : Int) else ((rounded * 2 ^ e : Nat) : Int)

/-- JavaScript `a + b` on numbers. -/
def add (a b : Int) : Int := roundDouble (a + b)

/-- JavaScript `a - b` on numbers. -/
def sub (a b : Int) : Int := roundDouble (a - b)

/-- JavaScript `a * b` on numbers. -/
def mul (a b : Int) : Int := roundDouble (a * b)

/-- `array.sort(compareFn)` for a compare function that is consistent: the
sort is stable, so the result is the array in the order of `compareFn` with
the elements that compare as equal left in their old order. -/
def sort {α : Type} (compareFn : α → α → Int) (array : List α) : List α :=
  array.insertionSort fun a b => compareFn a b ≤ 0

/-- A transaction of the mempool; `sender` is the field `from` and `recipient`
the field `to`. -/
structure Transaction where
  sender : String
  recipient : String
  value : Int
  gas : Int
  gasPrice : Int
  nonce : Int
  signature : String
  deriving DecidableEq, Repr

/-- An attestation of the pool; `slot` is `data.slot`, `index` is
`data.index`. -/
structure Attestation where
  aggregation_bits : String
  slot : Int
  index : Int
  signature : String
  deriving DecidableEq, Repr

/-- The fields `balances` and `nonces` of the state object: two ordinary
objects, given by the accounts that have an entry of their own, with their
number. -/
structure State where
  balances : List (String × Int)
  nonces : List (String × Int)
  deriving DecidableEq, Repr

/-- The fields of class `BlockBuilder` that the selection reads. The
constructor leaves `currentSlot` and `state` undefined (`none`). -/
structure BlockBuilder where
  validatorIndex : Int
  mempool : List Transaction := []
  attestationPool : List Attestation := []
  currentSlot : Option Int := none
  state : Option State := none
  deriving DecidableEq, Repr

/-- The names that an ordinary object inherits from `Object.prototype`: a read
of one of them on an object with no entry of its own gives a function (for
`__proto__` the prototype object), not `undefined`. -/
def objectPrototypeNames : List String :=
  ["constructor", "toString", "toLocaleString", "valueOf", "hasOwnProperty",
   "isPrototypeOf", "propertyIsEnumerable", "__proto__", "__defineGetter__",
   "__defineSetter__", "__lookupGetter__", "__lookupSetter__"]

/-- The read `table?.[address] || 0`: the number of the entry of `address`, the
number 0 when `table` is undefined or has no entry and inherits none, and
`none` for the function or object inherited from `Object.prototype`, which is
truthy and no number. -/
def readAccount (table : Option (List (String × Int))) (address : String) : Option Int :=
  match table with
  | none => some 0
  | some entries =>
    match entries.lookup address with
    | some n => some n
    | none => if address ∈ objectPrototypeNames then none else some 0

/-- `BlockBuilder.getBalance(address)`: `this.state?.balances?.[address] || 0`. -/
def BlockBuilder.getBalance (self : BlockBuilder) (address : String) : Option Int :=
  readAccount (self.state.map State.balances) address

/-- `BlockBuilder.getNonce(address)`: `this.state?.nonces?.[address] || 0`. -/
def BlockBuilder.getNonce (self : BlockBuilder) (address : String) : Option Int :=
  readAccount (self.state.map State.nonces) address

/-- `BlockBuilder.verifyTransactionSignature(tx)`. -/
def BlockBuilder.verifyTransactionSignature (_self : BlockBuilder) (_tx : Transaction) : Bool :=
  true

/-- `BlockBuilder.validateTransaction(tx)`. Against a balance that is no
number `>` compares with NaN and is false; against a nonce that is no number
`!==` is true. -/
def BlockBuilder.validateTransaction (self : BlockBuilder) (tx : Transaction) : Bool :=
  -- Check 1: Valid signature
  if !self.verifyTransactionSignature tx then false
  -- Check 2: Sender has enough balance
  else if (match self.getBalance tx.sender with
      | some balance => decide (add tx.value (mul tx.gas tx.gasPrice) > balance)
      | none => false) then false
  -- Check 3: Correct nonce
  else if (match self.getNonce tx.sender with
      | some nonce => tx.nonce != nonce
      | none => true) then false
  else true

/-- The constant `GAS_LIMIT` of `selectTransactions`. -/
def GAS_LIMIT : Int := 30000000

/-- The loop `for (let tx of sorted)` of `selectTransactions` on the
transactions still to be visited: the array `selected` and `gasUsed` at its
end. `GAS_LIMIT * 0.95` is the number 28500000. -/
def selectLoop (self : BlockBuilder) :
    List Transaction → List Transaction → Int → List Transaction × Int
  | [], selected, gasUsed => (selected, gasUsed)
  | tx :: rest, selected, gasUsed =>
    let step : List Transaction × Int :=
      if add gasUsed tx.gas ≤ GAS_LIMIT then
        -- Validate transaction
        if self.validateTransaction tx then (selected ++ [tx], add gasUsed tx.gas)
        else (selected, gasUsed)
      else (selected, gasUsed)
    -- Stop if block is full
    if step.2 ≥ 28500000 then step else selectLoop self rest step.1 step.2

/-- The object that `selectTransactions` returns; `selected` is the local
array of that name, of which `transactions` is the serialisation. -/
structure ExecutionPayload where
  selected : List Transaction
  transactions : List String
  timestamp : Int
  gas_limit : Int
  gas_used : Int
  fee_recipient : String
  deriving DecidableEq, Repr

/-- `BlockBuilder.getValidatorAddress()`. -/
def BlockBuilder.getValidatorAddress (self : BlockBuilder) : String :=
  "0xValidator" ++ toString self.validatorIndex ++ "Address"

/-- `BlockBuilder.selectTransactions()`: the payload returned and the builder
afterwards, whose mempool `sort` has put in its new order. `stringify` is
`JSON.stringify` on transactions and `timestamp` the value of
`Math.floor(Date.now() / 1000)`. -/
def BlockBuilder.selectTransactions (stringify : Transaction → String) (self : BlockBuilder)
    (timestamp : Int) : ExecutionPayload × BlockBuilder :=
  -- Sort by gas price (highest first)
  let sorted := sort (fun a b => sub b.gasPrice a.gasPrice) self.mempool
  let self := { self with mempool := sorted }
  -- Select transactions that fit in block
  let r := selectLoop self sorted [] 0
  ({ selected := r.1, transactions := r.1.map stringify, timestamp := timestamp,
     gas_limit := GAS_LIMIT, gas_used := r.2, fee_recipient := self.getValidatorAddress },
   self)

/-- `BlockBuilder.countBits(bitfield)`: the number of characters `1`. -/
def BlockBuilder.countBits (_self : BlockBuilder) (bitfield : String) : Int :=
  ((bitfield.toList.filter fun bit => bit == '1').length : Int)

/-- The test of the `filter` of `selectAttestations`; with `currentSlot`
undefined the age is `NaN` and the test fails. -/
def BlockBuilder.isRecent (self : BlockBuilder) (att : Attestation) : Bool :=
  match self.currentSlot with
  | none => false
  | some currentSlot =>
    let age := sub currentSlot att.slot
    decide (age ≥ 0) && decide (age ≤ 32)

/-- `BlockBuilder.selectAttestations()`: the array returned and the builder
afterwards. `filter` makes a new array, and it is this array that `sort`
puts in order. -/
def BlockBuilder.selectAttestations (self : BlockBuilder) : List Attestation × BlockBuilder :=
  -- Filter: Only include recent attestations
  let recent := self.attestationPool.filter self.isRecent
  -- Sort by number of validators (most votes first)
  let sorted := sort
    (fun a b => sub (self.countBits b.aggregation_bits) (self.countBits a.aggregation_bits))
    recent
  -- Take top attestations
  (sorted.take 128, self)

/-- The state of the demo. -/
def sampleState : State :=
  { balances := [("0xAlice", 10000000000000000000), ("0xCarol", 5000000000000000000),
      ("0xDave", 2000000000000000000)],
    nonces := [("0xAlice", 5), ("0xCarol", 12), ("0xDave", 3)] }

/-- The builder of the demo, with its three transactions and its attestation. -/
def sampleBuilder : BlockBuilder :=
  { validatorIndex := 42,
    mempool :=
      [{ sender := "0xAlice", recipient := "0xBob", value := 1000000000000000000, gas := 21000,
         gasPrice := 50000000000, nonce := 5, signature := "0xAliceSignature" },
       { sender := "0xCarol", recipient := "0xContractX", value := 0, gas := 200000,
         gasPrice := 100000000000, nonce := 12, signature := "0xCarolSignature" },
       { sender := "0xDave", recipient := "0xEve", value := 500000000000000000, gas := 21000,
         gasPrice := 30000000000, nonce := 3, signature := "0xDaveSignature" }],
    attestationPool :=
      [{ aggregation_bits := "0b111101011110", slot := 99, index := 0,
         signature := "0xAggregatedSig1" }],
    currentSlot := some 100,
    state := some sampleState }

/-- A stand-in for `JSON.stringify` on transactions. -/
def sampleStringify (tx : Transaction) : String :=
  tx.sender ++ ">" ++ tx.recipient

/-- A transaction whose cost `value + gas * gasPrice` is 1000000000000000008. -/
def sampleCostlyTransaction : Transaction :=
  { sender := "0xAlice", recipient := "0xBob", value := 999978999999979008, gas := 21000,
    gasPrice := 1000000001, nonce := 5, signature := "0xAliceSignature" }

/-- A builder whose mempool holds `sampleCostlyTransaction`, in a state where
the sender has the balance 1000000000000000000. -/
def sampleCostlyBuilder : BlockBuilder :=
  { validatorIndex := 42,
    mempool := [sampleCostlyTransaction],
    currentSlot := some 100,
    state := some { balances := [("0xAlice", 1000000000000000000)],
                    nonces := [("0xAlice", 5)] } }

/-- A builder whose mempool holds a transaction of the sender `constructor`,
who has no balance in the state. -/
def sampleInheritedBuilder : BlockBuilder :=
  { validatorIndex := 42,
    mempool := [{ sender := "constructor", recipient := "0xBob",
                  value := 1000000000000000000, gas := 21000, gasPrice := 50000000000,
                  nonce := 0, signature := "0xSignature" }],
    currentSlot := some 100,
    state := some { balances := [("0xAlice", 10000000000000000000)],
                    nonces := [("0xAlice", 5), ("constructor", 0)] } }

end Blocks

namespace P2P

/-! ## Lemmas on values and maps -/

theorem strictEq_refl (a : JsVal) : a.strictEq a = true := by
  cases a <;> simp [JsVal.strictEq]

theorem strictEq_symm (a b : JsVal) : a.strictEq b = b.strictEq a := by
  cases a <;> cases b <;> simp [JsVal.strictEq, eq_comm]

theorem strictEq_congr_right {a b : JsVal} (h : a.strictEq b = true) (c : JsVal) :
    c.strictEq a = c.strictEq b := by
  cases a <;> cases b <;> simp [JsVal.strictEq] at h <;> cases c <;>
    simp [JsVal.strictEq, h]

theorem strictEq_congr_left {a b : JsVal} (h : a.strictEq b = true) (c : JsVal) :
    a.strictEq c = b.strictEq c := by
  rw [strictEq_symm a c, strictEq_symm b c]
  exact strictEq_congr_right h c

theorem mapHas_congr {a b : JsVal} (h : a.strictEq b = true) (m : SeenMap) :
    mapHas m a = mapHas m b := by
  unfold mapHas
  congr 1
  funext e
  exact strictEq_congr_right h e.1

theorem mapHas_iff (m : SeenMap) (key : JsVal) :
    mapHas m key = true ↔ ∃ e ∈ m, e.1.strictEq key = true := by
  simp [mapHas, List.any_eq_true]

theorem mem_mapSet {m : SeenMap} {key : JsVal} {value : Int} {e : JsVal × Int}
    (h : e ∈ mapSet m key value) : e ∈ m ∨ (e.1.strictEq key = true ∧ e.2 = value) := by
  unfold mapSet at h
  split at h
  · rw [List.mem_map] at h
    obtain ⟨x, hx, rfl⟩ := h
    by_cases hk : x.1.strictEq key = true
    · right
      simp [hk]
    · left
      simp [hk, hx]
  · rw [List.mem_append] at h
    rcases h with h | h
    · exact Or.inl h
    · right
      simp at h
      subst h
      exact ⟨strictEq_refl key, rfl⟩

theorem mapHas_mapSet_self (m : SeenMap) (key : JsVal) (value : Int) :
    mapHas (mapSet m key value) key = true := by
  by_cases h : mapHas m key = true
  · obtain ⟨e, he, hk⟩ := (mapHas_iff m key).1 h
    rw [mapHas_iff]
    refine ⟨(e.1, value), ?_, hk⟩
    simp only [mapSet, h, if_true, List.mem_map]
    exact ⟨e, he, by simp [hk]⟩
  · rw [mapHas_iff]
    refine ⟨(key, value), ?_, strictEq_refl key⟩
    simp [mapSet, h]

theorem mapHas_mapSet_of_mapHas {m : SeenMap} {k : JsVal} (h : mapHas m k = true)
    (key : JsVal) (value : Int) : mapHas (mapSet m key value) k = true := by
  obtain ⟨e, he, hk⟩ := (mapHas_iff m k).1 h
  rw [mapHas_iff]
  by_cases hm : mapHas m key = true
  · by_cases hek : e.1.strictEq key = true
    · refine ⟨(e.1, value), ?_, hk⟩
      simp only [mapSet, hm, if_true, List.mem_map]
      exact ⟨e, he, by simp [hek]⟩
    · refine ⟨e, ?_, hk⟩
      simp only [mapSet, hm, if_true, List.mem_map]
      exact ⟨e, he, by simp [hek]⟩
  · refine ⟨e, ?_, hk⟩
    simp [mapSet, hm, he]

theorem mapGet_mapSet_self (m : SeenMap) (key : JsVal) (value : Int) :
    mapGet (mapSet m key value) key = some value := by
  unfold mapGet mapSet
  split
  · rename_i h
    induction m with
    | nil => simp [mapHas] at h
    | cons e rest ih =>
      by_cases hk : e.1.strictEq key = true
      · simp [List.find?, hk]
      · have hr : mapHas rest key = true := by
          simpa [mapHas, hk] using h
        simpa [List.find?, hk] using ih hr
  · rename_i h
    induction m with
    | nil => simp [List.find?, strictEq_refl]
    | cons e rest ih =>
      have hk : e.1.strictEq key = false := by
        cases hh : e.1.strictEq key
        · rfl
        · exact absurd (by simp [mapHas, hh]) h
      have hr : ¬ mapHas rest key = true := by
        intro hr
        exact h (by simp [mapHas] at hr ⊢; exact Or.inr hr)
      simpa [List.find?, hk] using ih hr

theorem mapGet_mapSet_other (m : SeenMap) (key : JsVal) (value : Int) (k : JsVal)
    (hne : key.strictEq k = false) : mapGet (mapSet m key value) k = mapGet m k := by
  have hflip : ∀ e : JsVal × Int, e.1.strictEq key = true → e.1.strictEq k = false := by
    intro e he
    rw [strictEq_congr_left he k]
    exact hne
  unfold mapGet mapSet
  split
  · clear * - hflip
    induction m with
    | nil => rfl
    | cons e rest ih =>
      by_cases hk : e.1.strictEq key = true
      · have := hflip e hk
        simp only [List.map_cons, hk, if_true, List.find?, this]
        exact ih
      · by_cases hkk : e.1.strictEq k = true
        · simp [List.find?, hk, hkk]
        · have hk2 : e.1.strictEq key = false := by simpa using hk
          have hkk2 : e.1.strictEq k = false := by simpa using hkk
          simpa [List.find?, hk2, hkk2] using ih
  · rw [List.find?_append]
    have : List.find? (fun e : JsVal × Int => e.1.strictEq k) [(key, value)] = none := by
      simp [List.find?, hne]
    rw [this]
    simp

/-! ## Lemmas on the send loop and on delivery -/

theorem get_of_isNullish_false {v : JsVal} (h : v.isNullish = false) (key : String) :
    v.get key = .ok (v.prop key) := by
  simp [JsVal.get, h]

theorem isNullish_of_type {message : JsVal} {t : JsVal}
    (h : message.get "type" = .ok t) : message.isNullish = false := by
  cases message <;> simp [JsVal.get, JsVal.isNullish] at h ⊢

theorem sendEach_effects (env : Env) (message : JsVal) (skip : Peer → Bool)
    (self : ValidatorP2P) (done ps : List Peer) :
    (sendEach env message skip self done ps).2.2.map Prod.fst =
      (ps.filter fun p => !skip p).map fun p => Effect.send p.ref message := by
  induction ps generalizing done with
  | nil => rfl
  | cons p rest ih =>
    by_cases hp : skip p = true
    · simp [sendEach, hp, ih]
    · simp [sendEach, hp, ih]

theorem sendEach_peers (env : Env) (message : JsVal) (skip : Peer → Bool)
    (self : ValidatorP2P) (done ps : List Peer) :
    (sendEach env message skip self done ps).1 =
      ps.map fun p => if skip p then p else (p.send env message).2 := by
  induction ps generalizing done with
  | nil => rfl
  | cons p rest ih =>
    by_cases hp : skip p = true
    · simp [sendEach, hp, ih]
    · simp [sendEach, hp, ih]

theorem sendEach_count (env : Env) (message : JsVal) (skip : Peer → Bool)
    (self : ValidatorP2P) (done ps : List Peer) :
    (sendEach env message skip self done ps).2.1 =
      ps.countP fun p => !skip p && (p.send env message).1 := by
  induction ps generalizing done with
  | nil => rfl
  | cons p rest ih =>
    by_cases hp : skip p = true
    · simp [sendEach, hp, ih, List.countP_cons]
    · by_cases hs : (p.send env message).1 = true
      · simp [sendEach, hp, hs, ih, List.countP_cons]
      · simp [sendEach, hp, hs, ih, List.countP_cons]

theorem sendEach_snapshots (env : Env) (message : JsVal) (skip : Peer → Bool)
    (self : ValidatorP2P) (done ps : List Peer) :
    ∀ x ∈ (sendEach env message skip self done ps).2.2,
      x.2.seenMessages = self.seenMessages ∧ x.2.topics = self.topics := by
  induction ps generalizing done with
  | nil => intro x hx; simp [sendEach] at hx
  | cons p rest ih =>
    intro x hx
    by_cases hp : skip p = true
    · simp only [sendEach, hp, if_true] at hx
      exact ih _ x hx
    · simp only [sendEach, hp] at hx
      rcases List.mem_cons.1 hx with h | h
      · subst h
        exact ⟨rfl, rfl⟩
      · exact ih _ x h

theorem deliver_snapshots (env : Env) (self : ValidatorP2P) (data : JsVal)
    (handlers : List Nat) :
    ∀ x ∈ (deliver env self data handlers).2,
      x.2 = self ∧ ∃ handler ∈ handlers, x.1 = Effect.invoke handler data := by
  induction handlers with
  | nil => intro x hx; simp [deliver] at hx
  | cons h rest ih =>
    intro x hx
    unfold deliver at hx
    cases hc : env.callback h data with
    | some e =>
      simp only [hc, List.mem_singleton] at hx
      subst hx
      exact ⟨rfl, h, List.mem_cons_self _ _, rfl⟩
    | none =>
      simp only [hc] at hx
      rcases List.mem_cons.1 hx with hx | hx
      · subst hx
        exact ⟨rfl, h, List.mem_cons_self _ _, rfl⟩
      · obtain ⟨h1, g, hg, h2⟩ := ih x hx
        exact ⟨h1, g, List.mem_cons_of_mem _ hg, h2⟩

theorem deliver_all_return (env : Env) (self : ValidatorP2P) (data : JsVal)
    (handlers : List Nat) (hret : ∀ handler ∈ handlers, env.callback handler data = none) :
    deliver env self data handlers =
      (.ok (), handlers.map fun handler => (Effect.invoke handler data, self)) := by
  induction handlers with
  | nil => rfl
  | cons h rest ih =>
    have h1 := hret h (List.mem_cons_self _ _)
    have h2 := ih fun g hg => hret g (List.mem_cons_of_mem _ hg)
    simp [deliver, h1, h2]

theorem deliver_throws (env : Env) (self : ValidatorP2P) (data : JsVal)
    (before after : List Nat) (handler : Nat) (e : JsError)
    (hret : ∀ g ∈ before, env.callback g data = none)
    (hthrow : env.callback handler data = some e) :
    deliver env self data (before ++ handler :: after) =
      (.error e, (before ++ [handler]).map fun g => (Effect.invoke g data, self)) := by
  induction before with
  | nil => simp [deliver, hthrow]
  | cons h rest ih =>
    have h1 := hret h (List.mem_cons_self _ _)
    have h2 := ih fun g hg => hret g (List.mem_cons_of_mem _ hg)
    simp [deliver, h1, h2]

/-- The run of `handleGossipMessage` on a message that passes the seen check
and the validation. -/
theorem handleGossipMessage_fresh (env : Env) (self : ValidatorP2P) (fromPeer : Nat)
    (message : JsVal) (now : Int) (hn : message.isNullish = false)
    (hunseen : mapHas self.seenMessages (message.prop "messageId") = false)
    (hvalid : validateGossipMessage message = .ok true) :
    handleGossipMessage env self fromPeer message now =
      (let marked : ValidatorP2P :=
        { self with
          seenMessages := mapSet self.seenMessages (message.prop "messageId") now }
      let delivered : Except JsError Unit × Trace :=
        match topicHandlers self.topics (message.prop "topic") with
        | some handlers => deliver env marked (message.prop "data") handlers
        | none => (.ok (), [])
      match delivered.1 with
      | .error e => { result := .error e, state := marked, trace := delivered.2 }
      | .ok _ =>
        { result := .ok (), state := (forwardGossipMessage env marked message fromPeer).state,
          trace := delivered.2 ++ (forwardGossipMessage env marked message fromPeer).trace }) := by
  simp only [handleGossipMessage, get_of_isNullish_false hn, hunseen, hvalid]
  rfl

/-- The run of `handleGossipMessage` on a message that is dropped. -/
theorem handleGossipMessage_dropped (env : Env) (self : ValidatorP2P) (fromPeer : Nat)
    (message : JsVal) (now : Int) (hn : message.isNullish = false)
    (hdrop : mapHas self.seenMessages (message.prop "messageId") = true ∨
      validateGossipMessage message = .ok false) :
    handleGossipMessage env self fromPeer message now =
      { result := .ok (), state := self, trace := [] } := by
  simp only [handleGossipMessage, get_of_isNullish_false hn]
  cases hs : mapHas self.seenMessages (message.prop "messageId")
  · rcases hdrop with h | h
    · rw [hs] at h; cases h
    · simp [h]
  · simp

theorem validateGossipMessage_ne_error {message : JsVal} (hn : message.isNullish = false) :
    ∃ b, validateGossipMessage message = .ok b := by
  simp only [validateGossipMessage, get_of_isNullish_false hn]
  split
  · exact ⟨_, rfl⟩
  · split
    · exact ⟨_, rfl⟩
    · split
      · rename_i h1 _ _
        have hd : (message.prop "data").isNullish = false := by
          cases hdd : message.prop "data" <;> simp [hdd, JsVal.truthy, JsVal.isNullish] at h1 ⊢
        simp only [validateBlock, get_of_isNullish_false hd]
        split
        · exact ⟨_, rfl⟩
        · split <;> exact ⟨_, rfl⟩
      · exact ⟨_, rfl⟩

theorem handleGossipMessage_seen_after (env : Env) (self : ValidatorP2P) (fromPeer : Nat)
    (message : JsVal) (now : Int) (hn : message.isNullish = false)
    (hvalid : validateGossipMessage message = .ok true) :
    mapHas (handleGossipMessage env self fromPeer message now).state.seenMessages
      (message.prop "messageId") = true := by
  cases hs : mapHas self.seenMessages (message.prop "messageId")
  · rw [handleGossipMessage_fresh env self fromPeer message now hn hs hvalid]
    simp only
    split
    · exact mapHas_mapSet_self _ _ _
    · exact mapHas_mapSet_self _ _ _
  · rw [handleGossipMessage_dropped env self fromPeer message now hn (Or.inl hs)]
    exact hs

/-! ## The seen check -/

/-- C1: a GOSSIP message whose messageId is already a key of `seenMessages` is
a no-op of `handleGossipMessage`, from any peer: it returns with the state
(`seenMessages`, `peers`, `topics`) unchanged and with no subscriber invoked and
no peer sent anything. In particular, when the same message arrives a second
time, from any peer and with nothing in between, the second arrival is such a
no-op, so only the first arrival delivers and forwards. -/
theorem handleGossipMessage_duplicate_noop (env : Env) (self : ValidatorP2P)
    (message : JsVal) (hg : message.get "type" = .ok (.str "GOSSIP")) :
    (∀ (fromPeer : Nat) (now : Int),
      mapHas self.seenMessages (message.prop "messageId") = true →
      handleGossipMessage env self fromPeer message now =
        { result := .ok (), state := self, trace := [] }) ∧
    (∀ (first second : Nat) (now later : Int),
      handleGossipMessage env (handleGossipMessage env self first message now).state
          second message later =
        { result := .ok (),
          state := (handleGossipMessage env self first message now).state,
          trace := [] }) := by
  have hn := isNullish_of_type hg
  refine ⟨fun fromPeer now hs =>
    handleGossipMessage_dropped env self fromPeer message now hn (Or.inl hs), ?_⟩
  intro first second now later
  obtain ⟨b, hb⟩ := validateGossipMessage_ne_error hn
  cases b
  · exact handleGossipMessage_dropped env _ second message later hn (Or.inr hb)
  · exact handleGossipMessage_dropped env _ second message later hn
      (Or.inl (handleGossipMessage_seen_after env self first message now hn hb))

/-- Witness of C1 on the sample node: the first arrival from peer 1 invokes
and forwards, the second arrival from peer 2 does nothing. -/
theorem handleGossipMessage_duplicate_noop_witness :
    sampleMessage.get "type" = .ok (.str "GOSSIP") ∧
    (handleGossipMessage sampleEnv sampleNode 1 sampleMessage 1000).trace.length = 4 ∧
    handleGossipMessage sampleEnv
        (handleGossipMessage sampleEnv sampleNode 1 sampleMessage 1000).state
        2 sampleMessage 2000 =
      { result := .ok (),
        state := (handleGossipMessage sampleEnv sampleNode 1 sampleMessage 1000).state,
        trace := [] } :=
  ⟨by decide, by decide,
    (handleGossipMessage_duplicate_noop sampleEnv sampleNode sampleMessage (by decide)).2
      1 2 1000 2000⟩

/-- C4: a not-yet-seen GOSSIP message that `validateGossipMessage` rejects is
dropped by `handleGossipMessage`: it returns with the state (`seenMessages`,
`peers`, `topics`) unchanged, no subscriber invoked and no peer sent anything,
and the messageId is still not a key of `seenMessages`. -/
theorem handleGossipMessage_invalid_dropped (env : Env) (self : ValidatorP2P)
    (fromPeer : Nat) (message : JsVal) (now : Int)
    (hg : message.get "type" = .ok (.str "GOSSIP"))
    (hunseen : mapHas self.seenMessages (message.prop "messageId") = false)
    (hinvalid : validateGossipMessage message = .ok false) :
    handleGossipMessage env self fromPeer message now =
      { result := .ok (), state := self, trace := [] } ∧
    mapHas (handleGossipMessage env self fromPeer message now).state.seenMessages
      (message.prop "messageId") = false := by
  have h := handleGossipMessage_dropped env self fromPeer message now
    (isNullish_of_type hg) (Or.inr hinvalid)
  refine ⟨h, ?_⟩
  rw [h]
  exact hunseen

/-- Witness of C4: the sample message with a three-character signature. -/
theorem handleGossipMessage_invalid_dropped_witness :
    sampleBadMessage.get "type" = .ok (.str "GOSSIP") ∧
    mapHas sampleNode.seenMessages (sampleBadMessage.prop "messageId") = false ∧
    validateGossipMessage sampleBadMessage = .ok false ∧
    handleGossipMessage sampleEnv sampleNode 1 sampleBadMessage 1000 =
      { result := .ok (), state := sampleNode, trace := [] } :=
  ⟨by decide, by decide, by decide,
    (handleGossipMessage_invalid_dropped sampleEnv sampleNode 1 sampleBadMessage 1000
      (by decide) (by decide) (by decide)).1⟩

/-! ## Forwarding -/

theorem sends_append (a b : Trace) : sends (a ++ b) = sends a ++ sends b := by
  simp [sends, List.filterMap_append]

theorem invocations_append (a b : Trace) :
    invocations (a ++ b) = invocations a ++ invocations b := by
  simp [invocations, List.filterMap_append]

theorem sends_deliver (env : Env) (self : ValidatorP2P) (data : JsVal) (handlers : List Nat) :
    sends (deliver env self data handlers).2 = [] := by
  unfold sends
  rw [List.filterMap_eq_nil_iff]
  intro x hx
  obtain ⟨_, g, _, hg⟩ := deliver_snapshots env self data handlers x hx
  rw [hg]

theorem sends_sendEach (env : Env) (message : JsVal) (skip : Peer → Bool)
    (self : ValidatorP2P) (done ps : List Peer) :
    sends (sendEach env message skip self done ps).2.2 =
      (ps.filter fun p => !skip p).map fun p => (p.ref, message) := by
  induction ps generalizing done with
  | nil => rfl
  | cons p rest ih =>
    by_cases hp : skip p = true
    · have := ih (done ++ [p])
      simp only [sends] at this
      simp [sendEach, hp, sends, this]
    · have := ih (done ++ [(p.send env message).2])
      simp only [sends] at this
      simp [sendEach, hp, sends, this]

theorem invocations_sendEach (env : Env) (message : JsVal) (skip : Peer → Bool)
    (self : ValidatorP2P) (done ps : List Peer) :
    invocations (sendEach env message skip self done ps).2.2 = [] := by
  induction ps generalizing done with
  | nil => rfl
  | cons p rest ih =>
    by_cases hp : skip p = true
    · have := ih (done ++ [p])
      simp only [invocations] at this
      simp [sendEach, hp, invocations, this]
    · have := ih (done ++ [(p.send env message).2])
      simp only [invocations] at this
      simp [sendEach, hp, invocations, this]

theorem forward_skip_eq (fromPeer : Nat) :
    (fun p : Peer => !(p.ref == fromPeer || !p.isAlive)) =
      fun p : Peer => p.isAlive && p.ref != fromPeer := by
  funext p
  cases p.isAlive <;> cases h : (p.ref == fromPeer) <;> simp [bne, h]

theorem sends_forwardGossipMessage (env : Env) (self : ValidatorP2P) (message : JsVal)
    (fromPeer : Nat) :
    sends (forwardGossipMessage env self message fromPeer).trace =
      (self.peers.filter fun p => p.isAlive && p.ref != fromPeer).map
        fun p => (p.ref, message) := by
  simp only [forwardGossipMessage, sends_sendEach, forward_skip_eq]

/-- C3, as the code has it: `forwardGossipMessage(message, p)` calls `send` with
the message itself on exactly the peers of the peer list that are alive and are
not `p`, each once and in peer-list order. For a valid, not-yet-seen GOSSIP
message received from `p`, these are the sends of `handleGossipMessage` when
the delivery to the subscribers returns; when a subscriber throws,
`handleGossipMessage` throws and sends nothing. In either case it never sends
to `p` and never to a peer marked not-alive. -/
theorem forwardGossipMessage_targets (env : Env) (self : ValidatorP2P) (fromPeer : Nat)
    (message : JsVal) (now : Int)
    (hg : message.get "type" = .ok (.str "GOSSIP"))
    (hunseen : mapHas self.seenMessages (message.prop "messageId") = false)
    (hvalid : validateGossipMessage message = .ok true) :
    (∀ node : ValidatorP2P,
      sends (forwardGossipMessage env node message fromPeer).trace =
        (node.peers.filter fun p => p.isAlive && p.ref != fromPeer).map
          fun p => (p.ref, message)) ∧
    ((handleGossipMessage env self fromPeer message now).result = .ok () →
      sends (handleGossipMessage env self fromPeer message now).trace =
        (self.peers.filter fun p => p.isAlive && p.ref != fromPeer).map
          fun p => (p.ref, message)) ∧
    (∀ x ∈ sends (handleGossipMessage env self fromPeer message now).trace,
      x.2 = message ∧ x.1 ≠ fromPeer ∧
        ∃ p ∈ self.peers, p.ref = x.1 ∧ p.isAlive = true) ∧
    (∀ e, (handleGossipMessage env self fromPeer message now).result = .error e →
      sends (handleGossipMessage env self fromPeer message now).trace = []) := by
  have hn := isNullish_of_type hg
  have hrun := handleGossipMessage_fresh env self fromPeer message now hn hunseen hvalid
  have hdel : ∀ (marked : ValidatorP2P),
      sends (match topicHandlers self.topics (message.prop "topic") with
        | some handlers => deliver env marked (message.prop "data") handlers
        | none => ((.ok () : Except JsError Unit), ([] : Trace))).2 = [] := by
    intro marked
    split
    · exact sends_deliver _ _ _ _
    · rfl
  have hcases : sends (handleGossipMessage env self fromPeer message now).trace = [] ∨
      ((handleGossipMessage env self fromPeer message now).result = .ok () ∧
        sends (handleGossipMessage env self fromPeer message now).trace =
          (self.peers.filter fun p => p.isAlive && p.ref != fromPeer).map
            fun p => (p.ref, message)) := by
    rw [hrun]
    simp only
    split
    · left
      exact hdel _
    · right
      refine ⟨rfl, ?_⟩
      rw [sends_append, hdel, sends_forwardGossipMessage]
      rfl
  refine ⟨fun node => sends_forwardGossipMessage env node message fromPeer, ?_, ?_, ?_⟩
  · intro hok
    rcases hcases with h | h
    · rw [hrun] at hok h ⊢
      simp only at hok h ⊢
      split at hok
      · cases hok
      · rename_i hd
        simp only [hd] at h ⊢
        rw [sends_append, hdel, sends_forwardGossipMessage]
        rfl
    · exact h.2
  · intro x hx
    rcases hcases with h | h
    · rw [h] at hx
      cases hx
    · rw [h.2, List.mem_map] at hx
      obtain ⟨p, hp, rfl⟩ := hx
      rw [List.mem_filter] at hp
      have hp2 := hp.2
      simp only [Bool.and_eq_true, bne_iff_ne, ne_eq] at hp2
      exact ⟨rfl, hp2.2, p, hp.1, rfl, hp2.1⟩
  · intro e he
    rcases hcases with h | h
    · exact h
    · rw [h.1] at he
      cases he

/-- Counterexample to C3 as stated: the sample node whose second subscriber of
topic `t` throws receives a valid, not-yet-seen GOSSIP message from peer 1.
Peers 2 and 3 are alive and are not the sender, but the message is sent to
neither: the throw of the subscriber ends `handleGossipMessage` before it
forwards. -/
theorem handleGossipMessage_throw_forwards_to_no_peer :
    sampleMessage.get "type" = .ok (.str "GOSSIP") ∧
    mapHas sampleNodeFailing.seenMessages (sampleMessage.prop "messageId") = false ∧
    validateGossipMessage sampleMessage = .ok true ∧
    (sampleNodeFailing.peers.filter fun p => p.isAlive && p.ref != 1).map Peer.ref = [2, 3] ∧
    sends (forwardGossipMessage sampleEnv sampleNodeFailing sampleMessage 1).trace =
      [(2, sampleMessage), (3, sampleMessage)] ∧
    sends (handleGossipMessage sampleEnv sampleNodeFailing 1 sampleMessage 1000).trace = [] := by
  decide

/-- Witness of C3 on the sample node: a message from peer 1 is sent to the
alive peers 2 and 3 and not to peer 1 or to the not-alive peer 4. -/
theorem forwardGossipMessage_targets_witness :
    sampleMessage.get "type" = .ok (.str "GOSSIP") ∧
    mapHas sampleNode.seenMessages (sampleMessage.prop "messageId") = false ∧
    validateGossipMessage sampleMessage = .ok true ∧
    (handleGossipMessage sampleEnv sampleNode 1 sampleMessage 1000).result = .ok () ∧
    sends (handleGossipMessage sampleEnv sampleNode 1 sampleMessage 1000).trace =
      [(2, sampleMessage), (3, sampleMessage)] :=
  ⟨by decide, by decide, by decide, by decide,
    ((forwardGossipMessage_targets sampleEnv sampleNode 1 sampleMessage 1000
      (by decide) (by decide) (by decide)).2.1 (by decide)).trans (by decide)⟩

/-! ## Validation -/

/-- What `validateGossipMessage` accepts: it returns `true` exactly when the
topic, the data and the signature of the message are all truthy (present and
not `false`, `0`, `""` or `null`), `verifySignature(data, signature)` is
truthy, and, if the topic is `"/eth2/beacon_block"`, `validateBlock(data)`
returns `true`; for every other topic there is no further check. -/
theorem validateGossipMessage_accepts_iff (message : JsVal) :
    validateGossipMessage message = .ok true ↔
      message.isNullish = false ∧
      (message.prop "topic").truthy = true ∧
      (message.prop "data").truthy = true ∧
      (message.prop "signature").truthy = true ∧
      (verifySignature (message.prop "data") (message.prop "signature")).truthy = true ∧
      ((message.prop "topic").strictEq (.str "/eth2/beacon_block") = true →
        validateBlock (message.prop "data") = .ok true) := by
  cases hn : message.isNullish
  · simp only [validateGossipMessage, get_of_isNullish_false hn]
    cases ht : (message.prop "topic").truthy <;>
      cases hd : (message.prop "data").truthy <;>
      cases hs : (message.prop "signature").truthy <;>
      cases hv : (verifySignature (message.prop "data") (message.prop "signature")).truthy <;>
      cases hb : (message.prop "topic").strictEq (.str "/eth2/beacon_block") <;>
      simp
  · simp [validateGossipMessage, JsVal.get, hn]

/-- C5, evaluated where the code breaks it: a message that has its topic, its
data and its signature, whose signature verifies and whose topic is not
`"/eth2/beacon_block"`, is rejected by the check "Has required fields",
because `!message.data` holds for its data, the number 0. -/
theorem validateGossipMessage_rejects_present_zero_payload :
    sampleZeroPayloadMessage.prop "topic" = .str "t" ∧
    sampleZeroPayloadMessage.prop "data" = .num 0 ∧
    sampleZeroPayloadMessage.prop "signature" = .str sampleSignature ∧
    (verifySignature (sampleZeroPayloadMessage.prop "data")
      (sampleZeroPayloadMessage.prop "signature")).truthy = true ∧
    (sampleZeroPayloadMessage.prop "topic").strictEq (.str "/eth2/beacon_block") = false ∧
    validateGossipMessage sampleZeroPayloadMessage = .ok false := by
  decide

/-! ## Recording and delivery -/

/-- C7: for a valid, not-yet-seen GOSSIP message handled at time `now`,
`handleGossipMessage` appends `messageId -> now` to `seenMessages` and leaves
every other entry as it was; that map is the one in the state at every
subscriber call and at every send, and in the final state. -/
theorem handleGossipMessage_marks_seen_first (env : Env) (self : ValidatorP2P)
    (fromPeer : Nat) (message : JsVal) (now : Int)
    (hg : message.get "type" = .ok (.str "GOSSIP"))
    (hunseen : mapHas self.seenMessages (message.prop "messageId") = false)
    (hvalid : validateGossipMessage message = .ok true) :
    (∀ x ∈ (handleGossipMessage env self fromPeer message now).trace,
      x.2.seenMessages = self.seenMessages ++ [(message.prop "messageId", now)]) ∧
    (handleGossipMessage env self fromPeer message now).state.seenMessages =
      self.seenMessages ++ [(message.prop "messageId", now)] ∧
    mapGet (self.seenMessages ++ [(message.prop "messageId", now)])
      (message.prop "messageId") = some now ∧
    (∀ key, (message.prop "messageId").strictEq key = false →
      mapGet (self.seenMessages ++ [(message.prop "messageId", now)]) key =
        mapGet self.seenMessages key) := by
  have hn := isNullish_of_type hg
  have hrun := handleGossipMessage_fresh env self fromPeer message now hn hunseen hvalid
  have hset : mapSet self.seenMessages (message.prop "messageId") now =
      self.seenMessages ++ [(message.prop "messageId", now)] := by
    simp [mapSet, hunseen]
  have hdel : ∀ (marked : ValidatorP2P),
      ∀ x ∈ (match topicHandlers self.topics (message.prop "topic") with
        | some handlers => deliver env marked (message.prop "data") handlers
        | none => ((.ok () : Except JsError Unit), ([] : Trace))).2, x.2 = marked := by
    intro marked x hx
    split at hx
    · exact (deliver_snapshots _ _ _ _ x hx).1
    · cases hx
  refine ⟨?_, ?_, ?_, ?_⟩
  · intro x hx
    rw [hrun] at hx
    simp only at hx
    split at hx
    · rw [hdel _ x hx, hset]
    · rcases List.mem_append.1 hx with h | h
      · rw [hdel _ x h, hset]
      · rw [(sendEach_snapshots _ _ _ _ _ _ x h).1, hset]
  · rw [hrun]
    simp only
    split
    · exact hset
    · exact hset
  · rw [← hset]
    exact mapGet_mapSet_self _ _ _
  · intro key hkey
    rw [← hset]
    exact mapGet_mapSet_other _ _ _ _ hkey

/-- Witness of C7 on the sample node: the entry `"id-1" -> 1000` is in the
state at each of the four effects. -/
theorem handleGossipMessage_marks_seen_first_witness :
    sampleMessage.get "type" = .ok (.str "GOSSIP") ∧
    mapHas sampleNode.seenMessages (sampleMessage.prop "messageId") = false ∧
    validateGossipMessage sampleMessage = .ok true ∧
    (handleGossipMessage sampleEnv sampleNode 1 sampleMessage 1000).trace.length = 4 ∧
    (∀ x ∈ (handleGossipMessage sampleEnv sampleNode 1 sampleMessage 1000).trace,
      x.2.seenMessages = [(.str "id-1", 1000)]) :=
  ⟨by decide, by decide, by decide, by decide,
    (handleGossipMessage_marks_seen_first sampleEnv sampleNode 1 sampleMessage 1000
      (by decide) (by decide) (by decide)).1⟩

/-- C6, as the code has it: for a valid, not-yet-seen GOSSIP message on a topic
with several subscribers, if a subscriber callback throws, the subscribers
before it in subscription order have been called with the payload, no
subscriber after it is called, no peer is sent the message, the peer list is
unchanged and the exception leaves `handleGossipMessage`; the messageId stays
recorded in `seenMessages`. -/
theorem handleGossipMessage_subscriber_throws (env : Env) (self : ValidatorP2P)
    (fromPeer : Nat) (message : JsVal) (now : Int) (before after : List Nat)
    (handler : Nat) (e : JsError)
    (hg : message.get "type" = .ok (.str "GOSSIP"))
    (hunseen : mapHas self.seenMessages (message.prop "messageId") = false)
    (hvalid : validateGossipMessage message = .ok true)
    (hsubs : topicHandlers self.topics (message.prop "topic") =
      some (before ++ handler :: after))
    (hret : ∀ g ∈ before, env.callback g (message.prop "data") = none)
    (hthrow : env.callback handler (message.prop "data") = some e) :
    (handleGossipMessage env self fromPeer message now).result = .error e ∧
    invocations (handleGossipMessage env self fromPeer message now).trace =
      (before ++ [handler]).map (fun g => (g, message.prop "data")) ∧
    sends (handleGossipMessage env self fromPeer message now).trace = [] ∧
    (handleGossipMessage env self fromPeer message now).state =
      { self with
        seenMessages := self.seenMessages ++ [(message.prop "messageId", now)] } := by
  have hn := isNullish_of_type hg
  have hrun := handleGossipMessage_fresh env self fromPeer message now hn hunseen hvalid
  have hset : mapSet self.seenMessages (message.prop "messageId") now =
      self.seenMessages ++ [(message.prop "messageId", now)] := by
    simp [mapSet, hunseen]
  rw [hrun]
  simp only [hsubs, deliver_throws env _ _ before after handler e hret hthrow, hset]
  refine ⟨trivial, ?_, ?_, trivial⟩
  · simp only [invocations, List.filterMap_map, Function.comp_def, List.map_append,
      List.filterMap_append, List.map_cons, List.map_nil, List.filterMap_cons,
      List.filterMap_nil]
    congr 1
    exact List.filterMap_eq_map (fun g => (g, message.prop "data")) ▸ rfl
  · simp [sends, List.filterMap_map, Function.comp_def]

/-- Witness of C6 as the code has it, on the sample node whose second
subscriber throws. -/
theorem handleGossipMessage_subscriber_throws_witness :
    sampleMessage.get "type" = .ok (.str "GOSSIP") ∧
    topicHandlers sampleNodeFailing.topics (sampleMessage.prop "topic") = some [5, 7, 6] ∧
    sampleEnv.callback 7 (sampleMessage.prop "data") = some (.error "subscriber failed") ∧
    invocations (handleGossipMessage sampleEnv sampleNodeFailing 1 sampleMessage 1000).trace =
      [(5, .str "x"), (7, .str "x")] :=
  ⟨by decide, by decide, by decide,
    ((handleGossipMessage_subscriber_throws sampleEnv sampleNodeFailing 1 sampleMessage 1000
      [5] [6] 7 (.error "subscriber failed") (by decide) (by decide) (by decide) (by decide)
      (by decide) (by decide)).2.1).trans (by decide)⟩

/-- Counterexample to C6 as stated: on the sample node whose second subscriber
throws, a valid, not-yet-seen GOSSIP message from peer 1 is never given to the
third subscriber (identity 6) and is not sent to the alive peer 2. -/
theorem handleGossipMessage_throw_blocks_delivery_and_forward :
    sampleMessage.get "type" = .ok (.str "GOSSIP") ∧
    mapHas sampleNodeFailing.seenMessages (sampleMessage.prop "messageId") = false ∧
    validateGossipMessage sampleMessage = .ok true ∧
    topicHandlers sampleNodeFailing.topics (sampleMessage.prop "topic") = some [5, 7, 6] ∧
    sampleEnv.callback 7 (sampleMessage.prop "data") = some (.error "subscriber failed") ∧
    sampleEnv.callback 6 (sampleMessage.prop "data") = none ∧
    samplePeer 2 "10.0.0.2:30303" ∈ sampleNodeFailing.peers ∧
    (samplePeer 2 "10.0.0.2:30303").isAlive = true ∧
    (handleGossipMessage sampleEnv sampleNodeFailing 1 sampleMessage 1000).result =
      .error (.error "subscriber failed") ∧
    (6, JsVal.str "x") ∉
      invocations (handleGossipMessage sampleEnv sampleNodeFailing 1 sampleMessage 1000).trace ∧
    sends (handleGossipMessage sampleEnv sampleNodeFailing 1 sampleMessage 1000).trace = [] := by
  decide

/-! ## Broadcast -/

/-- What `broadcast` returns: the envelope, and the count of the alive peers
whose `send` returned `true`. -/
theorem broadcast_result (env : Env) (self : ValidatorP2P) (topic data : JsVal)
    (messageId : String) (timestamp now : Int) (ref : Nat) :
    (broadcast env self topic data messageId timestamp now ref).result =
      .ok { message := envelope ref topic data messageId (sign env self data) timestamp,
            sentCount := self.peers.countP fun p =>
              p.isAlive && (p.send env
                (envelope ref topic data messageId (sign env self data) timestamp)).1 } := by
  simp [broadcast, sendEach_count]

theorem broadcast_seenMessages (env : Env) (self : ValidatorP2P) (topic data : JsVal)
    (messageId : String) (timestamp now : Int) (ref : Nat) :
    (broadcast env self topic data messageId timestamp now ref).state.seenMessages =
      mapSet self.seenMessages (.str messageId) now := rfl

theorem envelope_messageId (ref : Nat) (topic data : JsVal) (messageId signature : String)
    (timestamp : Int) :
    (envelope ref topic data messageId signature timestamp).prop "messageId" =
      .str messageId := by
  simp [envelope, JsVal.prop, List.lookup]

/-- C8: `broadcast(topic, payload)` returns an envelope with type `"GOSSIP"`,
the given topic, the given payload as `data`, the generated messageId and
`signature = sign(payload)`; on return `seenMessages` has that messageId, set
to the current time, and its other entries are unchanged; and `send` is called
with that envelope on exactly the peers that are alive, each once and in
peer-list order, and on no peer marked not-alive. -/
theorem broadcast_envelope_and_targets (env : Env) (self : ValidatorP2P)
    (topic data : JsVal) (messageId : String) (timestamp now : Int) (ref : Nat) :
    ∃ b : Broadcast,
      (broadcast env self topic data messageId timestamp now ref).result = .ok b ∧
      b.message.prop "type" = .str "GOSSIP" ∧
      b.message.prop "topic" = topic ∧
      b.message.prop "data" = data ∧
      b.message.prop "messageId" = .str messageId ∧
      b.message.prop "signature" = .str (sign env self data) ∧
      mapHas (broadcast env self topic data messageId timestamp now ref).state.seenMessages
        (.str messageId) = true ∧
      mapGet (broadcast env self topic data messageId timestamp now ref).state.seenMessages
        (.str messageId) = some now ∧
      (∀ key, (JsVal.str messageId).strictEq key = false →
        mapGet (broadcast env self topic data messageId timestamp now ref).state.seenMessages
          key = mapGet self.seenMessages key) ∧
      sends (broadcast env self topic data messageId timestamp now ref).trace =
        (self.peers.filter fun p => p.isAlive).map fun p => (p.ref, b.message) := by
  refine ⟨_, broadcast_result env self topic data messageId timestamp now ref,
    rfl, ?_, ?_, ?_, ?_, ?_, ?_, ?_, ?_⟩
  · simp [envelope, JsVal.prop, List.lookup]
  · simp [envelope, JsVal.prop, List.lookup]
  · simp [envelope, JsVal.prop, List.lookup]
  · simp [envelope, JsVal.prop, List.lookup]
  · rw [broadcast_seenMessages]
    exact mapHas_mapSet_self _ _ _
  · rw [broadcast_seenMessages]
    exact mapGet_mapSet_self _ _ _
  · intro key hkey
    rw [broadcast_seenMessages]
    exact mapGet_mapSet_other _ _ _ _ hkey
  · simp [broadcast, sends_sendEach]

/-- C9: the envelope returned by `broadcast` is a no-op of `handleGossipMessage`
on the broadcasting node, for any peer it comes back from: in the state that
`broadcast` leaves, and in any later state whose `seenMessages` still has the
messageId, no subscriber is invoked, nothing is sent and the state is
unchanged. -/
theorem handleGossipMessage_own_broadcast_noop (env : Env) (self : ValidatorP2P)
    (topic data : JsVal) (messageId : String) (timestamp now : Int) (ref : Nat)
    (fromPeer : Nat) (later : Int) :
    (broadcast env self topic data messageId timestamp now ref).result.map Broadcast.message =
      .ok (envelope ref topic data messageId (sign env self data) timestamp) ∧
    handleGossipMessage env (broadcast env self topic data messageId timestamp now ref).state
        fromPeer (envelope ref topic data messageId (sign env self data) timestamp) later =
      { result := .ok (),
        state := (broadcast env self topic data messageId timestamp now ref).state,
        trace := [] } ∧
    ∀ node : ValidatorP2P, mapHas node.seenMessages (.str messageId) = true →
      handleGossipMessage env node fromPeer
          (envelope ref topic data messageId (sign env self data) timestamp) later =
        { result := .ok (), state := node, trace := [] } := by
  refine ⟨?_, ?_, ?_⟩
  · rw [broadcast_result]
    rfl
  · refine handleGossipMessage_dropped env _ fromPeer _ later rfl (Or.inl ?_)
    rw [broadcast_seenMessages, envelope_messageId]
    exact mapHas_mapSet_self _ _ _
  · intro node hnode
    refine handleGossipMessage_dropped env node fromPeer _ later rfl (Or.inl ?_)
    rw [envelope_messageId]
    exact hnode

/-- Witness of C9 on the sample node: the node broadcasts on topic `t`, to
which it has two subscribers, and later receives its own envelope from peer 2
in a state that still has the messageId. -/
theorem handleGossipMessage_own_broadcast_noop_witness :
    mapHas (broadcast sampleEnv sampleNode (.str "t") (.str "x") "id-9" 1000 1000 200).state.seenMessages
      (.str "id-9") = true ∧
    handleGossipMessage sampleEnv
        (broadcast sampleEnv sampleNode (.str "t") (.str "x") "id-9" 1000 1000 200).state 2
        (envelope 200 (.str "t") (.str "x") "id-9" (sign sampleEnv sampleNode (.str "x")) 1000)
        2000 =
      { result := .ok (),
        state := (broadcast sampleEnv sampleNode (.str "t") (.str "x") "id-9" 1000 1000 200).state,
        trace := [] } :=
  ⟨by decide,
    (handleGossipMessage_own_broadcast_noop sampleEnv sampleNode (.str "t") (.str "x") "id-9"
      1000 1000 200 2 2000).2.2 _ (by decide)⟩

/-- C10: `broadcast` returns the envelope, without throwing, whatever the
outcome of the sends; the number it counts as sent is the number of alive
peers whose `send` returned `true`; a peer whose `send` returned `false` is
marked not-alive, and the peer list afterwards is the peer list before with
each alive peer replaced by what `send` left of it. -/
theorem broadcast_counts_successful_sends (env : Env) (self : ValidatorP2P)
    (topic data : JsVal) (messageId : String) (timestamp now : Int) (ref : Nat) :
    (broadcast env self topic data messageId timestamp now ref).result =
      .ok { message := envelope ref topic data messageId (sign env self data) timestamp,
            sentCount := self.peers.countP fun p =>
              p.isAlive && (p.send env
                (envelope ref topic data messageId (sign env self data) timestamp)).1 } ∧
    (broadcast env self topic data messageId timestamp now ref).state.peers =
      self.peers.map (fun p =>
        if p.isAlive then
          (p.send env (envelope ref topic data messageId (sign env self data) timestamp)).2
        else p) ∧
    ∀ (p : Peer) (message : JsVal),
      (p.send env message).1 = false → (p.send env message).2.isAlive = false := by
  refine ⟨broadcast_result env self topic data messageId timestamp now ref, ?_, ?_⟩
  · simp only [broadcast, sendEach_peers]
    apply List.map_congr_left
    intro p _
    cases p.isAlive <;> simp
  · intro p message hp
    unfold Peer.send at hp ⊢
    split
    · rfl
    · rename_i hw
      simp only [hw] at hp
      split
      · rfl
      · rename_i ht
        simp [ht] at hp

/-- Witness of C10 on the sample node: of the three alive peers, the send to
peer 3 fails (its socket is not connected), so 2 sends are counted and peer 3
is marked not-alive. -/
theorem broadcast_counts_successful_sends_witness :
    (broadcast sampleEnv sampleNode (.str "t") (.str "x") "id-9" 1000 1000 200).result.map
      Broadcast.sentCount = .ok 2 ∧
    ((broadcast sampleEnv sampleNode (.str "t") (.str "x") "id-9" 1000 1000 200).state.peers.map
      fun p => (p.ref, p.isAlive)) = [(1, true), (2, true), (3, false), (4, false)] :=
  ⟨(congrArg (Except.map Broadcast.sentCount)
      (broadcast_counts_successful_sends sampleEnv sampleNode (.str "t") (.str "x") "id-9"
        1000 1000 200).1).trans (by decide),
    by decide⟩

/-! ## At most one delivery in the window -/

/-- Every entry of the map for the id carries a timestamp of at least `t0`. -/
theorem stamped_mapSet {m : SeenMap} {id : JsVal} {t0 : Int}
    (h : ∀ e ∈ m, e.1.strictEq id = true → t0 ≤ e.2) (key : JsVal) (value : Int)
    (hv : t0 ≤ value) :
    ∀ e ∈ mapSet m key value, e.1.strictEq id = true → t0 ≤ e.2 := by
  intro e he hid
  rcases mem_mapSet he with h1 | h1
  · exact h e h1 hid
  · rw [h1.2]
    exact hv

theorem handleGossipMessage_cases (env : Env) (self : ValidatorP2P) (fromPeer : Nat)
    (message : JsVal) (now : Int) :
    ((handleGossipMessage env self fromPeer message now).state = self ∧
      (handleGossipMessage env self fromPeer message now).trace = []) ∨
    (mapHas self.seenMessages (message.prop "messageId") = false ∧
      (handleGossipMessage env self fromPeer message now).state.seenMessages =
        mapSet self.seenMessages (message.prop "messageId") now) := by
  cases hn : message.isNullish
  · cases hs : mapHas self.seenMessages (message.prop "messageId")
    · obtain ⟨b, hb⟩ := validateGossipMessage_ne_error hn
      cases b
      · left
        rw [handleGossipMessage_dropped env self fromPeer message now hn (Or.inr hb)]
        exact ⟨rfl, rfl⟩
      · right
        refine ⟨rfl, ?_⟩
        rw [handleGossipMessage_fresh env self fromPeer message now hn hs hb]
        simp only
        split <;> rfl
    · left
      rw [handleGossipMessage_dropped env self fromPeer message now hn (Or.inl hs)]
      exact ⟨rfl, rfl⟩
  · left
    simp [handleGossipMessage, JsVal.get, hn]

/-- What one operation does to `seenMessages`. -/
theorem step_seenMessages (env : Env) (self : ValidatorP2P) (now : Int) (op : Op) :
    (step env self now op).1.seenMessages = self.seenMessages ∨
    (∃ key, (step env self now op).1.seenMessages = mapSet self.seenMessages key now) ∨
    (op = .cleanup ∧ (step env self now op).1.seenMessages =
      self.seenMessages.filter fun e => !decide (now - e.2 > 300000)) := by
  cases op with
  | handle fromPeer message =>
    rcases handleGossipMessage_cases env self fromPeer message now with h | h
    · left
      simp [step, h.1]
    · right
      left
      exact ⟨_, h.2⟩
  | broadcast topic data messageId timestamp ref =>
    right
    left
    exact ⟨_, rfl⟩
  | cleanup =>
    right
    right
    exact ⟨rfl, rfl⟩

/-- A line that acts on the id comes from a state without the id and leaves a
state with it, stamped with the time of the line. -/
theorem step_actsOn (env : Env) (self : ValidatorP2P) (now : Int) (op : Op) (id : JsVal)
    (h : actsOn id (logEntry env self now op) = true) :
    mapHas self.seenMessages id = false ∧
    mapHas (step env self now op).1.seenMessages id = true := by
  cases op with
  | handle fromPeer message =>
    simp only [actsOn, logEntry, Bool.and_eq_true] at h
    rcases handleGossipMessage_cases env self fromPeer message now with hc | hc
    · simp [step, hc.2] at h
    · constructor
      · rw [← mapHas_congr h.1]
        exact hc.1
      · rw [← mapHas_congr h.1]
        show mapHas (handleGossipMessage env self fromPeer message now).state.seenMessages _ = _
        rw [hc.2]
        exact mapHas_mapSet_self _ _ _
  | broadcast topic data messageId timestamp ref => simp [actsOn, logEntry] at h
  | cleanup => simp [actsOn, logEntry] at h

theorem step_keeps_stamped (env : Env) (self : ValidatorP2P) (now : Int) (op : Op)
    (id : JsVal) (t0 : Int) (hnow : t0 ≤ now)
    (h : ∀ e ∈ self.seenMessages, e.1.strictEq id = true → t0 ≤ e.2) :
    ∀ e ∈ (step env self now op).1.seenMessages, e.1.strictEq id = true → t0 ≤ e.2 := by
  rcases step_seenMessages env self now op with hs | ⟨key, hs⟩ | ⟨_, hs⟩
  · rw [hs]
    exact h
  · rw [hs]
    exact stamped_mapSet h key now hnow
  · rw [hs]
    intro e he
    exact h e (List.mem_filter.1 he).1

/-- An id that is in the map stays there, unless a cleanup later than the
TTL after its timestamps removes it. -/
theorem step_keeps_seen (env : Env) (self : ValidatorP2P) (now : Int) (op : Op)
    (id : JsVal) (t0 : Int)
    (h : ∀ e ∈ self.seenMessages, e.1.strictEq id = true → t0 ≤ e.2)
    (hseen : mapHas self.seenMessages id = true) :
    mapHas (step env self now op).1.seenMessages id = true ∨ t0 + 300000 < now := by
  rcases step_seenMessages env self now op with hs | ⟨key, hs⟩ | ⟨_, hs⟩
  · left
    rw [hs]
    exact hseen
  · left
    rw [hs]
    exact mapHas_mapSet_of_mapHas hseen key now
  · obtain ⟨e, he, hid⟩ := (mapHas_iff _ _).1 hseen
    by_cases hold : now - e.2 > 300000
    · right
      have := h e he hid
      omega
    · left
      rw [hs, mapHas_iff]
      exact ⟨e, List.mem_filter.2 ⟨he, by simpa using hold⟩, hid⟩

/-- Once the id has been recorded at `t0`, no line within the window acts on it. -/
theorem runLog_no_acts_after_record (env : Env) (id : JsVal) (t0 : Int) :
    ∀ (steps : List (Int × Op)) (self : ValidatorP2P) (lb : Int),
      t0 ≤ lb → (∀ x ∈ steps, lb ≤ x.1) → (steps.map Prod.fst).Pairwise (· ≤ ·) →
      (∀ e ∈ self.seenMessages, e.1.strictEq id = true → t0 ≤ e.2) →
      (mapHas self.seenMessages id = true ∨ t0 + 300000 < lb) →
      (runLog env self steps).filter
        (fun e => actsOn id e && decide (e.time ≤ t0 + 300000)) = [] := by
  intro steps
  induction steps with
  | nil => intros; rfl
  | cons x rest ih =>
    intro self lb hlb hbound hsorted hstamped hstate
    obtain ⟨now, op⟩ := x
    have hnow : lb ≤ now := hbound (now, op) (List.mem_cons_self _ _)
    have hsorted2 : (∀ a ∈ rest.map Prod.fst, now ≤ a) ∧
        (rest.map Prod.fst).Pairwise (· ≤ ·) := List.pairwise_cons.1 hsorted
    have hrest : ∀ y ∈ rest, now ≤ y.1 := by
      intro y hy
      exact hsorted2.1 y.1 (List.mem_map_of_mem _ hy)
    have hhead : (actsOn id (logEntry env self now op) &&
        decide ((logEntry env self now op).time ≤ t0 + 300000)) = false := by
      rcases hstate with hseen | hlate
      · cases hact : actsOn id (logEntry env self now op)
        · rfl
        · have := (step_actsOn env self now op id hact).1
          rw [hseen] at this
          cases this
      · have : ¬ now ≤ t0 + 300000 := by omega
        simp [logEntry, this]
    have hnext := ih (step env self now op).1 now (by omega) hrest hsorted2.2
      (step_keeps_stamped env self now op id t0 (by omega) hstamped)
      (by
        rcases hstate with hseen | hlate
        · exact step_keeps_seen env self now op id t0 hstamped hseen
        · right
          omega)
    simp only [runLog, List.filter_cons, hhead]
    simpa using hnext

/-- The bound that the seen check gives, for a messageId as `seenMessages`
compares it (a string or another primitive by value, an array or an object by
identity): in every history of `handleGossipMessage`, `broadcast` and
`cleanupSeenMessages` steps under a non-decreasing clock, starting from a state
that does not have the messageId, at most one `handleGossipMessage` of a message
with that id invokes subscribers or sends to peers during the 300000 ms that
start when the id is first recorded, however often and from whichever peers
the message is received; and none does when the id is never recorded. -/
theorem gossip_at_most_once_in_window (env : Env) (id : JsVal) :
    ∀ (steps : List (Int × Op)) (self : ValidatorP2P),
      (steps.map Prod.fst).Pairwise (· ≤ ·) →
      mapHas self.seenMessages id = false →
      (∀ t0, firstSeenTime (runLog env self steps) id = some t0 →
        ((runLog env self steps).filter
          (fun e => actsOn id e && decide (e.time ≤ t0 + 300000))).length ≤ 1) ∧
      (firstSeenTime (runLog env self steps) id = none →
        (runLog env self steps).filter (actsOn id) = []) := by
  intro steps
  induction steps with
  | nil =>
    intro self _ _
    exact ⟨fun t0 h => by simp [runLog], fun _ => rfl⟩
  | cons x rest ih =>
    intro self hsorted hnew
    obtain ⟨now, op⟩ := x
    have hsorted2 : (∀ a ∈ rest.map Prod.fst, now ≤ a) ∧
        (rest.map Prod.fst).Pairwise (· ≤ ·) := List.pairwise_cons.1 hsorted
    have hrest : ∀ y ∈ rest, now ≤ y.1 := by
      intro y hy
      exact hsorted2.1 y.1 (List.mem_map_of_mem _ hy)
    cases hafter : mapHas (step env self now op).1.seenMessages id
    · -- the id is still not recorded after this step
      have hhead : actsOn id (logEntry env self now op) = false := by
        cases hact : actsOn id (logEntry env self now op)
        · rfl
        · have := (step_actsOn env self now op id hact).2
          rw [hafter] at this
          cases this
      have hih := ih (step env self now op).1 hsorted2.2 hafter
      have hfirst : firstSeenTime (runLog env self ((now, op) :: rest)) id =
          firstSeenTime (runLog env (step env self now op).1 rest) id := by
        have hafter2 : mapHas (logEntry env self now op).after.seenMessages id = false := hafter
        simp [firstSeenTime, runLog, List.find?, hafter2]
      rw [hfirst]
      simp only [runLog, List.filter_cons, hhead, Bool.false_and]
      exact ⟨by simpa using hih.1, by simpa using hih.2⟩
    · -- this step records the id
      have hfirst : firstSeenTime (runLog env self ((now, op) :: rest)) id = some now := by
        have hafter2 : mapHas (logEntry env self now op).after.seenMessages id = true := hafter
        simp [firstSeenTime, runLog, List.find?, hafter2]
        rfl
      rw [hfirst]
      refine ⟨?_, fun h => by cases h⟩
      intro t0 ht0
      have ht : now = t0 := by simpa using ht0
      subst ht
      have hstamped : ∀ e ∈ (step env self now op).1.seenMessages,
          e.1.strictEq id = true → now ≤ e.2 := by
        apply step_keeps_stamped env self now op id now (le_refl _)
        intro e he hid
        have : mapHas self.seenMessages id = true := (mapHas_iff _ _).2 ⟨e, he, hid⟩
        rw [hnew] at this
        cases this
      have htail := runLog_no_acts_after_record env id now rest (step env self now op).1 now
        (le_refl _) hrest hsorted2.2 hstamped (Or.inl hafter)
      simp only [runLog, List.filter_cons]
      split
      · rw [htail]
        simp
      · rw [htail]
        simp

/-- The bound on the sample history, for a string id: the id is first recorded
at time 1000, the arrival at time 2000 has no effect, and the one at time
301002, after the cleanup, is outside the window. -/
theorem gossip_at_most_once_in_window_witness :
    (sampleSteps.map Prod.fst).Pairwise (· ≤ ·) ∧
    mapHas sampleNode.seenMessages (.str "id-1") = false ∧
    firstSeenTime (runLog sampleEnv sampleNode sampleSteps) (.str "id-1") = some 1000 ∧
    ((runLog sampleEnv sampleNode sampleSteps).filter (actsOn (.str "id-1"))).length = 2 ∧
    ((runLog sampleEnv sampleNode sampleSteps).filter
      (fun e => actsOn (.str "id-1") e && decide (e.time ≤ 1000 + 300000))).length ≤ 1 :=
  ⟨by decide, by decide, by decide, by decide,
    (gossip_at_most_once_in_window sampleEnv (.str "id-1") sampleSteps sampleNode
      (by decide) (by decide)).1 1000 (by decide)⟩

/-- C2, evaluated where the code breaks it: the frame of a valid GOSSIP message
whose `messageId` is the array `["a"]` arrives twice within the window, from
peer 1 at time 1000 and from peer 2 at time 2000. `validateGossipMessage` does
not look at the messageId, and `JSON.parse` makes a new array for each
arrival, which `seenMessages.has` compares by identity with the array recorded
before. So the second arrival is not found: the subscribers 5 and 6 are called
again and the message is forwarded again (to peer 1; peer 3 was marked
not-alive when the first send to it failed). -/
theorem gossip_array_id_handled_on_every_arrival :
    validateGossipMessage (sampleArrayIdMessage 160) = .ok true ∧
    (sampleArrayIdMessage 160).prop "messageId" = .arr 161 [.str "a"] ∧
    (sampleArrayIdMessage 170).prop "messageId" = .arr 171 [.str "a"] ∧
    mapHas (handleGossipMessage sampleEnv sampleNode 1 (sampleArrayIdMessage 160)
      1000).state.seenMessages ((sampleArrayIdMessage 170).prop "messageId") = false ∧
    (runLog sampleEnv sampleNode
        [(1000, .handle 1 (sampleArrayIdMessage 160)),
         (2000, .handle 2 (sampleArrayIdMessage 170))]).map
        (fun entry => (entry.time, invocations entry.trace,
          (sends entry.trace).map Prod.fst)) =
      [(1000, [(5, .str "x"), (6, .str "x")], [2, 3]),
       (2000, [(5, .str "x"), (6, .str "x")], [1])] := by
  decide

/-! ## Peer admission -/

set_option maxRecDepth 100000 in
/-- C11, evaluated where the code breaks it: on a node with 49 peers (reached
from the empty peer list by 49 calls of `connectToPeer`) two calls of
`connectToPeer` for two new addresses both pass the capacity check and wait for
their connections; when both connections succeed each call pushes its peer,
and the peer list has 51 entries while `maxPeers` is 50. -/
theorem connectToPeer_overlap_exceeds_maxPeers :
    (newNode "192.168.1.100" 30303).peers = [] ∧
    sampleAlmostFull.peers.length = 49 ∧
    sampleAlmostFull.maxPeers = 50 ∧
    connectToPeerStart sampleAlmostFull "a.example" 30303 =
      some (samplePendingSocket "a.example") ∧
    connectToPeerStart sampleAlmostFull "b.example" 30303 =
      some (samplePendingSocket "b.example") ∧
    (connectToPeerFinish
      (connectToPeerFinish sampleAlmostFull "a.example" 30303
        (samplePendingSocket "a.example") true 49 0).2
      "b.example" 30303 (samplePendingSocket "b.example") true 50 0).2.peers.length = 51 := by
  decide

/-- When every call runs to completion before the next one starts, an admission
keeps `peers.length ≤ maxPeers`. -/
theorem admission_keeps_capacity (self : ValidatorP2P) (h : self.peers.length ≤ self.maxPeers) :
    (∀ (socket : TcpSocket) (ref : Nat) (now : Int),
      (handleIncomingConnection self socket ref now).state.peers.length ≤
        (handleIncomingConnection self socket ref now).state.maxPeers) ∧
    (∀ (host : String) (port : Nat) (connected : Bool) (ref : Nat) (now : Int),
      (connectToPeer self host port connected ref now).2.peers.length ≤
        (connectToPeer self host port connected ref now).2.maxPeers) := by
  constructor
  · intro socket ref now
    unfold handleIncomingConnection
    split
    · simp only [List.length_append, List.length_singleton]
      omega
    · exact h
  · intro host port connected ref now
    unfold connectToPeer connectToPeerStart
    split
    · exact h
    · rename_i socket hstart
      split at hstart
      · cases hstart
      · split at hstart
        · cases hstart
        · rename_i hroom
          cases connected
          · simpa [connectToPeerFinish] using h
          · simp only [connectToPeerFinish, if_true, List.length_append, List.length_singleton]
            omega

/-- C12: a rejected admission leaves the peer set unchanged. When a peer with
address `host:port` is already present, or `peers.length ≥ maxPeers`,
`connectToPeer(host, port)` returns `undefined` without creating a socket and
leaves the node as it was; when `peers.length ≥ maxPeers`,
`handleIncomingConnection` leaves the node as it was and calls `end()` on the
incoming socket. -/
theorem rejected_admission_unchanged (self : ValidatorP2P) (host : String) (port : Nat) :
    ((∃ p ∈ self.peers, p.address = peerAddress host port) ∨
        self.peers.length ≥ self.maxPeers →
      connectToPeerStart self host port = none ∧
      ∀ (connected : Bool) (ref : Nat) (now : Int),
        connectToPeer self host port connected ref now = (.ok none, self)) ∧
    (self.peers.length ≥ self.maxPeers →
      ∀ (socket : TcpSocket) (ref : Nat) (now : Int),
        handleIncomingConnection self socket ref now =
          { result := .ok (), state := self, socket := socket.endStream }) := by
  constructor
  · intro h
    have hstart : connectToPeerStart self host port = none := by
      unfold connectToPeerStart
      rcases h with ⟨p, hp, hpa⟩ | h
      · have : (self.peers.any fun p => p.address == peerAddress host port) = true :=
          List.any_eq_true.2 ⟨p, hp, by simp [hpa]⟩
        simp [this]
      · split
        · rfl
        · simp [h]
    exact ⟨hstart, fun connected ref now => by simp [connectToPeer, hstart]⟩
  · intro h socket ref now
    have : ¬ self.peers.length < self.maxPeers := by omega
    simp [handleIncomingConnection, this]

set_option maxRecDepth 100000 in
/-- Witness of C12: the node connected to `10.0.0.9:30303` rejects a second
`connectToPeer` to that address. -/
theorem rejected_admission_unchanged_witness :
    (∃ p ∈ sampleConnected.peers, p.address = peerAddress "10.0.0.9" 30303) ∧
    sampleConnected.peers.length = 1 ∧
    connectToPeer sampleConnected "10.0.0.9" 30303 true 2 0 = (.ok none, sampleConnected) :=
  ⟨by decide, by decide,
    ((rejected_admission_unchanged sampleConnected "10.0.0.9" 30303).1
      (Or.inl (by decide))).2 true 2 0⟩

set_option maxRecDepth 100000 in
/-- C13, evaluated where the code breaks it: a new node connects to
`10.0.0.9:30303`; then a connection comes in whose remote end is
`10.0.0.9:30303`, and `handleIncomingConnection` pushes a second peer with that
address. The same happens when two calls of `connectToPeer` for one address
both pass the check for an existing peer before either connection is
established. -/
theorem handleIncomingConnection_duplicates_address :
    (newNode "192.168.1.100" 30303).peers = [] ∧
    sampleConnected.peers.map Peer.address = ["10.0.0.9:30303"] ∧
    (handleIncomingConnection sampleConnected sampleIncoming 2 0).state.peers.map Peer.address =
      ["10.0.0.9:30303", "10.0.0.9:30303"] ∧
    connectToPeerStart (newNode "192.168.1.100" 30303) "10.0.0.9" 30303 =
      some (samplePendingSocket "10.0.0.9") ∧
    (connectToPeerFinish
      (connectToPeerFinish (newNode "192.168.1.100" 30303) "10.0.0.9" 30303
        (samplePendingSocket "10.0.0.9") true 1 0).2
      "10.0.0.9" 30303 (samplePendingSocket "10.0.0.9") true 2 0).2.peers.map Peer.address =
      ["10.0.0.9:30303", "10.0.0.9:30303"] := by
  decide

/-! ## Eviction from the seen cache -/

theorem mem_cleanupSeenMessages (self : ValidatorP2P) (now : Int) (e : JsVal × Int) :
    e ∈ (cleanupSeenMessages self now).seenMessages ↔
      e ∈ self.seenMessages ∧ now - e.2 ≤ 300000 := by
  simp only [cleanupSeenMessages, List.mem_filter]
  constructor
  · rintro ⟨h1, h2⟩
    refine ⟨h1, ?_⟩
    simp only [Bool.not_eq_true', decide_eq_false_iff_not] at h2
    omega
  · rintro ⟨h1, h2⟩
    refine ⟨h1, ?_⟩
    simp only [Bool.not_eq_true', decide_eq_false_iff_not]
    omega

/-- C14: after `cleanupSeenMessages` at time `now`, an entry
`(messageId, timestamp)` is in `seenMessages` exactly when it was there before
and `now - timestamp ≤ 300000`; the entries kept are in their old order with
their old timestamps, and nothing else of the node changes. -/
theorem cleanupSeenMessages_keeps_exactly_fresh (self : ValidatorP2P) (now : Int) :
    (∀ e : JsVal × Int, e ∈ (cleanupSeenMessages self now).seenMessages ↔
      e ∈ self.seenMessages ∧ now - e.2 ≤ 300000) ∧
    (cleanupSeenMessages self now).seenMessages.Sublist self.seenMessages ∧
    (cleanupSeenMessages self now).peers = self.peers ∧
    (cleanupSeenMessages self now).topics = self.topics := by
  exact ⟨mem_cleanupSeenMessages self now, List.filter_sublist _, rfl, rfl⟩

/-! ## Delivery to subscribers -/

theorem invocations_map_invoke (self : ValidatorP2P) (data : JsVal) (handlers : List Nat) :
    invocations (handlers.map fun g => (Effect.invoke g data, self)) =
      handlers.map fun g => (g, data) := by
  induction handlers with
  | nil => rfl
  | cons g rest ih =>
    simp only [invocations] at ih
    simp [invocations, ih]

theorem sends_map_invoke (self : ValidatorP2P) (data : JsVal) (handlers : List Nat) :
    sends (handlers.map fun g => (Effect.invoke g data, self)) = [] := by
  induction handlers with
  | nil => rfl
  | cons g rest ih =>
    simp only [sends] at ih
    simp [sends, ih]

theorem invocations_forwardGossipMessage (env : Env) (self : ValidatorP2P) (message : JsVal)
    (fromPeer : Nat) : invocations (forwardGossipMessage env self message fromPeer).trace = [] := by
  simp only [forwardGossipMessage, invocations_sendEach]

/-- The calls made by `forEach` are an initial part of the subscriber list. -/
theorem invocations_deliver (env : Env) (self : ValidatorP2P) (data : JsVal)
    (handlers : List Nat) :
    ∃ rest, invocations (deliver env self data handlers).2 ++ rest =
      handlers.map fun g => (g, data) := by
  induction handlers with
  | nil => exact ⟨[], rfl⟩
  | cons g rest ih =>
    obtain ⟨tail, htail⟩ := ih
    unfold deliver
    cases hc : env.callback g data with
    | some e => exact ⟨rest.map fun g => (g, data), by simp [invocations]⟩
    | none =>
      refine ⟨tail, ?_⟩
      simp only [invocations] at htail
      simp [invocations, htail]

/-- A message that passes the seen check and the validation, when every
subscriber of its topic returns: each subscriber is called once, in
subscription order, and the message is forwarded. -/
theorem handleGossipMessage_delivers (env : Env) (self : ValidatorP2P) (fromPeer : Nat)
    (message : JsVal) (now : Int) (hn : message.isNullish = false)
    (hunseen : mapHas self.seenMessages (message.prop "messageId") = false)
    (hvalid : validateGossipMessage message = .ok true)
    (hret : ∀ g ∈ (topicHandlers self.topics (message.prop "topic")).getD [],
      env.callback g (message.prop "data") = none) :
    (handleGossipMessage env self fromPeer message now).result = .ok () ∧
    invocations (handleGossipMessage env self fromPeer message now).trace =
      ((topicHandlers self.topics (message.prop "topic")).getD []).map
        (fun g => (g, message.prop "data")) ∧
    sends (handleGossipMessage env self fromPeer message now).trace =
      (self.peers.filter fun p => p.isAlive && p.ref != fromPeer).map
        fun p => (p.ref, message) := by
  rw [handleGossipMessage_fresh env self fromPeer message now hn hunseen hvalid]
  cases ht : topicHandlers self.topics (message.prop "topic") with
  | none =>
    simp only [Option.getD_none, List.map_nil, List.nil_append]
    exact ⟨trivial, invocations_forwardGossipMessage _ _ _ _, sends_forwardGossipMessage _ _ _ _⟩
  | some handlers =>
    rw [ht] at hret
    simp only [Option.getD_some] at hret ⊢
    simp only [deliver_all_return env _ _ handlers hret, invocations_append, sends_append,
      invocations_map_invoke, sends_map_invoke, invocations_forwardGossipMessage,
      sends_forwardGossipMessage, List.append_nil, List.nil_append]
    exact ⟨trivial, trivial, trivial⟩

/-- The subscriber calls of a message that passes the seen check and the
validation are an initial part of the subscriber list of its topic. -/
theorem handleGossipMessage_invocations (env : Env) (self : ValidatorP2P) (fromPeer : Nat)
    (message : JsVal) (now : Int) (hn : message.isNullish = false)
    (hunseen : mapHas self.seenMessages (message.prop "messageId") = false)
    (hvalid : validateGossipMessage message = .ok true) :
    ∃ rest, invocations (handleGossipMessage env self fromPeer message now).trace ++ rest =
      ((topicHandlers self.topics (message.prop "topic")).getD []).map
        (fun g => (g, message.prop "data")) := by
  rw [handleGossipMessage_fresh env self fromPeer message now hn hunseen hvalid]
  cases ht : topicHandlers self.topics (message.prop "topic") with
  | none =>
    refine ⟨[], ?_⟩
    simp [invocations_forwardGossipMessage]
  | some handlers =>
    obtain ⟨rest, hrest⟩ := invocations_deliver env
      { self with seenMessages := mapSet self.seenMessages (message.prop "messageId") now }
      (message.prop "data") handlers
    refine ⟨rest, ?_⟩
    simp only [Option.getD_some]
    split
    · exact hrest
    · simp only [invocations_append, invocations_forwardGossipMessage, List.append_nil]
      exact hrest

/-! ## Expired entries -/

/-- C15, as the code has it: once `cleanupSeenMessages` has run at a time more
than 300000 ms after the messageId was recorded, `seenMessages` no longer has
the id, and a valid GOSSIP message with that id is treated as new: the id is
recorded again with the current time, and when the subscribers of the topic
return each of them is called with the payload and the message is forwarded
to the alive peers other than the sender. -/
theorem handleGossipMessage_after_eviction (env : Env) (self : ValidatorP2P)
    (fromPeer : Nat) (message : JsVal) (now cleanedAt : Int)
    (hg : message.get "type" = .ok (.str "GOSSIP"))
    (hvalid : validateGossipMessage message = .ok true)
    (hold : ∀ e ∈ self.seenMessages,
      e.1.strictEq (message.prop "messageId") = true → cleanedAt - e.2 > 300000) :
    mapHas (cleanupSeenMessages self cleanedAt).seenMessages (message.prop "messageId")
      = false ∧
    (handleGossipMessage env (cleanupSeenMessages self cleanedAt) fromPeer message
        now).state.seenMessages =
      (cleanupSeenMessages self cleanedAt).seenMessages ++ [(message.prop "messageId", now)] ∧
    ((∀ g ∈ (topicHandlers self.topics (message.prop "topic")).getD [],
        env.callback g (message.prop "data") = none) →
      invocations (handleGossipMessage env (cleanupSeenMessages self cleanedAt) fromPeer
          message now).trace =
        ((topicHandlers self.topics (message.prop "topic")).getD []).map
          (fun g => (g, message.prop "data")) ∧
      sends (handleGossipMessage env (cleanupSeenMessages self cleanedAt) fromPeer
          message now).trace =
        (self.peers.filter fun p => p.isAlive && p.ref != fromPeer).map
          fun p => (p.ref, message)) := by
  have hn := isNullish_of_type hg
  have hgone : mapHas (cleanupSeenMessages self cleanedAt).seenMessages
      (message.prop "messageId") = false := by
    cases h : mapHas (cleanupSeenMessages self cleanedAt).seenMessages
      (message.prop "messageId")
    · rfl
    · obtain ⟨e, he, hid⟩ := (mapHas_iff _ _).1 h
      have hmem := List.mem_filter.1 he
      have h1 := hold e hmem.1 hid
      have h2 := hmem.2
      simp only [Bool.not_eq_true', decide_eq_false_iff_not] at h2
      exact absurd h1 h2
  refine ⟨hgone, ?_, ?_⟩
  · rcases handleGossipMessage_cases env (cleanupSeenMessages self cleanedAt) fromPeer
      message now with h | h
    · have := handleGossipMessage_seen_after env (cleanupSeenMessages self cleanedAt)
        fromPeer message now hn hvalid
      rw [h.1, hgone] at this
      cases this
    · rw [h.2]
      simp [mapSet, hgone]
  · intro hret
    exact (handleGossipMessage_delivers env (cleanupSeenMessages self cleanedAt) fromPeer
      message now hn hgone hvalid hret).2

/-- Witness of C15 as the code has it: on the sample node that recorded the id
at time 0, after a cleanup at time 300001 the sample message from peer 1 is
given to both subscribers and forwarded to peers 2 and 3. -/
theorem handleGossipMessage_after_eviction_witness :
    sampleMessage.get "type" = .ok (.str "GOSSIP") ∧
    validateGossipMessage sampleMessage = .ok true ∧
    mapHas sampleNodeStale.seenMessages (sampleMessage.prop "messageId") = true ∧
    invocations (handleGossipMessage sampleEnv (cleanupSeenMessages sampleNodeStale 300001) 1
        sampleMessage 300002).trace = [(5, .str "x"), (6, .str "x")] ∧
    sends (handleGossipMessage sampleEnv (cleanupSeenMessages sampleNodeStale 300001) 1
        sampleMessage 300002).trace = [(2, sampleMessage), (3, sampleMessage)] :=
  ⟨by decide, by decide, by decide,
    ((handleGossipMessage_after_eviction sampleEnv sampleNodeStale 1 sampleMessage 300002
      300001 (by decide) (by decide) (by decide)).2.2 (by decide)).1.trans (by decide),
    ((handleGossipMessage_after_eviction sampleEnv sampleNodeStale 1 sampleMessage 300002
      300001 (by decide) (by decide) (by decide)).2.2 (by decide)).2.trans (by decide)⟩

/-- Counterexample to C15 as stated: in the sample node the id of the sample
message was recorded at time 0; at time 400000, more than 300000 ms later, no
cleanup has run, and the valid sample message is dropped as a duplicate: no
subscriber is called and nothing is forwarded. -/
theorem handleGossipMessage_stale_entry_still_drops :
    sampleMessage.get "type" = .ok (.str "GOSSIP") ∧
    validateGossipMessage sampleMessage = .ok true ∧
    mapGet sampleNodeStale.seenMessages (sampleMessage.prop "messageId") = some 0 ∧
    (400000 : Int) - 0 > 300000 ∧
    topicHandlers sampleNodeStale.topics (sampleMessage.prop "topic") = some [5, 6] ∧
    handleGossipMessage sampleEnv sampleNodeStale 1 sampleMessage 400000 =
      { result := .ok (), state := sampleNodeStale, trace := [] } := by
  decide

/-! ## Subscriptions -/

theorem mem_setAdd (set : List Nat) (value g : Nat) :
    g ∈ setAdd set value ↔ g ∈ set ∨ g = value := by
  unfold setAdd
  split
  · constructor
    · exact Or.inl
    · rintro (h | h)
      · exact h
      · subst h; assumption
  · simp

theorem setAdd_idem (set : List Nat) (value : Nat) :
    setAdd (setAdd set value) value = setAdd set value := by
  have : value ∈ setAdd set value := (mem_setAdd set value value).2 (Or.inr rfl)
  generalize setAdd set value = added at this ⊢
  simp [setAdd, this]

theorem nodup_setAdd {set : List Nat} (h : set.Nodup) (value : Nat) :
    (setAdd set value).Nodup := by
  unfold setAdd
  split
  · exact h
  · rename_i hv
    rw [List.nodup_append]
    refine ⟨h, List.nodup_singleton _, ?_⟩
    intro a ha hb
    simp only [List.mem_singleton] at hb
    subst hb
    exact hv ha

theorem lookup_addToTopic_self (topic : String) (handler : Nat)
    (topics : List (String × List Nat)) :
    (addToTopic topic handler topics).lookup topic =
      (topics.lookup topic).map fun handlers => setAdd handlers handler := by
  induction topics with
  | nil => rfl
  | cons e rest ih =>
    obtain ⟨name, handlers⟩ := e
    by_cases h : topic = name
    · subst h
      simp [addToTopic, List.lookup]
    · have hb : (topic == name) = false := by simpa using h
      simp [addToTopic, List.lookup, hb, ih]

theorem lookup_addToTopic_other (topic other : String) (handler : Nat)
    (topics : List (String × List Nat)) (hne : other ≠ topic) :
    (addToTopic topic handler topics).lookup other = topics.lookup other := by
  induction topics with
  | nil => rfl
  | cons e rest ih =>
    obtain ⟨name, handlers⟩ := e
    by_cases h : topic = name
    · subst h
      have hb : (other == topic) = false := by simpa using hne
      simp [addToTopic, List.lookup, hb]
    · have hb : (topic == name) = false := by simpa using h
      by_cases ho : other = name
      · subst ho
        simp [addToTopic, List.lookup, hb]
      · have hob : (other == name) = false := by simpa using ho
        simp [addToTopic, List.lookup, hb, hob, ih]

theorem lookup_append_new (topics : List (String × List Nat)) (topic other : String)
    (value : List Nat) :
    (topics ++ [(topic, value)]).lookup other =
      match topics.lookup other with
      | some handlers => some handlers
      | none => if other == topic then some value else none := by
  induction topics with
  | nil => simp [List.lookup]; split <;> simp_all
  | cons e rest ih =>
    obtain ⟨name, handlers⟩ := e
    by_cases ho : other = name
    · subst ho
      simp [List.lookup]
    · have hob : (other == name) = false := by simpa using ho
      simp only [List.cons_append, List.lookup, hob]
      exact ih

theorem addToTopic_idem (topic : String) (handler : Nat) (topics : List (String × List Nat)) :
    addToTopic topic handler (addToTopic topic handler topics) =
      addToTopic topic handler topics := by
  induction topics with
  | nil => rfl
  | cons e rest ih =>
    obtain ⟨name, handlers⟩ := e
    by_cases h : topic = name
    · subst h
      simp [addToTopic, setAdd_idem]
    · have hb : (topic == name) = false := by simpa using h
      simp [addToTopic, hb, ih]

/-- The subscriber list of `topic` after `subscribe(topic, handler)`. -/
theorem lookup_subscribe_self (self : ValidatorP2P) (topic : String) (handler : Nat) :
    (subscribe self topic handler).topics.lookup topic =
      some (setAdd ((self.topics.lookup topic).getD []) handler) := by
  unfold subscribe
  simp only
  rw [lookup_addToTopic_self]
  cases h : self.topics.lookup topic with
  | some handlers => simp [h]
  | none => simp [h, lookup_append_new]

theorem lookup_subscribe_other (self : ValidatorP2P) (topic other : String) (handler : Nat)
    (hne : other ≠ topic) :
    (subscribe self topic handler).topics.lookup other = self.topics.lookup other := by
  unfold subscribe
  simp only
  rw [lookup_addToTopic_other _ _ _ _ hne]
  cases h : self.topics.lookup topic with
  | some handlers => simp
  | none =>
    have hb : (other == topic) = false := by simpa using hne
    simp only [Option.isSome_none, Bool.false_eq_true, if_false, lookup_append_new, hb]
    cases self.topics.lookup other <;> rfl

theorem subscribe_of_isSome (self : ValidatorP2P) (topic : String) (handler : Nat)
    (h : (self.topics.lookup topic).isSome = true) :
    subscribe self topic handler =
      { self with topics := addToTopic topic handler self.topics } := by
  simp [subscribe, h]

theorem subscribe_idem (self : ValidatorP2P) (topic : String) (handler : Nat) :
    subscribe (subscribe self topic handler) topic handler = subscribe self topic handler := by
  have hsome : ((subscribe self topic handler).topics.lookup topic).isSome = true := by
    rw [lookup_subscribe_self]
    rfl
  rw [subscribe_of_isSome (subscribe self topic handler) topic handler hsome]
  have hidem : addToTopic topic handler (subscribe self topic handler).topics =
      (subscribe self topic handler).topics := by
    show addToTopic topic handler (addToTopic topic handler _) = addToTopic topic handler _
    exact addToTopic_idem _ _ _
  rw [hidem]

/-- C16, as the code has it: after `subscribe(t, h)` the subscriber set of `t`
is the previous set plus `h` (still without repetition), the subscriber sets of
all other topics are unchanged, and subscribing the same callback to the same
topic twice equals subscribing once. A valid, not-yet-seen GOSSIP message on
topic `t` calls subscribers of `t` only, with the message's data, in
subscription order and each at most once, stopping at the first one that
throws; when none throws, each subscriber of `t` is called exactly once. -/
theorem subscribe_and_deliver (env : Env) (self : ValidatorP2P) (topic : String)
    (handler : Nat) :
    (subscribe self topic handler).topics.lookup topic =
      some (setAdd ((self.topics.lookup topic).getD []) handler) ∧
    (∀ g, g ∈ setAdd ((self.topics.lookup topic).getD []) handler ↔
      g ∈ (self.topics.lookup topic).getD [] ∨ g = handler) ∧
    (((self.topics.lookup topic).getD []).Nodup →
      (setAdd ((self.topics.lookup topic).getD []) handler).Nodup) ∧
    (∀ other, other ≠ topic →
      (subscribe self topic handler).topics.lookup other = self.topics.lookup other) ∧
    subscribe (subscribe self topic handler) topic handler = subscribe self topic handler ∧
    (∀ (fromPeer : Nat) (message : JsVal) (now : Int),
      message.get "type" = .ok (.str "GOSSIP") →
      message.prop "topic" = .str topic →
      mapHas self.seenMessages (message.prop "messageId") = false →
      validateGossipMessage message = .ok true →
      (∃ rest, invocations (handleGossipMessage env self fromPeer message now).trace ++ rest =
        ((self.topics.lookup topic).getD []).map (fun g => (g, message.prop "data"))) ∧
      ((∀ g ∈ (self.topics.lookup topic).getD [],
          env.callback g (message.prop "data") = none) →
        invocations (handleGossipMessage env self fromPeer message now).trace =
          ((self.topics.lookup topic).getD []).map (fun g => (g, message.prop "data")))) := by
  refine ⟨lookup_subscribe_self self topic handler, mem_setAdd _ handler,
    fun h => nodup_setAdd h handler,
    fun other hne => lookup_subscribe_other self topic other handler hne,
    subscribe_idem self topic handler, ?_⟩
  intro fromPeer message now hg htopic hunseen hvalid
  have hn := isNullish_of_type hg
  have hh : topicHandlers self.topics (message.prop "topic") = self.topics.lookup topic := by
    rw [htopic]
    rfl
  constructor
  · have := handleGossipMessage_invocations env self fromPeer message now hn hunseen hvalid
    rw [hh] at this
    exact this
  · intro hret
    have := (handleGossipMessage_delivers env self fromPeer message now hn hunseen hvalid
      (by rw [hh]; exact hret)).2.1
    rw [hh] at this
    exact this

/-- Witness of C16 as the code has it: on the sample node, whose subscribers 5
and 6 of topic `t` return, the sample message calls 5 and then 6. -/
theorem subscribe_and_deliver_witness :
    sampleMessage.get "type" = .ok (.str "GOSSIP") ∧
    sampleMessage.prop "topic" = .str "t" ∧
    (subscribe sampleNode "t" 9).topics.lookup "t" = some [5, 6, 9] ∧
    invocations (handleGossipMessage sampleEnv sampleNode 1 sampleMessage 1000).trace =
      [(5, .str "x"), (6, .str "x")] :=
  ⟨by decide, by decide,
    ((subscribe_and_deliver sampleEnv sampleNode "t" 9).1).trans (by decide),
    (((subscribe_and_deliver sampleEnv sampleNode "t" 9).2.2.2.2.2 1 sampleMessage 1000
      (by decide) (by decide) (by decide) (by decide)).2 (by decide)).trans (by decide)⟩

/-- Counterexample to C16 as stated: the callbacks 7 and 8 subscribe to topic
`t` on a new node; a valid, not-yet-seen GOSSIP message on `t` arrives, the
callback 7 throws, and the subscriber 8 of `t` is not called at all. -/
theorem subscriber_after_throw_not_invoked :
    sampleSubscribed.topics.lookup "t" = some [7, 8] ∧
    sampleMessage.get "type" = .ok (.str "GOSSIP") ∧
    sampleMessage.prop "topic" = .str "t" ∧
    mapHas sampleSubscribed.seenMessages (sampleMessage.prop "messageId") = false ∧
    validateGossipMessage sampleMessage = .ok true ∧
    sampleEnv.callback 7 (sampleMessage.prop "data") = some (.error "subscriber failed") ∧
    invocations (handleGossipMessage sampleEnv sampleSubscribed 1 sampleMessage 1000).trace =
      [(7, .str "x")] := by
  decide

/-! ## Sending to a peer -/

/-- C17: `Peer.send` has no throw that reaches its caller (the embedding gives
it no error result: its whole body is inside `try`). For a message that is not
`null` or `undefined`, it returns `true` exactly when the write of the
serialised message to the socket succeeds, and then the alive flag and
`lastSeen` of the peer are unchanged; otherwise it returns `false`, sets
`isAlive` to `false` and leaves the rest of the peer as it was. -/
theorem send_true_iff_written (env : Env) (peer : Peer) (message : JsVal)
    (hn : message.isNullish = false) :
    ((peer.send env message).1 = true ↔
      ∃ socket, peer.socket.write (env.stringify message ++ "\n") = .ok socket) ∧
    ((peer.send env message).1 = true →
      (peer.send env message).2.isAlive = peer.isAlive ∧
      (peer.send env message).2.lastSeen = peer.lastSeen) ∧
    ((peer.send env message).1 = false →
      (peer.send env message).2 = { peer with isAlive := false }) := by
  have ht := get_of_isNullish_false hn "topic"
  unfold Peer.send
  cases hw : peer.socket.write (env.stringify message ++ "\n") with
  | error e => simp
  | ok socket => simp [ht]

/-- Witness of C17: the send over a connected socket returns `true`, the send
over a socket that is not connected returns `false` and marks the peer. -/
theorem send_true_iff_written_witness :
    sampleMessage.isNullish = false ∧
    ((samplePeer 1 "10.0.0.1:30303").send sampleEnv sampleMessage).1 = true ∧
    ((sampleLostPeer 3 "10.0.0.3:30303").send sampleEnv sampleMessage).1 = false ∧
    ((sampleLostPeer 3 "10.0.0.3:30303").send sampleEnv sampleMessage).2 =
      { sampleLostPeer 3 "10.0.0.3:30303" with isAlive := false } :=
  ⟨by decide, by decide, by decide,
    (send_true_iff_written sampleEnv (sampleLostPeer 3 "10.0.0.3:30303") sampleMessage
      (by decide)).2.2 (by decide)⟩

/-! ## Requests for peer lists -/

/-- After two requests to one peer, the handler stored on the peer is that of
the second request, so a response with the `requestId` of the first resolves
nothing. -/
theorem handlePeersResponse_first_of_two (env : Env) (peer : Peer) (requests : Requests)
    (first second : String) (ref ref2 : Nat) (message : JsVal) (hne : first ≠ second)
    (hid : message.prop "requestId" = .str first) :
    handlePeersResponse
      (requestPeersFrom env (requestPeersFrom env peer requests first ref).1
        (requestPeersFrom env peer requests first ref).2 second ref2).1
      (requestPeersFrom env (requestPeersFrom env peer requests first ref).1
        (requestPeersFrom env peer requests first ref).2 second ref2).2 message =
      requests ++ [(first, .pending), (second, .pending)] := by
  have : (JsVal.str first).strictEq (.str second) = false := by
    simp [JsVal.strictEq, hne]
  simp [handlePeersResponse, requestPeersFrom, hid, this]

/-- C18, evaluated where the code breaks it: two requests `R1` and `R2` are
issued to the sample peer, `R1` first, and both are pending; the
`PEERS_RESPONSE` tagged `R1` arrives, and the request `R1` is still pending
afterwards (it can only time out), because the handler stored on the peer is
the one of `R2`. A response tagged `R2` does resolve `R2`, and with `R1` alone
the response tagged `R1` resolves it. -/
theorem requestPeersFrom_second_request_orphans_first :
    (requestPeersFrom sampleEnv
      (requestPeersFrom sampleEnv (samplePeer 1 "10.0.0.1:30303") [] "R1" 10).1
      (requestPeersFrom sampleEnv (samplePeer 1 "10.0.0.1:30303") [] "R1" 10).2
      "R2" 11).2 = [("R1", .pending), ("R2", .pending)] ∧
    handlePeersResponse
      (requestPeersFrom sampleEnv
        (requestPeersFrom sampleEnv (samplePeer 1 "10.0.0.1:30303") [] "R1" 10).1
        (requestPeersFrom sampleEnv (samplePeer 1 "10.0.0.1:30303") [] "R1" 10).2
        "R2" 11).1
      [("R1", .pending), ("R2", .pending)] (sampleResponse "R1") =
      [("R1", .pending), ("R2", .pending)] ∧
    handlePeersResponse
      (requestPeersFrom sampleEnv
        (requestPeersFrom sampleEnv (samplePeer 1 "10.0.0.1:30303") [] "R1" 10).1
        (requestPeersFrom sampleEnv (samplePeer 1 "10.0.0.1:30303") [] "R1" 10).2
        "R2" 11).1
      [("R1", .pending), ("R2", .pending)] (sampleResponse "R2") =
      [("R1", .pending), ("R2", .resolved (.arr 13 [.str "10.0.0.7:30303"]))] ∧
    handlePeersResponse
      (requestPeersFrom sampleEnv (samplePeer 1 "10.0.0.1:30303") [] "R1" 10).1
      [("R1", .pending)] (sampleResponse "R1") =
      [("R1", .resolved (.arr 13 [.str "10.0.0.7:30303"]))] := by
  decide

/-! ## Answering a request for peers -/

/-- What `handleGetPeersRequest` sends: one `PEERS_RESPONSE` to the requester,
with the `requestId` of the request and the addresses of the first 20 peers,
in peer-list order, that are alive and are not the requester's peer object. -/
theorem handleGetPeersRequest_response (env : Env) (self : ValidatorP2P) (peer : Peer)
    (message : JsVal) (ref listRef : Nat) (hn : message.isNullish = false) :
    sends (handleGetPeersRequest env self peer message ref listRef).trace =
      [(peer.ref, .obj ref
        [("type", .str "PEERS_RESPONSE"), ("requestId", message.prop "requestId"),
         ("peers", .arr listRef
            ((((self.peers.filter fun p => p.ref != peer.ref && p.isAlive).take 20).map
              Peer.address).map JsVal.str))])] ∧
    (((self.peers.filter fun p => p.ref != peer.ref && p.isAlive).take 20).map
      Peer.address).length ≤ 20 ∧
    ((∀ q ∈ self.peers, q.ref ≠ peer.ref → q.address ≠ peer.address) →
      peer.address ∉ ((self.peers.filter fun p => p.ref != peer.ref && p.isAlive).take 20).map
        Peer.address) := by
  refine ⟨?_, ?_, ?_⟩
  · simp [handleGetPeersRequest, get_of_isNullish_false hn, sends]
  · simp [List.length_take]
  · intro huniq hmem
    rw [List.mem_map] at hmem
    obtain ⟨q, hq, hqa⟩ := hmem
    have hq2 := List.mem_filter.1 (List.mem_of_mem_take hq)
    have hq3 := hq2.2
    simp only [Bool.and_eq_true, bne_iff_ne, ne_eq] at hq3
    exact huniq q hq2.1 hq3.1 hqa

/-- C19, evaluated where the code breaks it: in the node that holds two peer
objects with the address `10.0.0.9:30303` (see C13), the first of them sends a
`GET_PEERS` request; the `PEERS_RESPONSE` it is sent lists `10.0.0.9:30303`,
the requester's own address, taken from the second peer object. -/
theorem handleGetPeersRequest_lists_requester_address :
    sampleDuplicated.peers.map (fun p => (p.ref, p.address, p.isAlive)) =
      [(1, "10.0.0.9:30303", true), (2, "10.0.0.9:30303", true)] ∧
    sampleGetPeers.get "type" = .ok (.str "GET_PEERS") ∧
    sends (handleGetPeersRequest sampleEnv sampleDuplicated
        (sampleDuplicated.peers.headD (samplePeer 0 "")) sampleGetPeers 30 31).trace =
      [(1, .obj 30 [("type", .str "PEERS_RESPONSE"), ("requestId", .str "R1"),
        ("peers", .arr 31 [.str "10.0.0.9:30303"])])] := by
  decide

/-! ## Framing of incoming data -/

theorem consFirst_ne_nil (c : Char) (lines : List (List Char)) : consFirst c lines ≠ [] := by
  cases lines <;> simp [consFirst]

theorem splitLines_ne_nil (cs : List Char) : splitLines cs ≠ [] := by
  cases cs with
  | nil => simp [splitLines]
  | cons c rest =>
    unfold splitLines
    split
    · simp
    · exact consFirst_ne_nil _ _

theorem dropLast_cons_of_ne_nil {α : Type} (x : α) {xs : List α} (h : xs ≠ []) :
    (x :: xs).dropLast = x :: xs.dropLast := by
  cases xs with
  | nil => exact absurd rfl h
  | cons y ys => rfl

theorem getLast?_cons_of_ne_nil {α : Type} (x : α) {xs : List α} (h : xs ≠ []) :
    (x :: xs).getLast? = xs.getLast? := by
  cases xs with
  | nil => exact absurd rfl h
  | cons y ys => simp [List.getLast?]

theorem dropLast_append_of_ne_nil' {α : Type} (xs : List α) {ys : List α} (h : ys ≠ []) :
    (xs ++ ys).dropLast = xs ++ ys.dropLast := by
  induction xs with
  | nil => rfl
  | cons x rest ih =>
    have : rest ++ ys ≠ [] := by simp [h]
    rw [List.cons_append, dropLast_cons_of_ne_nil x this, ih, List.cons_append]

theorem getLast?_append_of_ne_nil' {α : Type} (xs : List α) {ys : List α} (h : ys ≠ []) :
    (xs ++ ys).getLast? = ys.getLast? := by
  induction xs with
  | nil => rfl
  | cons x rest ih =>
    have : rest ++ ys ≠ [] := by simp [h]
    rw [List.cons_append, getLast?_cons_of_ne_nil x this, ih]

theorem splitLines_cons_newline (rest : List Char) :
    splitLines ('\n' :: rest) = [] :: splitLines rest := by
  simp [splitLines]

theorem splitLines_cons_other {c : Char} (hc : c ≠ '\n') (rest : List Char) :
    splitLines (c :: rest) = consFirst c (splitLines rest) := by
  simp [splitLines, hc]

/-- Splitting a text that continues: the complete lines of the first part, then
the split of its unfinished last line followed by the second part. -/
theorem splitLines_append (a b : List Char) :
    splitLines (a ++ b) =
      (splitLines a).dropLast ++ splitLines ((splitLines a).getLast?.getD [] ++ b) := by
  induction a with
  | nil => simp [splitLines]
  | cons c rest ih =>
    by_cases hc : c = '\n'
    · subst hc
      have hne := splitLines_ne_nil rest
      rw [List.cons_append, splitLines_cons_newline, splitLines_cons_newline,
        dropLast_cons_of_ne_nil _ hne, getLast?_cons_of_ne_nil _ hne, ih, List.cons_append]
    · rw [List.cons_append, splitLines_cons_other hc, splitLines_cons_other hc, ih]
      match hs : splitLines rest with
      | [] => exact absurd hs (splitLines_ne_nil rest)
      | [line] =>
        simp [consFirst, splitLines_cons_other hc]
      | line :: second :: lines =>
        simp [consFirst, List.getLast?]

/-- The lines of a split contain no newline. -/
theorem splitLines_no_newline (cs : List Char) : ∀ line ∈ splitLines cs, '\n' ∉ line := by
  induction cs with
  | nil => simp [splitLines]
  | cons c rest ih =>
    intro line hline
    unfold splitLines at hline
    by_cases hc : c = '\n'
    · simp only [hc, if_true, List.mem_cons] at hline
      rcases hline with h | h
      · subst h; simp
      · exact ih line h
    · simp only [hc, if_false] at hline
      match hs : splitLines rest with
      | [] => exact absurd hs (splitLines_ne_nil rest)
      | first :: lines =>
        rw [hs] at hline ih
        simp only [consFirst, List.mem_cons] at hline
        rcases hline with h | h
        · subst h
          have := ih first (List.mem_cons_self _ _)
          simp only [List.mem_cons, not_or]
          exact ⟨fun e => hc e.symm, this⟩
        · exact ih line (List.mem_cons_of_mem _ h)

/-- A text is its complete lines, each with its newline, followed by its
unfinished last line. -/
theorem splitLines_join (cs : List Char) :
    ((splitLines cs).dropLast.map fun line => line ++ ['\n']).flatten ++
      (splitLines cs).getLast?.getD [] = cs := by
  induction cs with
  | nil => simp [splitLines]
  | cons c rest ih =>
    by_cases hc : c = '\n'
    · have hne := splitLines_ne_nil rest
      simp only [splitLines, hc, if_true]
      rw [dropLast_cons_of_ne_nil _ hne, getLast?_cons_of_ne_nil _ hne]
      simp only [List.map_cons, List.flatten_cons, List.nil_append, List.cons_append,
        List.singleton_append]
      rw [ih]
    · simp only [splitLines, hc, if_false]
      match hs : splitLines rest with
      | [] => exact absurd hs (splitLines_ne_nil rest)
      | [line] =>
        rw [hs] at ih
        simpa [consFirst] using ih
      | line :: second :: lines =>
        rw [hs] at ih
        simpa [consFirst, List.getLast?] using ih

theorem getLast?_getD_mem {α : Type} (xs : List α) (h : xs ≠ []) (d : α) :
    xs.getLast?.getD d ∈ xs := by
  cases hl : xs.getLast? with
  | none => exact absurd (List.getLast?_eq_none_iff.1 hl) h
  | some x => exact List.mem_of_getLast?_eq_some hl

/-- Two calls of `handleIncomingData` do what one call on the two chunks put
together does. -/
theorem handleIncomingData_append (env : Env) (self : NetworkSocket) (first second : String) :
    handleIncomingData env self (first ++ second) =
      ((handleIncomingData env (handleIncomingData env self first).1 second).1,
        (handleIncomingData env self first).2 ++
          (handleIncomingData env (handleIncomingData env self first).1 second).2) := by
  have hne := splitLines_ne_nil
    ((splitLines (self.messageBuffer ++ first).toList).getLast?.getD [] ++ second.toList)
  have hsplit : splitLines (self.messageBuffer ++ (first ++ second)).toList =
      (splitLines (self.messageBuffer ++ first).toList).dropLast ++
        splitLines ((splitLines (self.messageBuffer ++ first).toList).getLast?.getD [] ++
          second.toList) := by
    rw [← splitLines_append]
    simp [String.toList, String.data_append]
  have hbuf : (String.mk ((splitLines (self.messageBuffer ++ first).toList).getLast?.getD []) ++
      second).toList =
      (splitLines (self.messageBuffer ++ first).toList).getLast?.getD [] ++ second.toList := by
    simp [String.toList, String.data_append]
  simp only [handleIncomingData, hbuf, hsplit, getLast?_append_of_ne_nil' _ hne,
    dropLast_append_of_ne_nil' _ hne, List.filterMap_append]

theorem joinChunks_singleton (chunk : String) : joinChunks [chunk] = chunk := by
  simp [joinChunks]

/-- C20: framing tolerates partial arrivals. For every text and every way of
cutting it into one or more consecutive chunks, handling the chunks one by one
passes the same messages to the handlers, in the same order, and leaves the
same socket (so the same `messageBuffer`) as handling the whole text in one
call. After every call the text received so far is a sequence of
newline-terminated pieces followed by `messageBuffer`, and `messageBuffer`
contains no newline: it is exactly the text after the last newline. -/
theorem handleIncomingData_chunks (env : Env) (self : NetworkSocket) (first : String)
    (rest : List String) :
    feedChunks env self (first :: rest) =
      handleIncomingData env self (joinChunks (first :: rest)) ∧
    '\n' ∉ (handleIncomingData env self first).1.messageBuffer.toList ∧
    ∃ pieces : List (List Char),
      (∀ piece ∈ pieces, '\n' ∉ piece) ∧
      (pieces.map fun piece => piece ++ ['\n']).flatten ++
          (handleIncomingData env self first).1.messageBuffer.toList =
        (self.messageBuffer ++ first).toList := by
  refine ⟨?_, ?_, ?_⟩
  · induction rest generalizing self first with
    | nil =>
      rw [joinChunks_singleton]
      simp [feedChunks]
    | cons chunk more ih =>
      have hstep : feedChunks env self (first :: chunk :: more) =
          ((feedChunks env (handleIncomingData env self first).1 (chunk :: more)).1,
            (handleIncomingData env self first).2 ++
              (feedChunks env (handleIncomingData env self first).1 (chunk :: more)).2) := rfl
      have hjoin : joinChunks (first :: chunk :: more) =
          first ++ joinChunks (chunk :: more) := rfl
      rw [hstep, ih, hjoin, handleIncomingData_append]
  · have hmem := getLast?_getD_mem (splitLines (self.messageBuffer ++ first).toList)
      (splitLines_ne_nil _) []
    exact splitLines_no_newline _ _ hmem
  · refine ⟨(splitLines (self.messageBuffer ++ first).toList).dropLast, ?_, ?_⟩
    · intro piece hpiece
      exact splitLines_no_newline _ _ (List.mem_of_mem_dropLast hpiece)
    · exact splitLines_join _

/-- An instance of C20: a frame that arrives in three chunks, cut inside the
frame and before its newline, is passed to the handlers once, as it is when it
arrives in one chunk, and the text after the newline stays in the buffer. -/
theorem handleIncomingData_chunks_witness :
    joinChunks ["\x7b\x22type\x22", ":\x22PING\x22\x7d", "\n\x7b\x22ty"] =
      "\x7b\x22type\x22:\x22PING\x22\x7d\n\x7b\x22ty" ∧
    feedChunks sampleParseEnv sampleSocket ["\x7b\x22type\x22", ":\x22PING\x22\x7d", "\n\x7b\x22ty"] =
      ({ sampleSocket with messageBuffer := "\x7b\x22ty" }, [.obj 40 [("type", .str "PING")]]) :=
  ⟨by decide,
    (handleIncomingData_chunks sampleParseEnv sampleSocket "\x7b\x22type\x22"
      [":\x22PING\x22\x7d", "\n\x7b\x22ty"]).1.trans (by decide)⟩
/-! ## Blocks and signatures -/

/-- What `validateBlock` accepts: a block whose `slot`, `proposer` and
`transactions` are all truthy and whose slot is neither below 0 nor above
1000000000. -/
theorem validateBlock_accepts_iff (block : JsVal) :
    validateBlock block = .ok true ↔
      block.isNullish = false ∧
      (block.prop "slot").truthy = true ∧
      (block.prop "proposer").truthy = true ∧
      (block.prop "transactions").truthy = true ∧
      ltNum (block.prop "slot") 0 = false ∧
      gtNum (block.prop "slot") 1000000000 = false := by
  cases hn : block.isNullish
  · simp only [validateBlock, get_of_isNullish_false hn]
    cases (block.prop "slot").truthy <;> cases (block.prop "proposer").truthy <;>
      cases (block.prop "transactions").truthy <;> cases ltNum (block.prop "slot") 0 <;>
      cases gtNum (block.prop "slot") 1000000000 <;> simp
  · simp [validateBlock, JsVal.get, hn]

/-- C28, evaluated where the code breaks it: the block for slot 0 with a
proposer and a transaction list has its three fields, and its slot is neither
below 0 nor above 1000000000, yet `validateBlock` returns `false`, because
`!block.slot` holds for the number 0. The same block for slot 100 is accepted. -/
theorem validateBlock_rejects_slot_zero :
    sampleGenesisBlock.prop "slot" = .num 0 ∧
    sampleGenesisBlock.prop "proposer" = .str "validator_1" ∧
    sampleGenesisBlock.prop "transactions" = .arr 51 [.str "tx1"] ∧
    ltNum (sampleGenesisBlock.prop "slot") 0 = false ∧
    gtNum (sampleGenesisBlock.prop "slot") 1000000000 = false ∧
    validateBlock sampleGenesisBlock = .ok false ∧
    validateBlock sampleBlock = .ok true := by
  decide

/-- A slot that is a string is compared as the number that the string spells,
and one that spells no number passes both comparisons. -/
theorem validateBlock_string_slots :
    validateBlock (sampleBlockAt (.str "100")) = .ok true ∧
    validateBlock (sampleBlockAt (.str " 1e9 ")) = .ok true ∧
    validateBlock (sampleBlockAt (.str "2e9")) = .ok false ∧
    validateBlock (sampleBlockAt (.str "1000000000.5")) = .ok false ∧
    validateBlock (sampleBlockAt (.str "0x3B9ACA01")) = .ok false ∧
    validateBlock (sampleBlockAt (.str "Infinity")) = .ok false ∧
    validateBlock (sampleBlockAt (.str "-1")) = .ok false ∧
    validateBlock (sampleBlockAt (.str "-0.5")) = .ok false ∧
    validateBlock (sampleBlockAt (.str "-0")) = .ok true ∧
    validateBlock (sampleBlockAt (.str "soon")) = .ok true ∧
    validateBlock (sampleBlockAt (.arr 54 [.str "2e9"])) = .ok false ∧
    validateBlock (sampleBlockAt (.arr 54 [.num 7])) = .ok true ∧
    validateBlock (sampleBlockAt (.obj 54 [])) = .ok true := by
  decide

/-- C30: `verifySignature(data, signature)` is truthy exactly when the
signature is present and its `length` is 64, and its value does not depend on
`data`: for every signature and every two payloads the two calls agree. -/
theorem verifySignature_ignores_data (signature d1 d2 : JsVal) :
    ((verifySignature d1 signature).truthy = true ↔
      signature.isNullish = false ∧ signature.prop "length" = .num 64) ∧
    verifySignature d1 signature = verifySignature d2 signature := by
  refine ⟨?_, rfl⟩
  unfold verifySignature
  have hlen : ∀ v : JsVal, v.strictEq (.num 64) = true ↔ v = .num 64 := by
    intro v
    cases v <;> simp [JsVal.strictEq]
  cases signature with
  | undefined => simp [JsVal.truthy, JsVal.isNullish]
  | null => simp [JsVal.truthy, JsVal.isNullish]
  | bool b => cases b <;> simp [JsVal.truthy, JsVal.prop, JsVal.strictEq, JsVal.isNullish]
  | num n =>
    by_cases h : n = 0 <;> simp [JsVal.truthy, JsVal.prop, JsVal.strictEq, JsVal.isNullish, h]
  | str s =>
    by_cases h : s = ""
    · subst h
      simp [JsVal.truthy, JsVal.prop, utf16Length]
    · simp [JsVal.truthy, JsVal.isNullish, h, hlen]
  | arr r items => simp [JsVal.truthy, JsVal.isNullish, hlen]
  | obj r fields => simp [JsVal.truthy, JsVal.isNullish, hlen]

/-! ## The life of a `NetworkSocket` -/

/-- A connected socket has a TCP socket: this holds of a new `NetworkSocket`
and stays true under `connect()`, the three events of the TCP socket (which
exists when they fire), `write`, `handleIncomingData` and `close`. -/
theorem hasSocketWhenConnected_kept (env : Env) (self : NetworkSocket)
    (h : self.hasSocketWhenConnected) :
    (∀ host port, (NetworkSocket.create host port).hasSocketWhenConnected) ∧
    self.connect.hasSocketWhenConnected ∧
    (self.socket.isSome = true → self.onConnect.hasSocketWhenConnected) ∧
    self.onError.hasSocketWhenConnected ∧
    self.onClose.hasSocketWhenConnected ∧
    self.close.hasSocketWhenConnected ∧
    (∀ data after, self.write data = .ok after → after.hasSocketWhenConnected) ∧
    (∀ data, (handleIncomingData env self data).1.hasSocketWhenConnected) := by
  refine ⟨?_, ?_, ?_, ?_, ?_, ?_, ?_, ?_⟩
  · intro host port hc
    cases hc
  · intro _
    rfl
  · intro hs _
    exact hs
  · intro hc
    cases hc
  · intro hc
    cases hc
  · unfold NetworkSocket.close
    split
    · intro hc
      cases hc
    · exact h
  · intro data after hw
    unfold NetworkSocket.write at hw
    split at hw
    · cases hw
    · split at hw
      · cases hw
      · injection hw with hw
        subst hw
        intro _
        rfl
  · intro data
    exact h

/-- C22: `NetworkSocket.write` throws exactly when the `connected` flag is
`false`; it then throws `Error("Socket not connected")` before anything is
passed to the TCP socket. So `Peer.send` over a `NetworkSocket` that is not
connected returns `false` and marks the peer not-alive, the socket being left
as it was. -/
theorem write_fails_iff_not_connected (self : NetworkSocket) (data : String)
    (hs : self.hasSocketWhenConnected) :
    ((∃ e, self.write data = .error e) ↔ self.connected = false) ∧
    (self.connected = false → self.write data = .error (.error "Socket not connected")) ∧
    (∀ (env : Env) (peer : Peer) (message : JsVal),
      peer.socket = .network self → self.connected = false →
      peer.send env message = (false, { peer with isAlive := false })) := by
  refine ⟨?_, ?_, ?_⟩
  · unfold NetworkSocket.write
    cases hc : self.connected
    · simp
    · have := hs hc
      cases hsock : self.socket with
      | none => simp [hsock] at this
      | some tcp => simp
  · intro hc
    simp [NetworkSocket.write, hc]
  · intro env peer message hp hc
    simp [Peer.send, hp, Socket.write, NetworkSocket.write, hc, Except.map]

/-- Witness of C22: the sample peer whose socket is not connected. -/
theorem write_fails_iff_not_connected_witness :
    (samplePendingSocket "10.0.0.3").hasSocketWhenConnected ∧
    (samplePendingSocket "10.0.0.3").connected = false ∧
    (samplePendingSocket "10.0.0.3").write "x" = .error (.error "Socket not connected") :=
  ⟨fun h => (by cases h), rfl,
    (write_fails_iff_not_connected (samplePendingSocket "10.0.0.3") "x"
      (fun h => by cases h)).2.1 rfl⟩

/-- C23: `NetworkSocket.close` is idempotent. It cannot throw, two calls leave
the state that one call leaves, `connected` is `false` afterwards when a TCP
socket exists, a socket without a TCP socket is left unchanged, and a `write`
after `close` throws. -/
theorem close_idempotent (self : NetworkSocket) :
    self.close.close = self.close ∧
    (self.socket.isSome = true → self.close.connected = false) ∧
    (self.socket = none → self.close = self) ∧
    (∀ data, ∃ e, self.close.write data = .error e) := by
  unfold NetworkSocket.close
  cases hsock : self.socket with
  | none =>
    simp only [hsock]
    refine ⟨trivial, fun h => (by cases h), fun _ => trivial, ?_⟩
    intro data
    unfold NetworkSocket.write
    cases self.connected <;> simp [hsock]
  | some tcp =>
    simp only
    refine ⟨?_, fun _ => trivial, fun h => (by cases h), ?_⟩
    · simp [TcpSocket.endStream]
    · intro data
      exact ⟨.error "Socket not connected", by simp [NetworkSocket.write]⟩

/-! ## Malformed frames -/

theorem splitLines_piece (piece rest : List Char) (h : '\n' ∉ piece) :
    splitLines (piece ++ '\n' :: rest) = piece :: splitLines rest := by
  induction piece with
  | nil => exact splitLines_cons_newline rest
  | cons c more ih =>
    have hc : c ≠ '\n' := fun hc => h (by simp [hc])
    have hmore : '\n' ∉ more := fun hm => h (List.mem_cons_of_mem _ hm)
    rw [List.cons_append, splitLines_cons_other hc, ih hmore]
    rfl

/-- A text that is empty or ends in a newline has no unfinished last line. -/
theorem splitLines_last_of_terminated (text : List Char)
    (h : text = [] ∨ text.getLast? = some '\n') :
    (splitLines text).getLast?.getD [] = [] := by
  rcases h with h | h
  · subst h
    rfl
  · have htext : text.dropLast ++ ['\n'] = text := List.dropLast_append_getLast? _ h
    have hlast : '\n' ∉ (splitLines text.dropLast).getLast?.getD [] :=
      splitLines_no_newline _ _ (getLast?_getD_mem _ (splitLines_ne_nil _) [])
    rw [← htext, splitLines_append, splitLines_piece _ _ hlast,
      getLast?_append_of_ne_nil' _ (List.cons_ne_nil _ _)]
    rfl

/-- Splitting around a complete line that starts at the beginning of the text
or right after a newline. -/
theorem splitLines_frame (before frame after : List Char)
    (hstart : before = [] ∨ before.getLast? = some '\n') (hframe : '\n' ∉ frame) :
    splitLines (before ++ frame ++ '\n' :: after) =
        (splitLines before).dropLast ++ frame :: splitLines after ∧
      splitLines (before ++ after) = (splitLines before).dropLast ++ splitLines after := by
  have hlast := splitLines_last_of_terminated before hstart
  constructor
  · rw [List.append_assoc, splitLines_append, hlast, List.nil_append,
      splitLines_piece _ _ hframe]
  · rw [splitLines_append, hlast, List.nil_append]

/-- C21: a newline-terminated frame on which `JSON.parse` throws is dropped and
nothing else changes. For a socket whose buffered text followed by the chunk
reads `before`, the frame, a newline, `after`, where the frame starts the text
or follows a newline: the call returns what it returns when the text is
`before` followed by `after` (same messages to the handlers in the same order,
same socket), `connected` is unchanged, and the messages are those of `before`
followed by those of `after`, so the frames after the malformed one are still
delivered. -/
theorem handleIncomingData_drops_malformed (env : Env) (self : NetworkSocket)
    (data absentBuffer absentData : String) (before frame after : List Char)
    (htext : (self.messageBuffer ++ data).toList = before ++ frame ++ '\n' :: after)
    (habsent : (absentBuffer ++ absentData).toList = before ++ after)
    (hstart : before = [] ∨ before.getLast? = some '\n')
    (hframe : '\n' ∉ frame)
    (hbad : env.parse (String.mk frame) = none) :
    handleIncomingData env self data =
      handleIncomingData env { self with messageBuffer := absentBuffer } absentData ∧
    (handleIncomingData env self data).1.connected = self.connected ∧
    (handleIncomingData env self data).2 =
      (handleIncomingData env { self with messageBuffer := "" } (String.mk before)).2 ++
        (handleIncomingData env { self with messageBuffer := "" } (String.mk after)).2 := by
  have hne := splitLines_ne_nil after
  have hne2 : frame :: splitLines after ≠ [] := List.cons_ne_nil _ _
  obtain ⟨h1, h2⟩ := splitLines_frame before frame after hstart hframe
  have hdrop : (if frame.all isJsWhiteSpace = true then none
      else env.parse (String.mk frame)) = none := by
    split
    · rfl
    · exact hbad
  have hempty : ∀ text : List Char, ("" ++ String.mk text).toList = text := by
    intro text
    simp [String.toList, String.data_append]
  refine ⟨?_, rfl, ?_⟩
  · simp only [handleIncomingData, htext, habsent, h1, h2,
      getLast?_append_of_ne_nil' _ hne2, getLast?_append_of_ne_nil' _ hne,
      dropLast_append_of_ne_nil' _ hne2, dropLast_append_of_ne_nil' _ hne,
      getLast?_cons_of_ne_nil _ hne, dropLast_cons_of_ne_nil _ hne,
      List.filterMap_append, List.filterMap_cons, hdrop]
  · simp only [handleIncomingData, htext, hempty, h1,
      dropLast_append_of_ne_nil' _ hne2, dropLast_cons_of_ne_nil _ hne,
      List.filterMap_append, List.filterMap_cons, hdrop]

/-- An instance of C21: between two PING frames a frame that is not JSON; the
two PING messages are passed on, as when the chunk holds only them. -/
theorem handleIncomingData_drops_malformed_witness :
    handleIncomingData sampleParseEnv sampleSocket
        "\x7b\x22type\x22:\x22PING\x22\x7d\noops\n\x7b\x22type\x22:\x22PING\x22\x7d\n" =
      (sampleSocket, [.obj 40 [("type", .str "PING")], .obj 40 [("type", .str "PING")]]) :=
  (handleIncomingData_drops_malformed sampleParseEnv sampleSocket
    "\x7b\x22type\x22:\x22PING\x22\x7d\noops\n\x7b\x22type\x22:\x22PING\x22\x7d\n" ""
    "\x7b\x22type\x22:\x22PING\x22\x7d\n\x7b\x22type\x22:\x22PING\x22\x7d\n"
    "\x7b\x22type\x22:\x22PING\x22\x7d\n".toList "oops".toList
    "\x7b\x22type\x22:\x22PING\x22\x7d\n".toList
    (by decide) (by decide) (Or.inr (by decide)) (by decide) (by decide)).1.trans (by decide)

/-! ## One-shot listeners of a peer -/

theorem everyOther_cons {α : Type} (a : α) (l : List α) :
    everyOther (a :: l) = a :: everyOther l.tail := by
  cases l <;> rfl

/-- From a position that the array does not have, `forEach` calls nothing. -/
theorem forEachListener_beyond (env : Env) (data : JsVal) (remaining index : Nat)
    (listeners : List Listener) (h : listeners.length ≤ index) :
    forEachListener env data remaining index listeners = (.ok (), listeners, []) := by
  induction remaining generalizing index with
  | zero => rfl
  | succ n ih =>
    have hget : listeners.get? index = none := List.get?_eq_none.2 h
    simp only [forEachListener, hget]
    exact ih (index + 1) (Nat.le_succ_of_le h)

/-- What the `forEach` of `emit` does on `once` listeners whose callbacks all
return: of the listeners from the current position on it calls the first, the
third, the fifth, ..., and the second, the fourth, ... stay in the array. -/
theorem forEachListener_once (env : Env) (data : JsVal) (remaining : Nat) :
    ∀ (kept rest : List Listener), rest.length ≤ remaining →
      (∀ l ∈ rest, l.once = true ∧ env.callback l.callback data = none) →
      forEachListener env data remaining kept.length (kept ++ rest) =
        (.ok (), kept ++ everyOther rest.tail,
          (everyOther rest).map fun l => (l.callback, data)) := by
  induction remaining with
  | zero =>
    intro kept rest hlen _
    have : rest = [] := List.length_eq_zero.1 (Nat.le_zero.1 hlen)
    subst this
    rfl
  | succ n ih =>
    intro kept rest hlen hall
    cases rest with
    | nil =>
      rw [forEachListener_beyond env data _ _ _ (by simp)]
      rfl
    | cons x more =>
      obtain ⟨hx, hcb⟩ := hall x (List.mem_cons_self _ _)
      have hget : (kept ++ x :: more).get? kept.length = some x := by
        rw [List.get?_eq_getElem?, List.getElem?_append_right (Nat.le_refl _)]
        simp
      have herase : (kept ++ x :: more).eraseIdx kept.length = kept ++ more := by
        rw [List.eraseIdx_append_of_length_le (Nat.le_refl _)]
        simp
      simp only [forEachListener, hget, hcb, hx, if_true, herase]
      cases more with
      | nil =>
        rw [forEachListener_beyond env data _ _ _ (by simp)]
        rfl
      | cons y others =>
        have hkept : kept ++ y :: others = (kept ++ [y]) ++ others := by simp
        have hidx : kept.length + 1 = (kept ++ [y]).length := by simp
        rw [hkept, hidx, ih (kept ++ [y]) others
          (by simp only [List.length_cons] at hlen; omega)
          (fun l hl => hall l (List.mem_cons_of_mem _ (List.mem_cons_of_mem _ hl)))]
        simp [everyOther, everyOther_cons]

/-- C29, evaluated where the code breaks it: a peer on which `once("pong", ...)`
was called twice and `once("peers_response", ...)` once. One `emit("pong",
data)` calls the first `pong` listener only, and the second `pong` listener is
still registered afterwards, because the first is spliced out of the array
that `forEach` is walking. With three `pong` listeners the first and the third
are called and the second stays. The listener of the other event is neither
called nor removed, and with one listener or none the listener array is empty
afterwards. -/
theorem emit_skips_second_once_listener :
    Peer.emit sampleEnv (onceEach (Peer.once none "peers_response" 9) "pong" [1, 2]) "pong"
        (.str "x") =
      { result := .ok (),
        events := some [("peers_response", [{ callback := 9, once := true }]),
          ("pong", [{ callback := 2, once := true }])],
        calls := [(1, .str "x")] } ∧
    Peer.emit sampleEnv (onceEach none "pong" [1, 2, 3]) "pong" (.str "x") =
      { result := .ok (), events := some [("pong", [{ callback := 2, once := true }])],
        calls := [(1, .str "x"), (3, .str "x")] } ∧
    Peer.emit sampleEnv (onceEach none "pong" [1]) "pong" (.str "x") =
      { result := .ok (), events := some [("pong", [])], calls := [(1, .str "x")] } ∧
    Peer.emit sampleEnv (onceEach none "pong" []) "pong" (.str "x") =
      { result := .ok (), events := none, calls := [] } := by
  decide

theorem lookup_setListeners (table : List (String × List Listener)) (event : String)
    (listeners : List Listener) :
    (setListeners table event listeners).lookup event = some listeners := by
  unfold setListeners
  induction table with
  | nil => simp [List.lookup]
  | cons entry rest ih =>
    obtain ⟨name, old⟩ := entry
    by_cases hname : event = name
    · subst hname
      have hfirst : (if ((event, old).1 == event) = true then ((event, old).1, listeners)
          else (event, old)) = (event, listeners) := by simp
      have hsome : (List.lookup event ((event, old) :: rest)).isSome = true := by
        simp [List.lookup]
      rw [if_pos hsome, List.map_cons, hfirst]
      simp [List.lookup]
    · have hne : (event == name) = false := by simpa using hname
      have hne2 : (name == event) = false := by simpa using fun h => hname h.symm
      have hlook : List.lookup event ((name, old) :: rest) = List.lookup event rest := by
        simp [List.lookup, hne]
      have hfirst : (if ((name, old).1 == event) = true then ((name, old).1, listeners)
          else (name, old)) = (name, old) := by simp [hne2]
      rw [hlook]
      split
      · rename_i h
        rw [if_pos h] at ih
        rw [List.map_cons, hfirst]
        simpa [List.lookup, hne] using ih
      · rename_i h
        rw [if_neg h] at ih
        simpa [List.lookup, hne] using ih

/-- One `emit` on an event whose listeners were all registered with `once` and
whose callbacks all return: the first, third, fifth, ... listener is called,
and the second, fourth, ... listener stays registered. -/
theorem emit_once_listeners (env : Env) (table : List (String × List Listener))
    (event : String) (data : JsVal) (listeners : List Listener)
    (hlisteners : table.lookup event = some listeners)
    (hall : ∀ l ∈ listeners, l.once = true ∧ env.callback l.callback data = none) :
    (Peer.emit env (some table) event data).result = .ok () ∧
    (Peer.emit env (some table) event data).calls =
      (everyOther listeners).map (fun l => (l.callback, data)) ∧
    listenersOf (Peer.emit env (some table) event data).events event =
      some (everyOther listeners.tail) := by
  have h := forEachListener_once env data listeners.length [] listeners (Nat.le_refl _) hall
  simp only [List.length_nil, List.nil_append] at h
  simp only [Peer.emit, hlisteners, h, listenersOf, Option.some_bind, lookup_setListeners]
  exact ⟨trivial, trivial, trivial⟩

/-! ## Health checks -/

theorem send_keeps_identity (env : Env) (self : Peer) (message : JsVal) :
    (self.send env message).2.ref = self.ref ∧
    (self.send env message).2.address = self.address ∧
    (self.send env message).2.socket.connected = self.socket.connected ∧
    (self.send env message).2.socket.ended = self.socket.ended := by
  unfold Peer.send
  cases hw : self.socket.write (env.stringify message ++ "\n") with
  | error e => exact ⟨rfl, rfl, rfl, rfl⟩
  | ok sock =>
    have hsock : sock.connected = self.socket.connected ∧ sock.ended = self.socket.ended := by
      cases hs : self.socket with
      | network s =>
        rw [hs] at hw
        simp only [Socket.write, NetworkSocket.write] at hw
        split at hw
        · cases hw
        · split at hw
          · cases hw
          · rename_i tcp htcp
            simp only [Except.map] at hw
            injection hw with hw
            subst hw
            simp [Socket.connected, Socket.ended, htcp, TcpSocket.write]
      | tcp s =>
        rw [hs] at hw
        simp only [Socket.write] at hw
        injection hw with hw
        subst hw
        simp [Socket.connected, Socket.ended, TcpSocket.write]
    cases message.get "topic" <;> exact ⟨rfl, rfl, hsock.1, hsock.2⟩

theorem ping_keeps_identity (env : Env) (self : Peer) (ping : Ping) :
    (self.ping env ping).2.ref = self.ref ∧
    (self.ping env ping).2.address = self.address ∧
    (self.ping env ping).2.socket.connected = self.socket.connected ∧
    (self.ping env ping).2.socket.ended = self.socket.ended := by
  have h := send_keeps_identity env self (pingMessage ping)
  unfold Peer.ping
  cases ping.pong <;> exact h

theorem ping_result (env : Env) (self : Peer) (ping : Ping) :
    (self.ping env ping).1 =
      match ping.pong with
      | some _ => .ok true
      | none => .error (.error "Ping timeout") := by
  unfold Peer.ping
  cases ping.pong <;> rfl

/-- The loop of `healthCheck` on the positions of `front`, last to first: the
peers of `front` whose ping is answered stay, in their order and as `ping`
leaves them; the others are spliced out, last to first; the peers behind
`front` are not touched. -/
theorem healthCheckLoop_front (env : Env) (pings : Nat → Ping) (front : List Peer) :
    ∀ back : List Peer,
      healthCheckLoop env pings front.length (front ++ back) =
        (.ok (),
          ((front.filter fun p => (pings p.ref).pong.isSome).map
            fun p => (p.ping env (pings p.ref)).2) ++ back,
          ((front.filter fun p => !(pings p.ref).pong.isSome).map
            fun p => (p.ping env (pings p.ref)).2).reverse) := by
  induction front using List.reverseRecOn with
  | nil =>
    intro back
    rfl
  | append_singleton init p ih =>
    intro back
    have hget : (init ++ [p] ++ back).get? init.length = some p := by
      rw [List.get?_eq_getElem?, List.append_assoc,
        List.getElem?_append_right (Nat.le_refl _)]
      simp
    have hset : ∀ q : Peer, (init ++ [p] ++ back).set init.length q = init ++ (q :: back) := by
      intro q
      rw [List.append_assoc, List.set_append_right _ _ (Nat.le_refl _)]
      simp
    have herase : (init ++ [p] ++ back).eraseIdx init.length = init ++ back := by
      rw [List.append_assoc, List.eraseIdx_append_of_length_le (Nat.le_refl _)]
      simp
    have hlen : (init ++ [p]).length = init.length + 1 := by simp
    rw [hlen]
    simp only [healthCheckLoop, hget, hset, herase, ping_result]
    cases hp : (pings p.ref).pong with
    | some now =>
      simp only [ih, List.filter_append, List.map_append, List.filter_cons, List.filter_nil,
        hp, Option.isSome_some, Bool.not_true, if_true, List.map_cons, List.map_nil,
        List.append_assoc, List.singleton_append, List.append_nil]
      simp
    | none =>
      simp only [ih, List.filter_append, List.map_append, List.filter_cons, List.filter_nil,
        hp, Option.isSome_none, Bool.not_false, if_true, List.map_cons, List.map_nil,
        List.append_nil, List.reverse_append, List.reverse_cons, List.reverse_nil,
        List.nil_append, List.singleton_append]
      simp

theorem askPeer_keeps_identity (env : Env) (self : ValidatorP2P) (index : Nat)
    (requestId : String) (ref : Nat) :
    (askPeer env self index requestId ref).peers.map (fun p => (p.ref, p.address)) =
      self.peers.map (fun p => (p.ref, p.address)) ∧
    (askPeer env self index requestId ref).maxPeers = self.maxPeers := by
  unfold askPeer
  cases hget : self.peers.get? index with
  | none => exact ⟨rfl, rfl⟩
  | some peer =>
    refine ⟨?_, rfl⟩
    simp only [requestPeersFrom]
    rw [List.map_set]
    apply List.ext_getElem?
    intro n
    rw [List.getElem?_set]
    split
    · rename_i hn
      subst hn
      have hsend := send_keeps_identity env peer
        (JsVal.obj ref [("type", .str "GET_PEERS"), ("requestId", .str requestId)])
      rw [List.get?_eq_getElem?] at hget
      split
      · rw [List.getElem?_map, hget]
        simp [hsend.1, hsend.2.1]
      · rename_i hlt
        simp only [List.length_map] at hlt
        rw [List.getElem?_map, List.getElem?_eq_none (Nat.le_of_not_lt hlt)]
        rfl
    · rfl

theorem healthCheck_loop_result (env : Env) (self : ValidatorP2P) (pings : Nat → Ping) :
    healthCheckLoop env pings self.peers.length self.peers =
      (.ok (),
        (self.peers.filter fun p => (pings p.ref).pong.isSome).map
          (fun p => (p.ping env (pings p.ref)).2),
        ((self.peers.filter fun p => !(pings p.ref).pong.isSome).map
          fun p => (p.ping env (pings p.ref)).2).reverse) := by
  have h := healthCheckLoop_front env pings self.peers []
  simpa using h

theorem map_ping_identity (env : Env) (pings : Nat → Ping) (peers : List Peer) :
    (peers.map fun p => (p.ping env (pings p.ref)).2).map (fun p => (p.ref, p.address)) =
      peers.map fun p => (p.ref, p.address) := by
  rw [List.map_map]
  apply List.map_congr_left
  intro p _
  have h := ping_keeps_identity env p (pings p.ref)
  simp [h.1, h.2.1]

/-- C24: a `healthCheck` that runs to completion with nothing else acting on
the node returns, and for every peer list and every assignment of ping
outcomes the peer list afterwards holds exactly the peers whose ping was
answered, in their original order, while the peers spliced out are exactly the
peers whose ping failed, each once (last to first). -/
theorem healthCheck_removes_failed (env : Env) (self : ValidatorP2P) (pings : Nat → Ping)
    (requestId : String) (ref : Nat) :
    (healthCheck env self pings requestId ref).result = .ok () ∧
    (healthCheck env self pings requestId ref).state.peers.map (fun p => (p.ref, p.address)) =
      (self.peers.filter fun p => (pings p.ref).pong.isSome).map
        (fun p => (p.ref, p.address)) ∧
    (healthCheck env self pings requestId ref).removed.map (fun p => (p.ref, p.address)) =
      ((self.peers.filter fun p => !(pings p.ref).pong.isSome).map
        fun p => (p.ref, p.address)).reverse := by
  unfold healthCheck
  simp only [healthCheck_loop_result]
  split
  · refine ⟨rfl, ?_, ?_⟩
    · rw [(askPeer_keeps_identity env _ 0 requestId ref).1]
      exact map_ping_identity env pings _
    · rw [List.map_reverse, map_ping_identity]
  · refine ⟨rfl, map_ping_identity env pings _, ?_⟩
    rw [List.map_reverse, map_ping_identity]

/-- Counterexample to C25 as stated: the node has two peers over connected
sockets and the ping of the second times out. `healthCheck` takes the second
peer out of the list and marks it not-alive, but its socket is still
`connected` and `end()` was not called on its TCP socket: `close` was not
called, which would have left `connected` false and the TCP socket ended. -/
theorem healthCheck_removed_peer_still_connected :
    (healthCheck sampleEnv sampleTwoPeers samplePings "R1" 300).state.peers.map Peer.ref = [1] ∧
    (healthCheck sampleEnv sampleTwoPeers samplePings "R1" 300).removed.map
        (fun p => (p.ref, p.isAlive, p.socket.connected, p.socket.ended)) =
      [(2, false, some true, false)] ∧
    (healthCheck sampleEnv sampleTwoPeers samplePings "R1" 300).removed.map
        (fun p =>
          match p.socket with
          | .network s => ((Socket.network s.close).connected, (Socket.network s.close).ended)
          | .tcp _ => (none, false)) =
      [(some false, true)] := by
  decide

/-- C25, as the code has it: a peer that `healthCheck` removes after a failed
ping is only taken out of the peer list, as `ping` left it. It is marked
not-alive, and `close` is not called on its socket: the `connected` field of
the socket and whether `end()` was called on its TCP socket are what they were
before the health check. -/
theorem healthCheck_removed_socket_untouched (env : Env) (self : ValidatorP2P)
    (pings : Nat → Ping) (requestId : String) (ref : Nat) :
    (healthCheck env self pings requestId ref).removed =
      ((self.peers.filter fun p => !(pings p.ref).pong.isSome).map
        fun p => (p.ping env (pings p.ref)).2).reverse ∧
    ∀ q ∈ (healthCheck env self pings requestId ref).removed,
      q.isAlive = false ∧
      ∃ p ∈ self.peers, (pings p.ref).pong = none ∧ q.ref = p.ref ∧
        q.socket.connected = p.socket.connected ∧ q.socket.ended = p.socket.ended := by
  have hremoved : (healthCheck env self pings requestId ref).removed =
      ((self.peers.filter fun p => !(pings p.ref).pong.isSome).map
        fun p => (p.ping env (pings p.ref)).2).reverse := by
    unfold healthCheck
    simp only [healthCheck_loop_result]
    split <;> rfl
  refine ⟨hremoved, ?_⟩
  intro q hq
  rw [hremoved, List.mem_reverse, List.mem_map] at hq
  obtain ⟨p, hp, hpq⟩ := hq
  rw [List.mem_filter] at hp
  obtain ⟨hmem, hpong⟩ := hp
  have hnone : (pings p.ref).pong = none := by
    cases h : (pings p.ref).pong with
    | none => rfl
    | some now => simp [h] at hpong
  have hid := ping_keeps_identity env p (pings p.ref)
  subst hpq
  refine ⟨?_, p, hmem, hnone, hid.1, hid.2.2.1, hid.2.2.2⟩
  simp [Peer.ping, hnone]

/-! ## Discovery -/

theorem appends_refl (self : ValidatorP2P) : Appends self self :=
  ⟨rfl, [], by simp, by simp, fun h => absurd rfl h⟩

theorem appends_of_peerIds_eq {before after : ValidatorP2P}
    (hmax : after.maxPeers = before.maxPeers) (hids : peerIds after = peerIds before) :
    Appends before after :=
  ⟨hmax, [], by simp [hids], by simp, fun h => absurd rfl h⟩

theorem connectToPeer_appends (self : ValidatorP2P) (host : String) (port : Nat)
    (connected : Bool) (ref : Nat) (now : Int) :
    Appends self (connectToPeer self host port connected ref now).2 := by
  unfold connectToPeer
  cases hstart : connectToPeerStart self host port with
  | none => exact appends_refl self
  | some socket =>
    have hroom : self.peers.length < self.maxPeers := by
      unfold connectToPeerStart at hstart
      split at hstart
      · cases hstart
      · split at hstart
        · cases hstart
        · rename_i hfull
          exact Nat.lt_of_not_le hfull
    cases connected
    · exact appends_refl self
    · refine ⟨rfl, [(ref, peerAddress host port)], ?_, by simp, fun _ => hroom⟩
      simp [connectToPeerFinish, peerIds]

theorem askPeer_appends (env : Env) (self : ValidatorP2P) (index : Nat) (requestId : String)
    (ref : Nat) : Appends self (askPeer env self index requestId ref) :=
  appends_of_peerIds_eq (askPeer_keeps_identity env self index requestId ref).2
    (askPeer_keeps_identity env self index requestId ref).1

theorem appendsOnly_nil (start : ValidatorP2P) (clock : Nat) :
    AppendsOnly start { state := start, clock := clock, states := [] } :=
  ⟨List.Chain.nil, rfl⟩

theorem appendsOnly_cons {start next : ValidatorP2P} {run : Discovery} (clock : Nat)
    (hstep : Appends start next) (hrun : AppendsOnly next run) :
    AppendsOnly start { state := run.state, clock := clock, states := next :: run.states } := by
  refine ⟨List.Chain.cons hstep hrun.1, ?_⟩
  have h := hrun.2
  cases hs : run.states with
  | nil =>
    rw [hs] at h
    simpa using h
  | cons s rest =>
    rw [hs] at h
    rw [getLast?_cons_of_ne_nil next (List.cons_ne_nil s rest)]
    simp only [List.getLast?_cons_cons, Option.getD] at h ⊢
    cases hl : (s :: rest).getLast? with
    | none => exact absurd (List.getLast?_eq_none_iff.1 hl) (List.cons_ne_nil _ _)
    | some v =>
      rw [hl] at h
      exact h

theorem appendsOnly_append {start : ValidatorP2P} {first second : Discovery} (clock : Nat)
    (hfirst : AppendsOnly start first) (hsecond : AppendsOnly first.state second) :
    AppendsOnly start
      { state := second.state, clock := clock, states := first.states ++ second.states } := by
  obtain ⟨state1, clock1, states1⟩ := first
  induction states1 generalizing start with
  | nil =>
    have h : start = state1 := by simpa using hfirst.2
    subst h
    exact ⟨hsecond.1, hsecond.2⟩
  | cons s rest ih =>
    have hchain := List.chain_cons.1 hfirst.1
    have hlast : rest.getLast?.getD s = state1 := by
      have h := hfirst.2
      cases rest with
      | nil => simpa using h
      | cons r more =>
        rw [getLast?_cons_of_ne_nil s (List.cons_ne_nil r more)] at h
        cases hl : (r :: more).getLast? with
        | none => exact absurd (List.getLast?_eq_none_iff.1 hl) (List.cons_ne_nil _ _)
        | some v =>
          rw [hl] at h
          simpa using h
    have hrest := @ih s ⟨hchain.2, hlast⟩ hsecond
    exact appendsOnly_cons clock hchain.1 hrest

theorem connectToAddresses_appendsOnly (world : World) (addresses : List JsVal) :
    ∀ (self : ValidatorP2P) (clock : Nat),
      AppendsOnly self (connectToAddresses world self clock addresses) := by
  induction addresses with
  | nil =>
    intro self clock
    exact appendsOnly_nil self clock
  | cons address rest ih =>
    intro self clock
    unfold connectToAddresses
    split
    · exact appendsOnly_nil self clock
    · split
      · refine appendsOnly_cons _ ?_ (ih _ _)
        split
        · split
          · exact connectToPeer_appends _ _ _ _ _ _
          · exact appends_refl self
        · exact appends_refl self
      · exact appendsOnly_nil self clock

theorem connectToAnswer_appendsOnly (world : World) (self : ValidatorP2P) (clock : Nat)
    (peers : Option JsVal) : AppendsOnly self (connectToAnswer world self clock peers) := by
  unfold connectToAnswer
  split
  · exact connectToAddresses_appendsOnly world _ _ _
  · exact appendsOnly_nil _ _

theorem discoverRound_appendsOnly (env : Env) (world : World) (indices : List Nat) :
    ∀ (self : ValidatorP2P) (clock : Nat),
      AppendsOnly self (discoverRound env world self clock indices) := by
  induction indices with
  | nil =>
    intro self clock
    exact appendsOnly_nil self clock
  | cons index rest ih =>
    intro self clock
    have hasked := askPeer_appends env self index (world.answer clock).requestId
      (world.answer clock).ref
    have htried := connectToAnswer_appendsOnly world
      (askPeer env self index (world.answer clock).requestId (world.answer clock).ref)
      (clock + 1) (world.answer clock).peers
    unfold discoverRound
    simp only
    split
    · exact appendsOnly_cons _ hasked htried
    · exact appendsOnly_cons _ hasked (appendsOnly_append 0 htried (ih _ _))

theorem discoverPeers_appendsOnly (env : Env) (world : World) (rounds : Nat) :
    ∀ (self : ValidatorP2P) (clock : Nat),
      AppendsOnly self (discoverPeers env world rounds self clock) := by
  induction rounds with
  | zero =>
    intro self clock
    exact appendsOnly_nil self clock
  | succ n ih =>
    intro self clock
    unfold discoverPeers
    split
    · exact appendsOnly_append _ (discoverRound_appendsOnly env world _ self clock) (ih _ _)
    · exact appendsOnly_nil self clock

theorem chain_appends_extends (states : List ValidatorP2P) :
    ∀ start : ValidatorP2P, List.Chain Appends start states →
      ∀ s ∈ states, ∃ added, peerIds s = peerIds start ++ added := by
  induction states with
  | nil =>
    intro start _ s hs
    cases hs
  | cons next rest ih =>
    intro start hchain s hs
    obtain ⟨hstep, hrest⟩ := List.chain_cons.1 hchain
    obtain ⟨_, added, hadded, _, _⟩ := hstep
    rcases List.mem_cons.1 hs with h | h
    · subst h
      exact ⟨added, hadded⟩
    · obtain ⟨more, hmore⟩ := ih next hrest s h
      exact ⟨added ++ more, by rw [hmore, hadded, List.append_assoc]⟩

/-- What holds of `discoverPeers`: it never removes a peer. For every run with
nothing else acting on the node, whatever the requests for peer lists and the
connection attempts come to (timeouts, responses that are not lists of
addresses, failed connections), and for every number of passes of its loop:
each step of the run leaves the peer list as it was or puts one peer at its
end, the latter only when the list was shorter than `maxPeers`; so at every
later point of the run the peer list starts with the peer list from before the
run, and the node at the end of the run is the last of these states. The two
steps of the run that write to the node, the request to a peer and the end of
a connection attempt, take no peer out of the list in any state of the node;
the end of a connection attempt puts its peer at the end of the list whatever
the length of the list has become. -/
theorem discoverPeers_only_appends (env : Env) (world : World) (rounds : Nat)
    (self : ValidatorP2P) (clock : Nat) :
    List.Chain Appends self (discoverPeers env world rounds self clock).states ∧
    (discoverPeers env world rounds self clock).states.getLast?.getD self =
      (discoverPeers env world rounds self clock).state ∧
    (∀ s ∈ (discoverPeers env world rounds self clock).states,
      ∃ added, peerIds s = peerIds self ++ added) ∧
    (∃ added, peerIds (discoverPeers env world rounds self clock).state =
      peerIds self ++ added) ∧
    (∀ (node : ValidatorP2P) (index : Nat) (requestId : String) (ref : Nat),
      peerIds (askPeer env node index requestId ref) = peerIds node) ∧
    ∀ (node : ValidatorP2P) (host : String) (port : Nat) (socket : NetworkSocket)
      (connected : Bool) (ref : Nat) (now : Int),
      ∃ added, peerIds (connectToPeerFinish node host port socket connected ref now).2 =
        peerIds node ++ added := by
  have h := discoverPeers_appendsOnly env world rounds self clock
  have hext := chain_appends_extends _ self h.1
  refine ⟨h.1, h.2, hext, ?_, ?_, ?_⟩
  · rw [← h.2]
    cases hl : (discoverPeers env world rounds self clock).states.getLast? with
    | none => exact ⟨[], by simp⟩
    | some last => exact hext last (List.mem_of_getLast?_eq_some hl)
  · intro node index requestId ref
    exact (askPeer_keeps_identity env node index requestId ref).1
  · intro node host port socket connected ref now
    cases connected
    · exact ⟨[], by simp [connectToPeerFinish]⟩
    · exact ⟨[(ref, peerAddress host port)], by simp [connectToPeerFinish, peerIds]⟩

set_option maxRecDepth 100000 in
/-- C26, evaluated where the code breaks it: two runs of `discoverPeers` on a
node with 49 peers (`healthCheck` starts a run without waiting for the runs
started before), each at a connection attempt, to `a.example:30303` and to
`b.example:30303`. Both pass the capacity checks of the loop and of
`connectToPeer` at length 49 and wait for their connections. The first
connection puts the list at `maxPeers`; when the second is established the
peer is pushed all the same, at length 50, and the list has 51 peers. No peer
is removed: the list still starts with the 49 peers from before. -/
theorem discoverPeers_overlap_appends_at_capacity :
    sampleAlmostFull.peers.length = 49 ∧
    sampleAlmostFull.maxPeers = 50 ∧
    connectToAddressStart sampleAlmostFull (.str "a.example:30303") =
      some ("a.example", 30303, samplePendingSocket "a.example") ∧
    connectToAddressStart sampleAlmostFull (.str "b.example:30303") =
      some ("b.example", 30303, samplePendingSocket "b.example") ∧
    (connectToPeerFinish sampleAlmostFull "a.example" 30303
      (samplePendingSocket "a.example") true 49 0).2.peers.length = 50 ∧
    (connectToPeerFinish
      (connectToPeerFinish sampleAlmostFull "a.example" 30303
        (samplePendingSocket "a.example") true 49 0).2
      "b.example" 30303 (samplePendingSocket "b.example") true 50 0).2.peers.length = 51 ∧
    peerIds (connectToPeerFinish
      (connectToPeerFinish sampleAlmostFull "a.example" 30303
        (samplePendingSocket "a.example") true 49 0).2
      "b.example" 30303 (samplePendingSocket "b.example") true 50 0).2 =
      peerIds sampleAlmostFull ++ [(49, "a.example:30303"), (50, "b.example:30303")] := by
  decide

/-- A run of `discoverPeers` on a node with one peer: the peer is asked, one of
the three addresses of its answer gives a new peer, and in the second pass both
requests time out. The peer list only grows at its end. -/
theorem discoverPeers_sample_run :
    (discoverPeers sampleEnv sampleWorld 2 sampleConnected 0).states.map peerIds =
      [[(1, "10.0.0.9:30303")],
       [(1, "10.0.0.9:30303"), (501, "10.0.0.7:30303")],
       [(1, "10.0.0.9:30303"), (501, "10.0.0.7:30303")],
       [(1, "10.0.0.9:30303"), (501, "10.0.0.7:30303")],
       [(1, "10.0.0.9:30303"), (501, "10.0.0.7:30303")],
       [(1, "10.0.0.9:30303"), (501, "10.0.0.7:30303")]] := by
  decide

/-! ## Propagation on a line of three nodes -/

theorem lineMessage_props (env : Env) (a : ValidatorP2P) (data : JsVal) (messageId : String)
    (timestamp : Int) (ref : Nat) :
    (lineMessage env a data messageId timestamp ref).isNullish = false ∧
    (lineMessage env a data messageId timestamp ref).prop "topic" = .str "t" ∧
    (lineMessage env a data messageId timestamp ref).prop "data" = data ∧
    (lineMessage env a data messageId timestamp ref).prop "messageId" = .str messageId ∧
    (lineMessage env a data messageId timestamp ref).prop "signature" =
      .str (sign env a data) := by
  refine ⟨rfl, ?_, ?_, ?_, ?_⟩ <;> simp [lineMessage, envelope, JsVal.prop, List.lookup]

theorem lineMessage_valid (env : Env) (a : ValidatorP2P) (data : JsVal) (messageId : String)
    (timestamp : Int) (ref : Nat) (hdata : data.truthy = true)
    (hsig : utf16Length (sign env a data) = 64) :
    validateGossipMessage (lineMessage env a data messageId timestamp ref) = .ok true := by
  obtain ⟨hn, ht, hd, _, hs⟩ := lineMessage_props env a data messageId timestamp ref
  have hne : sign env a data ≠ "" := by
    intro h
    rw [h] at hsig
    simp [utf16Length] at hsig
  rw [validateGossipMessage_accepts_iff, ht, hd, hs]
  refine ⟨hn, rfl, hdata, by simp [JsVal.truthy, hne], ?_, ?_⟩
  · simp [verifySignature, JsVal.truthy, hne, JsVal.prop, JsVal.strictEq, hsig]
  · intro h
    simp [JsVal.strictEq] at h

theorem peers_of_one (peers : List Peer) (r : Nat)
    (h : peers.map (fun p => (p.ref, p.isAlive)) = [(r, true)]) :
    ∃ p, peers = [p] ∧ p.ref = r ∧ p.isAlive = true := by
  cases peers with
  | nil => simp at h
  | cons p rest =>
    cases rest with
    | nil =>
      simp only [List.map_cons, List.map_nil, List.cons.injEq, Prod.mk.injEq, and_true] at h
      exact ⟨p, rfl, h.1, h.2⟩
    | cons q more => simp at h

theorem peers_of_two (peers : List Peer) (r s : Nat)
    (h : peers.map (fun p => (p.ref, p.isAlive)) = [(r, true), (s, true)]) :
    ∃ p q, peers = [p, q] ∧ p.ref = r ∧ p.isAlive = true ∧ q.ref = s ∧ q.isAlive = true := by
  cases peers with
  | nil => simp at h
  | cons p rest =>
    cases rest with
    | nil => simp at h
    | cons q more =>
      cases more with
      | nil =>
        simp only [List.map_cons, List.map_nil, List.cons.injEq, Prod.mk.injEq, and_true] at h
        exact ⟨p, q, rfl, h.1.1, h.1.2, h.2.1, h.2.2⟩
      | cons x others => simp at h

/-- Counterexample to C27 as stated: on the sample line, where each of the
three nodes has a subscriber of topic `t`, A broadcasts a valid payload, B
handles the envelope it is sent and C handles the envelope that B forwards.
The subscribers of B and of C are called once each, but the subscriber of A is
not called at all: `broadcast` marks the message as seen and sends it, and does
not deliver it to the subscribers of the broadcasting node. -/
theorem line_broadcaster_not_delivered :
    sampleLineA.topics = [("t", [5])] ∧
    sends sampleLineRun.atA.trace =
      [(11, lineMessage sampleEnv sampleLineA (.str "x") "id-9" 1000 110)] ∧
    sends sampleLineRun.atB.trace =
      [(22, lineMessage sampleEnv sampleLineA (.str "x") "id-9" 1000 110)] ∧
    sends sampleLineRun.atC.trace = [] ∧
    (invocationsOf sampleLineRun.atA).length = 0 ∧
    invocationsOf sampleLineRun.atB = [(6, .str "x")] ∧
    invocationsOf sampleLineRun.atC = [(8, .str "x")] := by
  decide

/-- C27, as the code has it: flood propagation on a line A–B–C of alive peers
(A and B are peers, B and C are peers, A and C are not), for a valid payload
that A broadcasts on topic `t` and that B and C have not seen, with
subscribers that return. A sends the envelope to B only and calls none of its
own subscribers; B calls each of its subscribers once and sends the envelope
to C and not to A; C calls each of its subscribers once and sends nothing, its
only peer being the sender. A copy that reaches any of the three nodes
afterwards, from any peer, is dropped as a duplicate: nothing is called or
sent and the node is unchanged. So each subscriber of B and of C has exactly
one delivery, and the subscribers of A have none. -/
theorem line_propagation (env : Env) (a b c : ValidatorP2P) (toB fromA toC fromB : Nat)
    (data : JsVal) (messageId : String) (timestamp nowA nowB nowC : Int) (ref : Nat)
    (ha : a.peers.map (fun p => (p.ref, p.isAlive)) = [(toB, true)])
    (hb : b.peers.map (fun p => (p.ref, p.isAlive)) = [(fromA, true), (toC, true)])
    (hdistinct : fromA ≠ toC)
    (hc : c.peers.map (fun p => (p.ref, p.isAlive)) = [(fromB, true)])
    (hdata : data.truthy = true)
    (hsig : utf16Length (sign env a data) = 64)
    (hbnew : mapHas b.seenMessages (.str messageId) = false)
    (hcnew : mapHas c.seenMessages (.str messageId) = false)
    (hbret : ∀ g ∈ (b.topics.lookup "t").getD [], env.callback g data = none)
    (hcret : ∀ g ∈ (c.topics.lookup "t").getD [], env.callback g data = none) :
    (sends (lineRun env a b c fromA fromB data messageId timestamp nowA nowB nowC ref).atA.trace =
        [(toB, lineMessage env a data messageId timestamp ref)] ∧
      invocationsOf
        (lineRun env a b c fromA fromB data messageId timestamp nowA nowB nowC ref).atA = []) ∧
    ((lineRun env a b c fromA fromB data messageId timestamp nowA nowB nowC ref).atB.result =
        .ok () ∧
      invocationsOf
          (lineRun env a b c fromA fromB data messageId timestamp nowA nowB nowC ref).atB =
        ((b.topics.lookup "t").getD []).map (fun g => (g, data)) ∧
      sends (lineRun env a b c fromA fromB data messageId timestamp nowA nowB nowC ref).atB.trace =
        [(toC, lineMessage env a data messageId timestamp ref)]) ∧
    ((lineRun env a b c fromA fromB data messageId timestamp nowA nowB nowC ref).atC.result =
        .ok () ∧
      invocationsOf
          (lineRun env a b c fromA fromB data messageId timestamp nowA nowB nowC ref).atC =
        ((c.topics.lookup "t").getD []).map (fun g => (g, data)) ∧
      sends (lineRun env a b c fromA fromB data messageId timestamp nowA nowB nowC ref).atC.trace =
        []) ∧
    ∀ (node : ValidatorP2P) (fromPeer : Nat) (later : Int),
      node = (lineRun env a b c fromA fromB data messageId timestamp nowA nowB nowC ref).atA.state ∨
        node =
          (lineRun env a b c fromA fromB data messageId timestamp nowA nowB nowC ref).atB.state ∨
        node =
          (lineRun env a b c fromA fromB data messageId timestamp nowA nowB nowC ref).atC.state →
      handleGossipMessage env node fromPeer (lineMessage env a data messageId timestamp ref)
          later =
        { result := .ok (), state := node, trace := [] } := by
  obtain ⟨hn, ht, hd, hid, _⟩ := lineMessage_props env a data messageId timestamp ref
  have hvalid := lineMessage_valid env a data messageId timestamp ref hdata hsig
  obtain ⟨pa, hpa, hpa1, hpa2⟩ := peers_of_one a.peers toB ha
  obtain ⟨pb1, pb2, hpb, hpb1, hpb2, hpb3, hpb4⟩ := peers_of_two b.peers fromA toC hb
  obtain ⟨pc, hpc, hpc1, hpc2⟩ := peers_of_one c.peers fromB hc
  have hbnew2 : mapHas b.seenMessages
      ((lineMessage env a data messageId timestamp ref).prop "messageId") = false := by
    rw [hid]
    exact hbnew
  have hcnew2 : mapHas c.seenMessages
      ((lineMessage env a data messageId timestamp ref).prop "messageId") = false := by
    rw [hid]
    exact hcnew
  have hbret2 : ∀ g ∈ (topicHandlers b.topics
      ((lineMessage env a data messageId timestamp ref).prop "topic")).getD [],
      env.callback g ((lineMessage env a data messageId timestamp ref).prop "data") = none := by
    rw [ht, hd]
    exact hbret
  have hcret2 : ∀ g ∈ (topicHandlers c.topics
      ((lineMessage env a data messageId timestamp ref).prop "topic")).getD [],
      env.callback g ((lineMessage env a data messageId timestamp ref).prop "data") = none := by
    rw [ht, hd]
    exact hcret
  have hB := handleGossipMessage_delivers env b fromA _ nowB hn hbnew2 hvalid hbret2
  have hC := handleGossipMessage_delivers env c fromB _ nowC hn hcnew2 hvalid hcret2
  rw [ht, hd] at hB hC
  have hne : (toC != fromA) = true := by
    simpa using fun h => hdistinct h.symm
  refine ⟨⟨?_, ?_⟩, ⟨hB.1, hB.2.1, ?_⟩, ⟨hC.1, hC.2.1, ?_⟩, ?_⟩
  · simp [lineRun, broadcast, sends_sendEach, hpa, hpa1, hpa2, lineMessage]
  · simp only [invocationsOf, lineRun, broadcast, invocations_sendEach]
  · have h := hB.2.2
    simp only [hpb, List.filter, hpb1, hpb2, hpb3, hpb4, hne, bne_self_eq_false, Bool.and_false,
      Bool.and_true, List.map] at h
    exact h
  · have h := hC.2.2
    simp only [hpc, List.filter, hpc1, hpc2, bne_self_eq_false, Bool.and_false,
      List.map] at h
    exact h
  · intro node fromPeer later hnode
    refine handleGossipMessage_dropped env node fromPeer _ later hn (Or.inl ?_)
    rw [hid]
    rcases hnode with h | h | h
    · rw [h]
      show mapHas (broadcast env a (.str "t") data messageId timestamp nowA ref).state.seenMessages
        (.str messageId) = true
      rw [broadcast_seenMessages]
      exact mapHas_mapSet_self _ _ _
    · rw [h, ← hid]
      exact handleGossipMessage_seen_after env b fromA _ nowB hn hvalid
    · rw [h, ← hid]
      exact handleGossipMessage_seen_after env c fromB _ nowC hn hvalid

/-- An instance of C27 as the code has it: the sample line. -/
theorem line_propagation_witness :
    invocationsOf sampleLineRun.atA = [] ∧
    invocationsOf sampleLineRun.atB = [(6, .str "x")] ∧
    invocationsOf sampleLineRun.atC = [(8, .str "x")] :=
  have h := line_propagation sampleEnv sampleLineA sampleLineB sampleLineC 11 21 22 31
    (.str "x") "id-9" 1000 1000 1010 1020 110 (by decide) (by decide) (by decide) (by decide)
    (by decide) (by decide) (by decide) (by decide) (by decide) (by decide)
  ⟨h.1.2, h.2.1.2.1, h.2.2.1.2.1⟩

/-! ## Messages without a messageId -/

/-- C36: `validateGossipMessage` does not ask for a `messageId`, and a message
without one is looked up and recorded in `seenMessages` under the key
`undefined`. So once a valid message without a `messageId` has been handled,
`seenMessages` has the key `undefined`, and in every state that has this key
every message without a `messageId` is dropped as a duplicate, whatever its
topic, payload or sender: nothing is delivered or forwarded and the node is
unchanged. The entry stays until a `cleanupSeenMessages` that runs more than
300000 ms after it was recorded deletes it. -/
theorem handleGossipMessage_missing_id_shared_slot (env : Env) (self : ValidatorP2P)
    (first : JsVal) (fromPeer : Nat) (now : Int)
    (hn : first.isNullish = false)
    (hid : first.prop "messageId" = .undefined)
    (hvalid : validateGossipMessage first = .ok true) :
    mapHas (handleGossipMessage env self fromPeer first now).state.seenMessages .undefined =
      true ∧
    (∀ (node : ValidatorP2P) (later : JsVal) (sender : Nat) (time : Int),
      mapHas node.seenMessages .undefined = true →
      later.isNullish = false → later.prop "messageId" = .undefined →
      handleGossipMessage env node sender later time =
        { result := .ok (), state := node, trace := [] }) ∧
    (∀ (later : JsVal) (sender : Nat) (time : Int),
      later.isNullish = false → later.prop "messageId" = .undefined →
      handleGossipMessage env (handleGossipMessage env self fromPeer first now).state sender
          later time =
        { result := .ok (), state := (handleGossipMessage env self fromPeer first now).state,
          trace := [] }) ∧
    (∀ (node : ValidatorP2P) (cleanedAt : Int),
      (∀ e ∈ node.seenMessages, e.1.strictEq .undefined = true → cleanedAt - e.2 > 300000) →
      mapHas (cleanupSeenMessages node cleanedAt).seenMessages .undefined = false) := by
  have hseen := handleGossipMessage_seen_after env self fromPeer first now hn hvalid
  rw [hid] at hseen
  have hdrop : ∀ (node : ValidatorP2P) (later : JsVal) (sender : Nat) (time : Int),
      mapHas node.seenMessages .undefined = true →
      later.isNullish = false → later.prop "messageId" = .undefined →
      handleGossipMessage env node sender later time =
        { result := .ok (), state := node, trace := [] } := by
    intro node later sender time hnode hlater hlid
    refine handleGossipMessage_dropped env node sender later time hlater (Or.inl ?_)
    rw [hlid]
    exact hnode
  refine ⟨hseen, hdrop, ?_, ?_⟩
  · intro later sender time hlater hlid
    exact hdrop _ later sender time hseen hlater hlid
  · intro node cleanedAt hold
    cases hh : mapHas (cleanupSeenMessages node cleanedAt).seenMessages .undefined with
    | false => rfl
    | true =>
      obtain ⟨e, he, hk⟩ := (mapHas_iff _ _).1 hh
      have hmem := (mem_cleanupSeenMessages node cleanedAt e).1 he
      have := hold e hmem.1 hk
      omega

/-- An instance of C36: after a message without a `messageId` on topic `t`,
a message without a `messageId` on topic `u`, with another payload and from
another peer, is dropped, although it is valid and the node never saw it. -/
theorem handleGossipMessage_missing_id_shared_slot_witness :
    validateGossipMessage sampleOtherNoIdMessage = .ok true ∧
    handleGossipMessage sampleEnv
        (handleGossipMessage sampleEnv sampleQuietNode 1 sampleNoIdMessage 1000).state 2
        sampleOtherNoIdMessage 2000 =
      { result := .ok (),
        state := (handleGossipMessage sampleEnv sampleQuietNode 1 sampleNoIdMessage 1000).state,
        trace := [] } :=
  ⟨by decide,
    (handleGossipMessage_missing_id_shared_slot sampleEnv sampleQuietNode sampleNoIdMessage 1
      1000 (by decide) (by decide) (by decide)).2.2.1 sampleOtherNoIdMessage 2 2000
      (by decide) (by decide)⟩

/-! ## The envelope of a broadcast -/

theorem envelope_props (ref : Nat) (topic data : JsVal) (messageId signature : String)
    (timestamp : Int) :
    (envelope ref topic data messageId signature timestamp).isNullish = false ∧
    (envelope ref topic data messageId signature timestamp).prop "topic" = topic ∧
    (envelope ref topic data messageId signature timestamp).prop "data" = data ∧
    (envelope ref topic data messageId signature timestamp).prop "signature" =
      .str signature := by
  refine ⟨rfl, ?_, ?_, ?_⟩ <;> simp [envelope, JsVal.prop, List.lookup]

/-- C37: when the SHA-256 digest in hexadecimal has 64 characters, the envelope
that `broadcast` returns for a non-empty topic and a truthy payload passes
`validateGossipMessage` (which reads nothing of the node that runs it) when
the topic is not `"/eth2/beacon_block"`; for the topic `"/eth2/beacon_block"`
the outcome of `validateGossipMessage` is that of `validateBlock` on the
payload, so the envelope is accepted exactly when the block is. -/
theorem broadcast_envelope_valid (env : Env) (self : ValidatorP2P) (topic : String)
    (data : JsVal) (messageId : String) (timestamp now : Int) (ref : Nat)
    (hsig : utf16Length (sign env self data) = 64)
    (htopic : topic ≠ "")
    (hdata : data.truthy = true) :
    (broadcast env self (.str topic) data messageId timestamp now ref).result.map
        Broadcast.message =
      .ok (envelope ref (.str topic) data messageId (sign env self data) timestamp) ∧
    (topic ≠ "/eth2/beacon_block" →
      validateGossipMessage
          (envelope ref (.str topic) data messageId (sign env self data) timestamp) =
        .ok true) ∧
    (topic = "/eth2/beacon_block" →
      validateGossipMessage
          (envelope ref (.str topic) data messageId (sign env self data) timestamp) =
        validateBlock data) ∧
    (topic = "/eth2/beacon_block" →
      (validateGossipMessage
          (envelope ref (.str topic) data messageId (sign env self data) timestamp) =
        .ok true ↔ validateBlock data = .ok true)) := by
  obtain ⟨hn, ht, hd, hs⟩ :=
    envelope_props ref (.str topic) data messageId (sign env self data) timestamp
  have hne : sign env self data ≠ "" := by
    intro h
    rw [h] at hsig
    simp [utf16Length] at hsig
  have hrun : validateGossipMessage
      (envelope ref (.str topic) data messageId (sign env self data) timestamp) =
      if topic = "/eth2/beacon_block" then validateBlock data else .ok true := by
    have htt : (JsVal.str topic).truthy = true := by simp [JsVal.truthy, htopic]
    have hst : (JsVal.str (sign env self data)).truthy = true := by simp [JsVal.truthy, hne]
    have hv : (verifySignature data (.str (sign env self data))).truthy = true := by
      simp [verifySignature, JsVal.truthy, hne, JsVal.prop, JsVal.strictEq, hsig]
    have heq : (JsVal.str topic).strictEq (.str "/eth2/beacon_block") =
        decide (topic = "/eth2/beacon_block") := by
      by_cases h : topic = "/eth2/beacon_block" <;> simp [JsVal.strictEq, h]
    simp only [validateGossipMessage, get_of_isNullish_false hn, ht, hd, hs, htt, hdata, hst,
      hv, heq]
    by_cases h : topic = "/eth2/beacon_block" <;> simp [h]
  refine ⟨?_, ?_, ?_, ?_⟩
  · rw [broadcast_result]
    rfl
  · intro h
    rw [hrun, if_neg h]
  · intro h
    rw [hrun, if_pos h]
  · intro h
    rw [hrun, if_pos h]

/-- An instance of C37: a broadcast of a block for slot 100 on the block
topic is accepted, and a broadcast of a block for slot 0 is not. -/
theorem broadcast_envelope_valid_witness :
    validateGossipMessage
        (envelope 130 (.str "/eth2/beacon_block") sampleBlock "id-8"
          (sign sampleEnv sampleNode sampleBlock) 1000) = .ok true ∧
    validateGossipMessage
        (envelope 131 (.str "/eth2/beacon_block") sampleGenesisBlock "id-9"
          (sign sampleEnv sampleNode sampleGenesisBlock) 1000) = .ok false :=
  ⟨((broadcast_envelope_valid sampleEnv sampleNode "/eth2/beacon_block" sampleBlock "id-8" 1000
      1000 130 (by decide) (by decide) (by decide)).2.2.1 rfl).trans (by decide),
    by decide⟩

/-! ## Topics without subscribers -/

/-- C38: a valid GOSSIP message that the node has not seen, on a topic that has
no subscriber on this node (the node does not have the topic, or has it with
no handler): `handleGossipMessage` returns without throwing, records the
messageId in `seenMessages` with the current time, calls no callback, and
sends the message to every alive peer other than the sender, each once. -/
theorem handleGossipMessage_no_subscribers (env : Env) (self : ValidatorP2P)
    (fromPeer : Nat) (message : JsVal) (now : Int)
    (hg : message.get "type" = .ok (.str "GOSSIP"))
    (hunseen : mapHas self.seenMessages (message.prop "messageId") = false)
    (hvalid : validateGossipMessage message = .ok true)
    (hnone : (topicHandlers self.topics (message.prop "topic")).getD [] = []) :
    (handleGossipMessage env self fromPeer message now).result = .ok () ∧
    (handleGossipMessage env self fromPeer message now).state.seenMessages =
      mapSet self.seenMessages (message.prop "messageId") now ∧
    mapGet (handleGossipMessage env self fromPeer message now).state.seenMessages
      (message.prop "messageId") = some now ∧
    invocations (handleGossipMessage env self fromPeer message now).trace = [] ∧
    sends (handleGossipMessage env self fromPeer message now).trace =
      (self.peers.filter fun p => p.isAlive && p.ref != fromPeer).map
        fun p => (p.ref, message) := by
  have hn := isNullish_of_type hg
  have hret : ∀ g ∈ (topicHandlers self.topics (message.prop "topic")).getD [],
      env.callback g (message.prop "data") = none := by
    rw [hnone]
    intro g hg
    cases hg
  have h := handleGossipMessage_delivers env self fromPeer message now hn hunseen hvalid hret
  rw [hnone] at h
  have hstate : (handleGossipMessage env self fromPeer message now).state.seenMessages =
      mapSet self.seenMessages (message.prop "messageId") now := by
    rcases handleGossipMessage_cases env self fromPeer message now with hc | hc
    · rw [handleGossipMessage_fresh env self fromPeer message now hn hunseen hvalid]
      simp only
      split <;> rfl
    · exact hc.2
  refine ⟨h.1, hstate, ?_, h.2.1, h.2.2⟩
  rw [hstate]
  exact mapGet_mapSet_self _ _ _

/-- An instance of C38: a message on topic `u`, to which the sample node has
no subscriber, is recorded and forwarded to peer 2 when it comes from peer 1. -/
theorem handleGossipMessage_no_subscribers_witness :
    (handleGossipMessage sampleEnv sampleQuietNode 1 sampleUnheardMessage 1000).result =
      .ok () ∧
    invocations (handleGossipMessage sampleEnv sampleQuietNode 1 sampleUnheardMessage
      1000).trace = [] ∧
    sends (handleGossipMessage sampleEnv sampleQuietNode 1 sampleUnheardMessage 1000).trace =
      [(2, sampleUnheardMessage)] :=
  have h := handleGossipMessage_no_subscribers sampleEnv sampleQuietNode 1 sampleUnheardMessage
    1000 (by decide) (by decide) (by decide) (by decide)
  ⟨h.1, h.2.2.2.1, h.2.2.2.2.trans (by decide)⟩

end P2P

namespace Randao

/-! ## Hexadecimal numerals -/

theorem digitOf_hexChar : ∀ d < 16, P2P.digitOf 16 (hexChar d) = some d := by
  decide

theorem isJsWhiteSpace_hexChar : ∀ d < 16, P2P.isJsWhiteSpace (hexChar d) = false := by
  decide

theorem toHexCore_append (fuel : Nat) :
    ∀ (n : Nat) (digits : List Char),
      toHexCore fuel n digits = toHexCore fuel n [] ++ digits := by
  induction fuel with
  | zero =>
    intro n digits
    rfl
  | succ fuel ih =>
    intro n digits
    unfold toHexCore
    split
    · rfl
    · rw [ih (n / 16) (hexChar (n % 16) :: digits), ih (n / 16) [hexChar (n % 16)]]
      simp

/-- Reading the digits of `n` and then `rest` is reading `rest` from the value
`n`. -/
theorem hexDigits_toHexCore (fuel : Nat) :
    ∀ (n : Nat) (rest : List Char), n < 16 ^ fuel →
      hexDigits (toHexCore fuel n [] ++ rest) 0 = hexDigits rest n := by
  induction fuel with
  | zero =>
    intro n rest hn
    have : n = 0 := by simpa using hn
    subst this
    rfl
  | succ fuel ih =>
    intro n rest hn
    unfold toHexCore
    split
    · rename_i hsmall
      simp [hexDigits, digitOf_hexChar n hsmall]
    · have hdiv : n / 16 < 16 ^ fuel := by
        rw [Nat.div_lt_iff_lt_mul (by decide)]
        rw [pow_succ] at hn
        exact hn
      have hmod : n % 16 < 16 := Nat.mod_lt _ (by decide)
      rw [toHexCore_append fuel (n / 16) [hexChar (n % 16)], List.append_assoc,
        ih (n / 16) _ hdiv]
      simp only [List.singleton_append, hexDigits, digitOf_hexChar _ hmod]
      rw [Nat.div_add_mod' n 16]
      rfl

theorem toHexCore_last (fuel n : Nat) :
    ∃ init, toHexCore (fuel + 1) n [] = init ++ [hexChar (n % 16)] := by
  unfold toHexCore
  split
  · rename_i hsmall
    exact ⟨[], by simp [Nat.mod_eq_of_lt hsmall]⟩
  · exact ⟨toHexCore fuel (n / 16) [], toHexCore_append fuel _ _⟩

/-- `BigInt` reads `"0x" + n.toString(16)` as `n`. -/
theorem bigIntOfHex_toHex (n : Nat) : bigIntOfHex ("0x" ++ toHex n) = some n := by
  obtain ⟨init, hinit⟩ := toHexCore_last n n
  have hlist : ("0x" ++ toHex n).toList = '0' :: 'x' :: toHexCore (n + 1) n [] := by
    simp [toHex, String.toList, String.data_append]
  have hws : P2P.isJsWhiteSpace (hexChar (n % 16)) = false :=
    isJsWhiteSpace_hexChar _ (Nat.mod_lt _ (by decide))
  have htrim : ((toHexCore (n + 1) n []).reverse.dropWhile P2P.isJsWhiteSpace).reverse =
      toHexCore (n + 1) n [] := by
    rw [hinit]
    simp [List.dropWhile, hws]
  have hne : (toHexCore (n + 1) n []).isEmpty = false := by
    rw [hinit]
    cases init <;> rfl
  have hlt : n < 16 ^ (n + 1) :=
    Nat.lt_of_lt_of_le (Nat.lt_pow_self (by decide : 1 < 16) n)
      (Nat.pow_le_pow_right (by decide) (Nat.le_succ n))
  have hval := hexDigits_toHexCore (n + 1) n [] hlt
  rw [List.append_nil] at hval
  simp only [bigIntOfHex, hlist, htrim, hne, hval]
  rfl

theorem with0x_toHex (n : Nat) : with0x ("0x" ++ toHex n) = "0x" ++ toHex n := by
  have hlist : ("0x" ++ toHex n).toList = '0' :: 'x' :: toHexCore (n + 1) n [] := by
    simp [toHex, String.toList, String.data_append]
  simp [with0x, startsWith0x, hlist]

/-- What `XOR` returns on two hexadecimal numerals. -/
theorem XOR_of_values (a b : String) (x y : Nat)
    (ha : bigIntOfHex (with0x a) = some x) (hb : bigIntOfHex (with0x b) = some y) :
    XOR a b = .ok ("0x" ++ toHex (x ^^^ y)) := by
  simp [XOR, ha, hb]

/-! ## The proposer -/

/-- The choice of `chooseValidator` does not read `targetRandoaMix`: it is the
element of `validators` whose index is the hash of the current `randaoMix`
and the slot, read as a hexadecimal integer, modulo the number of validators. -/
theorem chooseValidator_reads_current_mix (sha256Hex : String → String) (self : Chain)
    (epochNumber slotNumber : Int) (target : List String) :
    chooseValidator sha256Hex { self with targetRandoaMix := target } epochNumber slotNumber =
      chooseValidator sha256Hex self epochNumber slotNumber ∧
    chooseValidator sha256Hex self epochNumber slotNumber =
      match bigIntOfHex ("0x" ++ sha256Hex (self.randaoMix ++ toString slotNumber)) with
      | none => .error (.error "SyntaxError")
      | some value =>
        if self.validators.length = 0 then .error (.error "RangeError: Division by zero")
        else .ok (self.validators.get? (value % self.validators.length)) :=
  ⟨rfl, rfl⟩

set_option maxRecDepth 100000 in
/-- C31, evaluated where the code breaks it: the call `chooseValidator(3, 1)`
that the script makes, in the state it has then. The RANDAO mix recorded two
epochs ago is `targetRandoaMix[1]`, and its hash with the slot selects the
validator of index 8 (id 9). The code hashes the current `randaoMix` instead
and returns the validator of index 7 (id 8); with `randaoMix` set to another
value and `targetRandoaMix` unchanged it returns yet another validator. -/
theorem chooseValidator_hashes_current_mix :
    chosenRandao sampleChain 3 =
      some "0x2c749e26ec99639c78f0336e7185be4db169817a073386d484d4801c374aa7c9" ∧
    chooseValidatorFromTarget sampleSha256Hex sampleChain 3 1 =
      some { id := 9, secret := "private_key_9", stake := 32 } ∧
    chooseValidator sampleSha256Hex sampleChain 3 1 =
      .ok (some { id := 8, secret := "private_key_8", stake := 32 }) ∧
    chooseValidator sampleSha256Hex { sampleChain with randaoMix := "0x1" } 3 1 =
      .ok (some { id := 2, secret := "private_key_2", stake := 32 }) := by
  decide

/-- C40: when the seed is a hexadecimal numeral (as a SHA-256 digest in
hexadecimal is), `chooseValidator` returns an element of a non-empty validator
list, for every epoch and slot: the index, the seed read as a hexadecimal
integer modulo the length of the list, is below that length, so the lookup
does not give `undefined`. The modulo divides by zero, and the call throws,
exactly when the list is empty. -/
theorem chooseValidator_in_range (sha256Hex : String → String) (self : Chain)
    (epochNumber slotNumber : Int) (value : Nat)
    (hseed : bigIntOfHex ("0x" ++ hash sha256Hex self.randaoMix (toString slotNumber)) =
      some value) :
    (self.validators ≠ [] →
      value % self.validators.length < self.validators.length ∧
      ∃ v ∈ self.validators,
        self.validators.get? (value % self.validators.length) = some v ∧
        chooseValidator sha256Hex self epochNumber slotNumber = .ok (some v)) ∧
    (self.validators = [] ↔
      chooseValidator sha256Hex self epochNumber slotNumber =
        .error (.error "RangeError: Division by zero")) := by
  constructor
  · intro hne
    have hpos : 0 < self.validators.length := List.length_pos.2 hne
    have hlt : value % self.validators.length < self.validators.length := Nat.mod_lt _ hpos
    refine ⟨hlt, self.validators.get ⟨_, hlt⟩, List.get_mem _ _ _, ?_, ?_⟩
    · exact List.get?_eq_get hlt
    · simp only [chooseValidator, hseed, Nat.ne_of_gt hpos, if_false]
      rw [List.get?_eq_get hlt]
  · constructor
    · intro hnil
      simp [chooseValidator, hseed, hnil]
    · intro herr
      by_cases hlen : self.validators.length = 0
      · exact List.length_eq_zero.1 hlen
      · simp [chooseValidator, hseed, hlen] at herr

set_option maxRecDepth 100000 in
/-- An instance of C40: the call `chooseValidator(3, 1)` of the script. -/
theorem chooseValidator_in_range_witness :
    sampleChain.validators ≠ [] ∧
    chooseValidator sampleSha256Hex sampleChain 3 1 =
      .ok (some { id := 8, secret := "private_key_8", stake := 32 }) :=
  ⟨by decide,
    by
      obtain ⟨_, v, _, hget, hrun⟩ :=
        (chooseValidator_in_range sampleSha256Hex sampleChain 3 1
          0xc12b4a3e986c89cdb5b88c8900d7274971e9c4c2dbc1a5a38f1cc02cf60a9827
          (by decide)).1 (by decide)
      rw [hrun]
      have : v = { id := 8, secret := "private_key_8", stake := 32 } :=
        Option.some.inj (hget.symm.trans (by decide))
      rw [this]⟩

/-- C39: `XOR(a, b)` on two hexadecimal numerals, each with or without a
leading `0x`, returns `"0x"` followed by the hexadecimal form of the bitwise
exclusive-or of their values. So `XOR(a, b)` and `XOR(b, a)` are the same, and
`XOR(XOR(a, b), b)` has the value of `a`. When a validator proposes two blocks
in one epoch with no proposal of another validator in between, and the hash
that `signEpoch` gives is a hexadecimal numeral, both calls of `proposeBlock`
return and the value of `randaoMix` after the second is its value before the
first. -/
theorem proposeBlock_twice_restores (sha256Hex : String → String) (self : Chain)
    (epochNumber slot1 slot2 validatorId : Int) (proposer : Validator) (mix secret : Nat)
    (hfind : self.validators.find? (fun v => v.id == validatorId) = some proposer)
    (hmix : bigIntOfHex (with0x self.randaoMix) = some mix)
    (hsecret : bigIntOfHex (with0x (signEpoch sha256Hex epochNumber proposer)) = some secret) :
    (∀ (a b : String) (x y : Nat),
      bigIntOfHex (with0x a) = some x → bigIntOfHex (with0x b) = some y →
      XOR a b = .ok ("0x" ++ toHex (x ^^^ y)) ∧
      bigIntOfHex (with0x ("0x" ++ toHex (x ^^^ y))) = some (x ^^^ y) ∧
      XOR b a = XOR a b ∧
      XOR ("0x" ++ toHex (x ^^^ y)) b = .ok ("0x" ++ toHex x)) ∧
    (proposeBlock sha256Hex self epochNumber slot1 validatorId).1 =
      .ok ("0x" ++ toHex (mix ^^^ secret)) ∧
    (proposeBlock sha256Hex (proposeBlock sha256Hex self epochNumber slot1 validatorId).2
        epochNumber slot2 validatorId).1 = .ok ("0x" ++ toHex mix) ∧
    bigIntOfHex (with0x
      (proposeBlock sha256Hex (proposeBlock sha256Hex self epochNumber slot1 validatorId).2
        epochNumber slot2 validatorId).2.randaoMix) = some mix := by
  have hread : ∀ n : Nat, bigIntOfHex (with0x ("0x" ++ toHex n)) = some n := by
    intro n
    rw [with0x_toHex]
    exact bigIntOfHex_toHex n
  have hback : ∀ x y : Nat, (x ^^^ y) ^^^ y = x := by
    intro x y
    rw [Nat.xor_assoc, Nat.xor_self, Nat.xor_zero]
  have hfirst : proposeBlock sha256Hex self epochNumber slot1 validatorId =
      (.ok ("0x" ++ toHex (mix ^^^ secret)),
        { self with randaoMix := "0x" ++ toHex (mix ^^^ secret) }) := by
    simp only [proposeBlock, hfind, XOR_of_values _ _ mix secret hmix hsecret]
  have hsecond : proposeBlock sha256Hex
      { self with randaoMix := "0x" ++ toHex (mix ^^^ secret) } epochNumber slot2 validatorId =
      (.ok ("0x" ++ toHex mix), { self with randaoMix := "0x" ++ toHex mix }) := by
    have hx := XOR_of_values ("0x" ++ toHex (mix ^^^ secret))
      (signEpoch sha256Hex epochNumber proposer) (mix ^^^ secret) secret (hread _) hsecret
    rw [hback] at hx
    simp only [proposeBlock, hfind, hx]
  refine ⟨?_, ?_, ?_, ?_⟩
  · intro a b x y ha hb
    refine ⟨XOR_of_values a b x y ha hb, hread _, ?_, ?_⟩
    · rw [XOR_of_values a b x y ha hb, XOR_of_values b a y x hb ha, Nat.xor_comm]
    · have hx := XOR_of_values ("0x" ++ toHex (x ^^^ y)) b (x ^^^ y) y (hread _) hb
      rw [hback] at hx
      exact hx
  · rw [hfirst]
  · rw [hfirst, hsecond]
  · rw [hfirst, hsecond]
    exact hread mix

set_option maxRecDepth 100000 in
/-- An instance of C39: validator 8 proposes the blocks of slots 1 and 2 of
epoch 3; `randaoMix` is then the string it was before. -/
theorem proposeBlock_twice_restores_witness :
    (proposeBlock sampleSha256Hex (proposeBlock sampleSha256Hex sampleChain 3 1 8).2 3 2 8).1 =
      .ok "0x89cfe40d6649b3e3c01168871d0eec16dbc01736aed17ee1973f6131a46e0281" :=
  ((proposeBlock_twice_restores sampleSha256Hex sampleChain 3 1 2 8
    { id := 8, secret := "private_key_8", stake := 32 }
    0x89cfe40d6649b3e3c01168871d0eec16dbc01736aed17ee1973f6131a46e0281
    0xee0b6259ae8213a1441ac468e90db57a6c30c5e8fb6f182d21d5ad9cb72135db
    (by decide) (by decide) (by decide)).2.2.1).trans (by decide)

end Randao

namespace Blocks

/-! ## Rounding to a double -/

theorem halvings_of_small (fuel m : Nat) (h : m < 2 ^ 53) : halvings fuel m = 0 := by
  cases fuel with
  | zero => rfl
  | succ fuel =>
    unfold halvings
    rw [if_pos h]

theorem roundDouble_of_small (x : Int) (h : x.natAbs < 2 ^ 53) : roundDouble x = x := by
  unfold roundDouble
  simp only [halvings_of_small 1024 _ h, pow_zero, Nat.div_one, Nat.mod_one, Nat.mul_zero,
    Nat.mul_one]
  have hno : ¬(1 < 0 ∨ (0 = 1 ∧ x.natAbs % 2 = 1)) := by omega
  rw [if_neg hno]
  split
  · omega
  · omega

theorem halvings_quotient (fuel : Nat) :
    ∀ m : Nat, 2 ^ 52 ≤ m → 2 ^ 52 ≤ m / 2 ^ halvings fuel m := by
  induction fuel with
  | zero =>
    intro m h
    simpa [halvings] using h
  | succ fuel ih =>
    intro m h
    unfold halvings
    split
    · simpa using h
    · rename_i hbig
      have hhalf : 2 ^ 52 ≤ m / 2 := by omega
      have hdiv : m / 2 ^ (halvings fuel (m / 2) + 1) = m / 2 / 2 ^ halvings fuel (m / 2) := by
        rw [Nat.div_div_eq_div_mul, pow_succ, Nat.mul_comm]
      rw [hdiv]
      exact ih (m / 2) hhalf

/-- An integer of size `2 ^ 53` or more is rounded to one of that size. -/
theorem roundDouble_natAbs_of_big (x : Int) (h : 2 ^ 53 ≤ x.natAbs) :
    2 ^ 53 ≤ (roundDouble x).natAbs := by
  have hq := halvings_quotient 1024 x.natAbs (by omega)
  have he : 1 ≤ halvings 1024 x.natAbs := by
    unfold halvings
    rw [if_neg (by omega)]
    omega
  have hpow : 2 ≤ 2 ^ halvings 1024 x.natAbs := by
    calc 2 = 2 ^ 1 := rfl
      _ ≤ 2 ^ halvings 1024 x.natAbs := Nat.pow_le_pow_right (by decide) he
  have hmul : ∀ rounded : Nat, x.natAbs / 2 ^ halvings 1024 x.natAbs ≤ rounded →
      2 ^ 53 ≤ rounded * 2 ^ halvings 1024 x.natAbs := by
    intro rounded hr
    calc 2 ^ 53 = 2 ^ 52 * 2 := by norm_num
      _ ≤ rounded * 2 ^ halvings 1024 x.natAbs :=
        Nat.mul_le_mul (Nat.le_trans hq hr) hpow
  have key : ∀ rounded : Nat, x.natAbs / 2 ^ halvings 1024 x.natAbs ≤ rounded →
      2 ^ 53 ≤ (if x < 0 then -((rounded * 2 ^ halvings 1024 x.natAbs : Nat) : Int)
        else ((rounded * 2 ^ halvings 1024 x.natAbs : Nat) : Int)).natAbs := by
    intro rounded hr
    split
    · rw [Int.natAbs_neg, Int.natAbs_ofNat]
      exact hmul _ hr
    · rw [Int.natAbs_ofNat]
      exact hmul _ hr
  unfold roundDouble
  simp only
  apply key
  split
  · exact Nat.le_succ _
  · exact Nat.le_refl _

/-- A result below `2 ^ 53` in size is exact. -/
theorem roundDouble_exact_of_result_small (x : Int) (h : (roundDouble x).natAbs < 2 ^ 53) :
    roundDouble x = x := by
  apply roundDouble_of_small
  by_contra hbig
  have := roundDouble_natAbs_of_big x (by omega)
  omega

/-- Rounding keeps the sign. -/
theorem roundDouble_nonpos_iff (x : Int) : roundDouble x ≤ 0 ↔ x ≤ 0 := by
  by_cases hsmall : x.natAbs < 2 ^ 53
  · rw [roundDouble_of_small x hsmall]
  · have hbig := roundDouble_natAbs_of_big x (by omega)
    constructor
    · intro hr
      by_contra hx
      have hpos : ¬ x < 0 := by omega
      unfold roundDouble at hr hbig
      simp only [hpos, if_false] at hr hbig
      omega
    · intro hx
      have hneg : x < 0 := by omega
      unfold roundDouble
      simp only [hneg, if_true]
      omega

/-! ## Sorting -/

/-- What `sort` gives for the compare function `(a, b) => key(b) - key(a)`:
the same elements, with the keys in non-increasing order. -/
theorem sort_descending {α : Type} (key : α → Int) (array : List α) :
    (sort (fun a b => sub (key b) (key a)) array).Perm array ∧
    (sort (fun a b => sub (key b) (key a)) array).Pairwise (fun a b => key b ≤ key a) := by
  haveI : IsTotal α (fun a b => sub (key b) (key a) ≤ 0) :=
    ⟨fun a b => by
      simp only [sub, roundDouble_nonpos_iff]
      omega⟩
  haveI : IsTrans α (fun a b => sub (key b) (key a) ≤ 0) :=
    ⟨fun a b c h1 h2 => by
      simp only [sub, roundDouble_nonpos_iff] at h1 h2 ⊢
      omega⟩
  refine ⟨List.perm_insertionSort _ _, ?_⟩
  have hsorted := List.sorted_insertionSort (fun a b => sub (key b) (key a) ≤ 0) array
  refine List.Pairwise.imp ?_ hsorted
  intro a b h
  simp only [sub, roundDouble_nonpos_iff] at h
  omega

/-! ## The selection of transactions -/

theorem validateTransaction_iff (self : BlockBuilder) (tx : Transaction) :
    self.validateTransaction tx = true ↔
      (∀ balance, self.getBalance tx.sender = some balance →
        add tx.value (mul tx.gas tx.gasPrice) ≤ balance) ∧
      self.getNonce tx.sender = some tx.nonce := by
  unfold BlockBuilder.validateTransaction BlockBuilder.verifyTransactionSignature
  cases hbalance : self.getBalance tx.sender with
  | none =>
    cases hnonce : self.getNonce tx.sender with
    | none => simp
    | some nonce =>
      by_cases heq : tx.nonce = nonce
      · simp [heq]
      · have hne : ¬ nonce = tx.nonce := fun h => heq h.symm
        simp [heq, hne]
  | some balance =>
    by_cases hcost : add tx.value (mul tx.gas tx.gasPrice) > balance
    · simp [hcost]
    · cases hnonce : self.getNonce tx.sender with
      | none => simp [hcost]
      | some nonce =>
        by_cases heq : tx.nonce = nonce
        · simp [hcost, heq]
          omega
        · have hne : ¬ nonce = tx.nonce := fun h => heq h.symm
          simp [hcost, heq, hne]

theorem selectLoop_cons (self : BlockBuilder) (tx : Transaction) (rest : List Transaction)
    (selected : List Transaction) (gasUsed : Int) :
    selectLoop self (tx :: rest) selected gasUsed =
      if add gasUsed tx.gas ≤ GAS_LIMIT ∧ self.validateTransaction tx = true then
        if add gasUsed tx.gas ≥ 28500000 then (selected ++ [tx], add gasUsed tx.gas)
        else selectLoop self rest (selected ++ [tx]) (add gasUsed tx.gas)
      else
        if gasUsed ≥ 28500000 then (selected, gasUsed)
        else selectLoop self rest selected gasUsed := by
  rw [selectLoop]
  by_cases hfit : add gasUsed tx.gas ≤ GAS_LIMIT
  · cases hvalid : self.validateTransaction tx
    · simp [hfit]
    · simp [hfit]
  · simp [hfit]

/-- The loop of `selectTransactions` adds to `selected` some of the
transactions it visits, in the order in which it visits them, and each of
them passes `validateTransaction`. -/
theorem selectLoop_picks (self : BlockBuilder) (txs : List Transaction) :
    ∀ (selected : List Transaction) (gasUsed : Int),
      ∃ picked, (selectLoop self txs selected gasUsed).1 = selected ++ picked ∧
        picked.Sublist txs ∧ ∀ tx ∈ picked, self.validateTransaction tx = true := by
  induction txs with
  | nil =>
    intro selected gasUsed
    exact ⟨[], by simp [selectLoop], List.Sublist.refl _, fun tx h => by cases h⟩
  | cons tx rest ih =>
    intro selected gasUsed
    rw [selectLoop_cons]
    by_cases hsel : add gasUsed tx.gas ≤ GAS_LIMIT ∧ self.validateTransaction tx = true
    · rw [if_pos hsel]
      by_cases hfull : add gasUsed tx.gas ≥ 28500000
      · rw [if_pos hfull]
        refine ⟨[tx], rfl, List.Sublist.cons₂ _ (List.nil_sublist _), ?_⟩
        intro t ht
        rw [List.mem_singleton.1 ht]
        exact hsel.2
      · rw [if_neg hfull]
        obtain ⟨picked, h1, h2, h3⟩ := ih (selected ++ [tx]) (add gasUsed tx.gas)
        refine ⟨tx :: picked, ?_, List.Sublist.cons₂ _ h2, ?_⟩
        · rw [h1]
          simp
        · intro t ht
          rcases List.mem_cons.1 ht with h | h
          · rw [h]
            exact hsel.2
          · exact h3 t h
    · rw [if_neg hsel]
      by_cases hfull : gasUsed ≥ 28500000
      · rw [if_pos hfull]
        exact ⟨[], by simp, List.nil_sublist _, fun t h => by cases h⟩
      · rw [if_neg hfull]
        obtain ⟨picked, h1, h2, h3⟩ := ih selected gasUsed
        exact ⟨picked, h1, List.Sublist.cons _ h2, h3⟩

/-- The loop of `selectTransactions` keeps `gasUsed` equal to the sum of the
gas of `selected`, and between 0 and `GAS_LIMIT`, when no gas is negative. -/
theorem selectLoop_gas (self : BlockBuilder) (txs : List Transaction) :
    ∀ (selected : List Transaction) (gasUsed : Int),
      (∀ tx ∈ txs, 0 ≤ tx.gas) → 0 ≤ gasUsed → gasUsed ≤ GAS_LIMIT →
      gasUsed = (selected.map Transaction.gas).sum →
      (selectLoop self txs selected gasUsed).2 =
          ((selectLoop self txs selected gasUsed).1.map Transaction.gas).sum ∧
        0 ≤ (selectLoop self txs selected gasUsed).2 ∧
        (selectLoop self txs selected gasUsed).2 ≤ GAS_LIMIT := by
  induction txs with
  | nil =>
    intro selected gasUsed _ h0 hle hsum
    exact ⟨hsum, h0, hle⟩
  | cons tx rest ih =>
    intro selected gasUsed hgas h0 hle hsum
    have htx : 0 ≤ tx.gas := hgas tx (List.mem_cons_self _ _)
    have hrest : ∀ t ∈ rest, 0 ≤ t.gas := fun t ht => hgas t (List.mem_cons_of_mem _ ht)
    rw [selectLoop_cons]
    by_cases hsel : add gasUsed tx.gas ≤ GAS_LIMIT ∧ self.validateTransaction tx = true
    · rw [if_pos hsel]
      have hfit := hsel.1
      have hexact : add gasUsed tx.gas = gasUsed + tx.gas := by
        unfold add at hfit ⊢
        apply roundDouble_exact_of_result_small
        have hpos : 0 ≤ roundDouble (gasUsed + tx.gas) := by
          by_contra hneg
          have hnp : roundDouble (gasUsed + tx.gas) ≤ 0 := by omega
          have := (roundDouble_nonpos_iff _).1 hnp
          have hzero : gasUsed + tx.gas = 0 := by omega
          rw [hzero] at hneg
          exact hneg (by decide)
        unfold GAS_LIMIT at hfit
        omega
      have hsum2 : add gasUsed tx.gas = ((selected ++ [tx]).map Transaction.gas).sum := by
        rw [hexact, hsum]
        simp
      have h02 : 0 ≤ add gasUsed tx.gas := by
        rw [hexact]
        omega
      by_cases hfull : add gasUsed tx.gas ≥ 28500000
      · rw [if_pos hfull]
        exact ⟨hsum2, h02, hfit⟩
      · rw [if_neg hfull]
        exact ih _ _ hrest h02 hfit hsum2
    · rw [if_neg hsel]
      by_cases hfull : gasUsed ≥ 28500000
      · rw [if_pos hfull]
        exact ⟨hsum, h0, hle⟩
      · rw [if_neg hfull]
        exact ih _ _ hrest h0 hle hsum

/-- C32: for every mempool whose transactions have non-negative gas,
`selectTransactions` returns a `gas_used` that is the sum of the gas of the
transactions it selected, and `gas_used ≤ gas_limit = 30000000`. The
transactions it returns are the serialisations of the selected ones. -/
theorem selectTransactions_gas (stringify : Transaction → String) (self : BlockBuilder)
    (timestamp : Int) (hgas : ∀ tx ∈ self.mempool, 0 ≤ tx.gas) :
    (self.selectTransactions stringify timestamp).1.gas_used =
      ((self.selectTransactions stringify timestamp).1.selected.map Transaction.gas).sum ∧
    (self.selectTransactions stringify timestamp).1.gas_used ≤
      (self.selectTransactions stringify timestamp).1.gas_limit ∧
    (self.selectTransactions stringify timestamp).1.gas_limit = 30000000 ∧
    (self.selectTransactions stringify timestamp).1.transactions =
      (self.selectTransactions stringify timestamp).1.selected.map stringify := by
  have hperm := (sort_descending Transaction.gasPrice self.mempool).1
  have hsorted : ∀ tx ∈ sort (fun a b => sub b.gasPrice a.gasPrice) self.mempool, 0 ≤ tx.gas :=
    fun tx htx => hgas tx (hperm.mem_iff.1 htx)
  have h := selectLoop_gas
    { self with mempool := sort (fun a b => sub b.gasPrice a.gasPrice) self.mempool }
    (sort (fun a b => sub b.gasPrice a.gasPrice) self.mempool) [] 0 hsorted (le_refl 0)
    (by decide) rfl
  exact ⟨h.1, h.2.2, rfl, rfl⟩

set_option maxRecDepth 100000 in
/-- An instance of C32: the mempool of the demo. The three transactions are
selected and use 242000 gas. -/
theorem selectTransactions_gas_witness :
    (sampleBuilder.selectTransactions sampleStringify 0).1.gas_used = 242000 ∧
    ((sampleBuilder.selectTransactions sampleStringify 0).1.selected.map Transaction.gas).sum =
      242000 :=
  ⟨by decide,
    (selectTransactions_gas sampleStringify sampleBuilder 0 (by decide)).1.symm.trans
      (by decide)⟩

/-- What holds of the transactions that `selectTransactions` selects: each
passes `validateTransaction` in the state of the builder, which the selection
does not change. `validateTransaction` passes exactly when the cost
`value + gas * gasPrice`, as JavaScript computes it in doubles, does not
exceed the balance of the sender where that is a number, and the nonce is the
current nonce of the sender; the computed cost is the exact cost when that is
below `2 ^ 53` in size, and only then is the exact cost known to be within the
balance. -/
theorem selectTransactions_selected_valid (stringify : Transaction → String)
    (self : BlockBuilder) (timestamp : Int) :
    (∀ tx ∈ (self.selectTransactions stringify timestamp).1.selected,
      self.validateTransaction tx = true ∧
      (∀ balance, self.getBalance tx.sender = some balance →
        add tx.value (mul tx.gas tx.gasPrice) ≤ balance) ∧
      self.getNonce tx.sender = some tx.nonce ∧
      ((tx.gas * tx.gasPrice).natAbs < 2 ^ 53 →
        (tx.value + tx.gas * tx.gasPrice).natAbs < 2 ^ 53 →
        ∀ balance, self.getBalance tx.sender = some balance →
          tx.value + tx.gas * tx.gasPrice ≤ balance)) ∧
    (∀ tx : Transaction,
      self.validateTransaction tx = true ↔
        (∀ balance, self.getBalance tx.sender = some balance →
          add tx.value (mul tx.gas tx.gasPrice) ≤ balance) ∧
        self.getNonce tx.sender = some tx.nonce) ∧
    (∀ tx : Transaction, self.validateTransaction tx = false →
      tx ∉ (self.selectTransactions stringify timestamp).1.selected) ∧
    (self.selectTransactions stringify timestamp).2.state = self.state := by
  obtain ⟨picked, hpicked, _, hvalid⟩ := selectLoop_picks
    { self with mempool := sort (fun a b => sub b.gasPrice a.gasPrice) self.mempool }
    (sort (fun a b => sub b.gasPrice a.gasPrice) self.mempool) [] 0
  have hsel : (self.selectTransactions stringify timestamp).1.selected = picked := by
    show (selectLoop _ _ [] 0).1 = picked
    rw [hpicked]
    rfl
  have hpass : ∀ tx ∈ (self.selectTransactions stringify timestamp).1.selected,
      self.validateTransaction tx = true := by
    intro tx htx
    rw [hsel] at htx
    exact hvalid tx htx
  refine ⟨?_, validateTransaction_iff self, ?_, rfl⟩
  · intro tx htx
    have hv := hpass tx htx
    obtain ⟨hcost, hnonce⟩ := (validateTransaction_iff self tx).1 hv
    refine ⟨hv, hcost, hnonce, ?_⟩
    intro h1 h2 balance hbalance
    have e1 : mul tx.gas tx.gasPrice = tx.gas * tx.gasPrice := roundDouble_of_small _ h1
    have e2 : add tx.value (tx.gas * tx.gasPrice) = tx.value + tx.gas * tx.gasPrice :=
      roundDouble_of_small _ h2
    have hle := hcost balance hbalance
    rw [e1, e2] at hle
    exact hle
  · intro tx hfalse hmem
    have := hpass tx hmem
    rw [hfalse] at this
    cases this

/-- C33, evaluated where the code breaks it: the sender of
`sampleCostlyTransaction` has the balance 1000000000000000000 and the current
nonce 5, and the transaction costs `value + gas * gasPrice` =
1000000000000000008, which is 8 more than the balance. `gas * gasPrice` is
computed exactly, and the sum is rounded to the nearest double, which is the
balance itself; so the test `cost > balance` of check 2 is false,
`validateTransaction` returns true, and `selectTransactions` selects the
transaction, although its sender cannot pay it. -/
theorem selectTransactions_selects_cost_above_balance :
    sampleCostlyBuilder.getBalance sampleCostlyTransaction.sender =
      some 1000000000000000000 ∧
    sampleCostlyBuilder.getNonce sampleCostlyTransaction.sender =
      some sampleCostlyTransaction.nonce ∧
    sampleCostlyTransaction.value + sampleCostlyTransaction.gas * sampleCostlyTransaction.gasPrice =
      1000000000000000008 ∧
    mul sampleCostlyTransaction.gas sampleCostlyTransaction.gasPrice = 21000000021000 ∧
    add sampleCostlyTransaction.value
      (mul sampleCostlyTransaction.gas sampleCostlyTransaction.gasPrice) =
      1000000000000000000 ∧
    sampleCostlyBuilder.validateTransaction sampleCostlyTransaction = true ∧
    (sampleCostlyBuilder.selectTransactions sampleStringify 0).1.selected =
      [sampleCostlyTransaction] ∧
    (sampleCostlyBuilder.selectTransactions sampleStringify 0).1.gas_used = 21000 := by
  decide

/-- C34: `selectTransactions` lists the selected transactions highest gas
price first. The mempool is sorted in place, so afterwards it holds the same
transactions as before, in non-increasing order of `gasPrice`; the selected
transactions are a subsequence of it, and so are in non-increasing order of
`gasPrice` as well. -/
theorem selectTransactions_order (stringify : Transaction → String) (self : BlockBuilder)
    (timestamp : Int) :
    (self.selectTransactions stringify timestamp).2.mempool =
      sort (fun a b => sub b.gasPrice a.gasPrice) self.mempool ∧
    (self.selectTransactions stringify timestamp).2.mempool.Perm self.mempool ∧
    (self.selectTransactions stringify timestamp).2.mempool.Pairwise
      (fun a b => b.gasPrice ≤ a.gasPrice) ∧
    (self.selectTransactions stringify timestamp).1.selected.Sublist
      (self.selectTransactions stringify timestamp).2.mempool ∧
    (self.selectTransactions stringify timestamp).1.selected.Pairwise
      (fun a b => b.gasPrice ≤ a.gasPrice) := by
  obtain ⟨hperm, hsorted⟩ := sort_descending Transaction.gasPrice self.mempool
  obtain ⟨picked, hpicked, hsub, _⟩ := selectLoop_picks
    { self with mempool := sort (fun a b => sub b.gasPrice a.gasPrice) self.mempool }
    (sort (fun a b => sub b.gasPrice a.gasPrice) self.mempool) [] 0
  have hsel : (self.selectTransactions stringify timestamp).1.selected = picked := by
    show (selectLoop _ _ [] 0).1 = picked
    rw [hpicked]
    rfl
  refine ⟨rfl, hperm, hsorted, ?_, ?_⟩
  · rw [hsel]
    exact hsub
  · rw [hsel]
    exact hsorted.sublist hsub

/-! ## The selection of attestations -/

theorem isRecent_iff (self : BlockBuilder) (att : Attestation) :
    self.isRecent att = true ↔
      ∃ currentSlot, self.currentSlot = some currentSlot ∧
        0 ≤ currentSlot - att.slot ∧ currentSlot - att.slot ≤ 32 := by
  unfold BlockBuilder.isRecent
  cases hc : self.currentSlot with
  | none => simp
  | some c =>
    simp only [Bool.and_eq_true, decide_eq_true_eq, Option.some.injEq, exists_eq_left', sub]
    constructor
    · rintro ⟨h0, h32⟩
      have hexact : roundDouble (c - att.slot) = c - att.slot :=
        roundDouble_exact_of_result_small _ (by omega)
      rw [hexact] at h0 h32
      exact ⟨h0, h32⟩
    · rintro ⟨h0, h32⟩
      have hexact : roundDouble (c - att.slot) = c - att.slot :=
        roundDouble_of_small _ (by omega)
      rw [hexact]
      exact ⟨h0, h32⟩

/-- C35: `selectAttestations` returns at most 128 attestations of the pool,
each of an age `currentSlot - data.slot` from 0 to 32, in non-increasing order
of the number of characters `1` in `aggregation_bits`. The attestations of
that age range that it leaves out have no more votes than each selected one
(together with the selected ones they are the attestations of the pool in
that age range), and the pool is not modified. -/
theorem selectAttestations_top (self : BlockBuilder) :
    self.selectAttestations.1.length ≤ 128 ∧
    (∀ att ∈ self.selectAttestations.1,
      att ∈ self.attestationPool ∧
      ∃ currentSlot, self.currentSlot = some currentSlot ∧
        0 ≤ currentSlot - att.slot ∧ currentSlot - att.slot ≤ 32) ∧
    self.selectAttestations.1.Pairwise
      (fun a b => self.countBits b.aggregation_bits ≤ self.countBits a.aggregation_bits) ∧
    (∃ rest,
      (self.selectAttestations.1 ++ rest).Perm (self.attestationPool.filter self.isRecent) ∧
      ∀ out ∈ rest, ∀ att ∈ self.selectAttestations.1,
        self.countBits out.aggregation_bits ≤ self.countBits att.aggregation_bits) ∧
    self.selectAttestations.2 = self := by
  obtain ⟨hperm, hsorted⟩ := sort_descending
    (fun att : Attestation => self.countBits att.aggregation_bits)
    (self.attestationPool.filter self.isRecent)
  have hsplit := List.take_append_drop 128
    (sort (fun a b => sub (self.countBits b.aggregation_bits)
      (self.countBits a.aggregation_bits)) (self.attestationPool.filter self.isRecent))
  have hsel : self.selectAttestations.1 =
      (sort (fun a b => sub (self.countBits b.aggregation_bits)
        (self.countBits a.aggregation_bits))
        (self.attestationPool.filter self.isRecent)).take 128 := rfl
  rw [← hsplit] at hsorted hperm
  rw [← hsel] at hsorted hperm
  obtain ⟨hfirst, _, hcross⟩ := List.pairwise_append.1 hsorted
  refine ⟨?_, ?_, hfirst, ⟨_, hperm, ?_⟩, rfl⟩
  · rw [hsel]
    exact List.length_take_le _ _
  · intro att hatt
    have hmem : att ∈ self.attestationPool.filter self.isRecent :=
      hperm.mem_iff.1 (List.mem_append_left _ hatt)
    rw [List.mem_filter] at hmem
    exact ⟨hmem.1, (isRecent_iff self att).1 hmem.2⟩
  · intro out hout att hatt
    exact hcross att hatt out hout

/-- A sender named as a member of `Object.prototype`, with no balance of its
own in the state: `getBalance` gives no number, check 2 compares the cost with
NaN and passes, and the transaction is selected when the nonce agrees. -/
theorem selectTransactions_inherited_balance :
    sampleInheritedBuilder.getBalance "constructor" = none ∧
    sampleInheritedBuilder.getNonce "constructor" = some 0 ∧
    (sampleInheritedBuilder.selectTransactions sampleStringify 0).1.transactions =
      ["constructor>0xBob"] ∧
    ({ sampleInheritedBuilder with state := some sampleState }).getNonce "constructor" = none ∧
    (({ sampleInheritedBuilder with state := some sampleState }).selectTransactions
      sampleStringify 0).1.transactions = [] := by
  decide

/-- The demo: the three transactions are selected in the order of their gas
price, the mempool is left in that order, and the attestation of slot 99 is
selected at slot 100. -/
theorem selection_of_the_demo :
    (sampleBuilder.selectTransactions sampleStringify 0).1.transactions =
      ["0xCarol>0xContractX", "0xAlice>0xBob", "0xDave>0xEve"] ∧
    (sampleBuilder.selectTransactions sampleStringify 0).2.mempool.map Transaction.sender =
      ["0xCarol", "0xAlice", "0xDave"] ∧
    sampleBuilder.selectAttestations.1 = sampleBuilder.attestationPool ∧
    ({ sampleBuilder with currentSlot := some 132 }).selectAttestations.1 = [] := by
  decide

end Blocks
